import Mathlib

/-!
# metaflac `operations.c` and the file encoder of libFLAC

A shallow embedding of `src/metaflac/operations.c` (the filter predicate, the
major operations, the shorthand dispatcher and the replay gain aggregator) and
of `src/libFLAC/file_encoder.c` (`init`, `finish` and the setters; the seekable
stream encoder underneath is kept as the list of calls it receives).  The chain of metadata
blocks of one file is a list of blocks in on-disk order; the metadata iterator
of libFLAC is a chain together with the index of its current node.  C loops
become folds or fuel-bounded recursions over an explicit loop state, and the
library calls made on a chain (padding transforms, the write) are recorded in an
event log so that "is written" / "is never written" can be stated.  The
handlers of the other `operations_shorthand_*.c` files and the grabbag replay
gain calls are parameters; what is dispatched and what is called on them is
logged in the same way.

`unsigned` counters (`block_number`, loop indices) are natural numbers: they are
bounded by the number of blocks of a chain and never wrap.  Allocation is taken
to succeed, so the `die("out of memory ...")` exits are left out.
-/

namespace Metaflac

/-! ## Data model -/

/-- The tag `FLAC__MetadataType` of a metadata block. -/
inductive MetadataType where
  | STREAMINFO
  | PADDING
  | APPLICATION
  | SEEKTABLE
  | VORBIS_COMMENT
  | CUESHEET
  | PICTURE
  | UNDEFINED (code : Nat)
  deriving DecidableEq, Repr

/-- The four identifier bytes of an application block
(`FLAC__STREAM_METADATA_APPLICATION_ID_LEN / 8 = 4`). Two identifiers are equal
exactly when `memcmp` over the four bytes returns 0. -/
structure ApplicationId where
  b0 : Nat
  b1 : Nat
  b2 : Nat
  b3 : Nat
  deriving DecidableEq, Repr

/-- The fields of `FLAC__StreamMetadata` that `operations.c` reads or that the
iterator changes: the type tag, the last-block flag, the declared length, the
application identifier (`data.application.id`, meaningful for application
blocks) and the remaining payload as raw bytes. -/
structure StreamMetadata where
  type : MetadataType
  is_last : Bool
  length : Nat
  application_id : ApplicationId
  data : List Nat
  deriving DecidableEq, Repr

/-- The block list of one file, in on-disk order (`FLAC__Metadata_Chain`). -/
abbrev Chain := List StreamMetadata

/-- One entry of a `--block-type` / `--except-block-type` argument
(`Argument_BlockTypeEntry`). -/
structure BlockTypeEntry where
  type : MetadataType
  application_id : ApplicationId
  filter_application_by_id : Bool
  deriving DecidableEq, Repr

/-- The tagged union `Argument`: the tag is `ArgumentType`, the payload the
member of `value` that belongs to it. -/
inductive Argument where
  | BLOCK_NUMBER (entries : List Nat)
  | BLOCK_TYPE (entries : List BlockTypeEntry)
  | EXCEPT_BLOCK_TYPE (entries : List BlockTypeEntry)
  | DATA_FORMAT (is_binary : Bool)
  | FROM_FILE (file_name : String)
  deriving DecidableEq, Repr

/-- The enumeration `OperationType`. -/
inductive OperationType where
  | SHOW_MD5SUM
  | SHOW_MIN_BLOCKSIZE
  | SHOW_MAX_BLOCKSIZE
  | SHOW_MIN_FRAMESIZE
  | SHOW_MAX_FRAMESIZE
  | SHOW_SAMPLE_RATE
  | SHOW_CHANNELS
  | SHOW_BPS
  | SHOW_TOTAL_SAMPLES
  | SET_MD5SUM
  | SET_MIN_BLOCKSIZE
  | SET_MAX_BLOCKSIZE
  | SET_MIN_FRAMESIZE
  | SET_MAX_FRAMESIZE
  | SET_SAMPLE_RATE
  | SET_CHANNELS
  | SET_BPS
  | SET_TOTAL_SAMPLES
  | SHOW_VC_VENDOR
  | SHOW_VC_FIELD
  | REMOVE_VC_ALL
  | REMOVE_VC_FIELD
  | REMOVE_VC_FIRSTFIELD
  | SET_VC_FIELD
  | IMPORT_VC_FROM
  | EXPORT_VC_TO
  | IMPORT_CUESHEET_FROM
  | EXPORT_CUESHEET_TO
  | IMPORT_PICTURE_FROM
  | EXPORT_PICTURE_TO
  | ADD_SEEKPOINT
  | ADD_REPLAY_GAIN
  | ADD_PADDING
  | LIST
  | APPEND
  | REMOVE
  | REMOVE_ALL
  | MERGE_PADDING
  | SORT_PADDING
  deriving DecidableEq, Repr

/-- One requested operation: its type and the two arguments `operations.c`
reads from the union (`add_padding.length`, `add_seekpoint.specification`). -/
structure Operation where
  type : OperationType
  add_padding_length : Nat
  add_seekpoint_specification : String
  deriving DecidableEq, Repr

/-- The member `args.checks` of the options. -/
structure Checks where
  has_block_type : Bool
  has_except_block_type : Bool
  deriving DecidableEq, Repr

/-- The fields of `CommandLineOptions` read by `operations.c`; the counted
arrays (`ops.operations`, `args.arguments`, `filenames`) are lists. -/
structure CommandLineOptions where
  preserve_modtime : Bool
  prefix_with_filename : Bool
  utf8_convert : Bool
  use_padding : Bool
  application_data_format_is_hexdump : Bool
  output_json : Bool
  operations : List Operation
  checks : Checks
  arguments : List Argument
  filenames : List String
  deriving DecidableEq, Repr

/-- The ways a call can end without returning to its caller. -/
inductive Fault where
  /-- An active `FLAC__ASSERT` whose condition is false. -/
  | assertion_failure
  /-- A null block pointer handed to `passes_filter`, or `operations[0]` read
  from an empty operation array. -/
  | invalid_read
  /-- The iteration bound of a loop of the model is used up; the bounds are
  chosen so that this never happens. -/
  | out_of_fuel
  deriving DecidableEq, Repr

/-- The macro `FLAC__ASSERT(x)`. Its definition is not part of `operations.c`;
whether it is compiled in is the parameter `active`: an active assertion whose
condition is false aborts, an inactive one does nothing. -/
def FLAC__ASSERT (active : Bool) (x : Bool) : Except Fault Unit :=
  if active && !x then Except.error Fault.assertion_failure else Except.ok ()

/-! ## The filter predicate -/

/-- The three locals of `passes_filter` that its argument loop updates. -/
structure FilterLocals where
  matches_number : Bool
  matches_type : Bool
  has_block_number_arg : Bool
  deriving DecidableEq, Repr

/-- Body of the inner loop over the entries of a block-type argument. -/
def passes_filter_type_entry (block : StreamMetadata) (matches_type : Bool)
    (entry : BlockTypeEntry) : Bool :=
  if entry.type = block.type then
    if block.type ≠ MetadataType.APPLICATION || !entry.filter_application_by_id
        || decide (entry.application_id = block.application_id) then
      true
    else matches_type
  else matches_type

/-- Body of the inner loop over the entries of a block-number argument. -/
def passes_filter_number_entry (block_number : Nat) (matches_number : Bool)
    (entry : Nat) : Bool :=
  if entry = block_number then true else matches_number

/-- Body of the outer loop of `passes_filter` over `args.arguments`. -/
def passes_filter_argument (block : StreamMetadata) (block_number : Nat)
    (s : FilterLocals) (arg : Argument) : FilterLocals :=
  match arg with
  | Argument.BLOCK_TYPE entries =>
      { s with matches_type := entries.foldl (passes_filter_type_entry block) s.matches_type }
  | Argument.EXCEPT_BLOCK_TYPE entries =>
      { s with matches_type := entries.foldl (passes_filter_type_entry block) s.matches_type }
  | Argument.BLOCK_NUMBER entries =>
      { s with
        has_block_number_arg := true
        matches_number := entries.foldl (passes_filter_number_entry block_number) s.matches_number }
  | _ => s

/-- The function `passes_filter`. -/
def passes_filter (assert_active : Bool) (options : CommandLineOptions)
    (block : StreamMetadata) (block_number : Nat) : Except Fault Bool :=
  let s := options.arguments.foldl (passes_filter_argument block block_number)
    { matches_number := false, matches_type := false, has_block_number_arg := false }
  let matches_number := if !s.has_block_number_arg then true else s.matches_number
  if options.checks.has_block_type then
    match FLAC__ASSERT assert_active (!options.checks.has_except_block_type) with
    | Except.error e => Except.error e
    | Except.ok _ => Except.ok (matches_number && s.matches_type)
  else if options.checks.has_except_block_type then
    Except.ok (matches_number && !s.matches_type)
  else
    Except.ok (matches_number && true)

/-! ### The evaluation rule, as the spec words it (section 4.2) -/

/-- The entries of a block-type or except-block-type argument (none for the
other arguments). -/
def type_entries : Argument → List BlockTypeEntry
  | Argument.BLOCK_TYPE entries => entries
  | Argument.EXCEPT_BLOCK_TYPE entries => entries
  | _ => []

/-- The entries of a block-number argument (none for the other arguments). -/
def number_entries : Argument → List Nat
  | Argument.BLOCK_NUMBER entries => entries
  | _ => []

/-- Whether an argument is a block-number argument. -/
def is_block_number_argument : Argument → Bool
  | Argument.BLOCK_NUMBER _ => true
  | _ => false

/-- An entry matches a block: it has the block's type and (the block is not
Application-typed, or the entry has no identifier restriction, or the identifier
bytes equal the block's Application id). -/
def entry_matches (block : StreamMetadata) (entry : BlockTypeEntry) : Prop :=
  entry.type = block.type ∧
    (block.type ≠ MetadataType.APPLICATION ∨ entry.filter_application_by_id = false ∨
      entry.application_id = block.application_id)

/-- The membership test of the type set: some configured type entry matches
the block. -/
def type_member (options : CommandLineOptions) (block : StreamMetadata) : Prop :=
  ∃ arg ∈ options.arguments, ∃ entry ∈ type_entries arg, entry_matches block entry

/-- A block-number argument is configured. -/
def position_set_configured (options : CommandLineOptions) : Prop :=
  ∃ arg ∈ options.arguments, is_block_number_argument arg = true

/-- The position is an entry of some configured block-number argument. -/
def position_member (options : CommandLineOptions) (position : Nat) : Prop :=
  ∃ arg ∈ options.arguments, position ∈ number_entries arg

/-- `position_ok` of the spec: true if no position set is configured, else true
iff the position is a member. -/
def position_ok (options : CommandLineOptions) (position : Nat) : Prop :=
  ¬ position_set_configured options ∨ position_member options position

/-- `type_ok` of the spec: true if no type set is configured; in wanted-types
mode the membership test, in except-types mode its negation. -/
def type_ok (options : CommandLineOptions) (block : StreamMetadata) : Prop :=
  if options.checks.has_block_type = true then type_member options block
  else if options.checks.has_except_block_type = true then ¬ type_member options block
  else True

/-! ## The metadata iterator

`metadata_iterators.c` of libFLAC is not among the sources; the iterator is
modelled from the cursor contract of the spec (section 4.1) and from the way
`operations.c` uses it. -/

/-- An iterator: the chain it walks and the index of its current node. The
chain is shared with the caller, so every change made through the iterator is
a change of the chain. -/
structure Iterator where
  chain : Chain
  current : Nat
  deriving DecidableEq, Repr

/-- Modelled from the spec: `FLAC__metadata_iterator_init` of libFLAC (not among
the sources). The cursor is placed on the first block of the chain: section 4.4
has Remove act on each block "after the first", and `do_major_operation__list`
reads the current block right after `init` and reports it as block 0. (The
words "positioned before the first Block" of section 4.1 would make that first
read fail.) -/
def FLAC__metadata_iterator_init (chain : Chain) : Iterator :=
  { chain := chain, current := 0 }

/-- Modelled from the spec: `FLAC__metadata_iterator_get_block` (not among the
sources), `cursor.current() -> Block reference | none`. -/
def FLAC__metadata_iterator_get_block (iterator : Iterator) : Option StreamMetadata :=
  iterator.chain[iterator.current]?

/-- Modelled from the spec: `FLAC__metadata_iterator_next` (not among the
sources), `cursor.next() -> bool` (advances, false at end). At the end the
cursor stays where it is. -/
def FLAC__metadata_iterator_next (iterator : Iterator) : Bool × Iterator :=
  if iterator.current + 1 < iterator.chain.length then
    (true, { iterator with current := iterator.current + 1 })
  else (false, iterator)

/-- Sets `is_last` on the final block of a chain: how deleting a node restores
the invariant "the block with `is_last` is the chain's final element". -/
def set_tail_is_last : Chain → Chain
  | [] => []
  | [b] => [{ b with is_last := true }]
  | b :: c :: rest => b :: set_tail_is_last (c :: rest)

/-- The Padding block that takes the place of a block deleted with
`replace_with_padding`: same declared length and `is_last` flag, no payload. -/
def replacement_padding (block : StreamMetadata) : StreamMetadata :=
  { type := MetadataType.PADDING
    is_last := block.is_last
    length := block.length
    application_id := { b0 := 0, b1 := 0, b2 := 0, b3 := 0 }
    data := [] }

/-- Modelled from the spec: `FLAC__metadata_iterator_delete_block` (not among
the sources), `cursor.delete(replace_with_padding) -> bool`: deletes the current
block; with `replace_with_padding` the block is replaced in place by a Padding
block of equal declared length, otherwise the chain shrinks and the single
`is_last` invariant is restored at once. The cursor is left on the block before
the deleted one, so that one more `next` lands on the replacement padding (the
"delete-then-possibly-advance-again" pattern of the design notes). The first
block has no block before it and cannot be deleted: the call returns false and
changes nothing (the loops of `operations.c` never ask for it, they advance
before they delete). -/
def FLAC__metadata_iterator_delete_block (iterator : Iterator)
    (replace_with_padding : Bool) : Bool × Iterator :=
  match iterator.current, iterator.chain[iterator.current]? with
  | 0, _ => (false, iterator)
  | _ + 1, none => (false, iterator)
  | k + 1, some block =>
      if replace_with_padding then
        (true, { chain := iterator.chain.set (k + 1) (replacement_padding block), current := k })
      else
        (true, { chain := set_tail_is_last (iterator.chain.eraseIdx (k + 1)), current := k })

/-! ## Major operations -/

/-- Locals of `do_major_operation__list`; `reports` is what `write_metadata` /
`write_metadata_json` are called on, in order: block number and block. -/
structure ListLocals where
  iterator : Iterator
  ok : Bool
  block_number : Nat
  reports : List (Nat × StreamMetadata)
  deriving DecidableEq, Repr

/-- The `do { ... } while(ok && next)` loop of `do_major_operation__list`. -/
def list_loop (assert_active : Bool) (options : CommandLineOptions) :
    Nat → ListLocals → Except Fault ListLocals
  | 0, _ => Except.error Fault.out_of_fuel
  | fuel + 1, s =>
      match FLAC__metadata_iterator_get_block s.iterator with
      | none =>
          -- ok &= (0 != block); the error message; block_number++; the loop ends on !ok
          Except.ok { s with ok := false, block_number := s.block_number + 1 }
      | some block =>
          if !s.ok then
            Except.ok { s with block_number := s.block_number + 1 }
          else
            match passes_filter assert_active options block s.block_number with
            | Except.error e => Except.error e
            | Except.ok selected =>
                let s1 : ListLocals :=
                  { s with
                    reports := if selected then s.reports ++ [(s.block_number, block)] else s.reports
                    block_number := s.block_number + 1 }
                match FLAC__metadata_iterator_next s1.iterator with
                | (false, it) => Except.ok { s1 with iterator := it }
                | (true, it) => list_loop assert_active options fuel { s1 with iterator := it }

/-- The function `do_major_operation__list` (the rendering of a report as text
or JSON is outside the model). -/
def do_major_operation__list (assert_active : Bool) (chain : Chain)
    (options : CommandLineOptions) : Except Fault ListLocals :=
  list_loop assert_active options (chain.length + 1)
    { iterator := FLAC__metadata_iterator_init chain, ok := true, block_number := 0, reports := [] }

/-- The function `do_major_operation__append`: prints "--append not implemented
yet" and returns false. -/
def do_major_operation__append (_chain : Chain) (_options : CommandLineOptions) : Bool :=
  false

/-- Locals of `do_major_operation__remove`; `tested` records the calls of
`passes_filter` in order: the block handed over and its `block_number`. -/
structure RemoveLocals where
  iterator : Iterator
  ok : Bool
  block_number : Nat
  tested : List (StreamMetadata × Nat)
  deriving DecidableEq, Repr

/-- The `while(ok && next)` loop of `do_major_operation__remove`. -/
def remove_loop (assert_active : Bool) (options : CommandLineOptions) :
    Nat → RemoveLocals → Except Fault RemoveLocals
  | 0, _ => Except.error Fault.out_of_fuel
  | fuel + 1, s =>
      if !s.ok then Except.ok s
      else
        match FLAC__metadata_iterator_next s.iterator with
        | (false, it) => Except.ok { s with iterator := it }
        | (true, it) =>
            let block_number := s.block_number + 1
            match FLAC__metadata_iterator_get_block it with
            | none => Except.error Fault.invalid_read
            | some block =>
                match passes_filter assert_active options block block_number with
                | Except.error e => Except.error e
                | Except.ok selected =>
                    let tested := s.tested ++ [(block, block_number)]
                    if selected then
                      let d := FLAC__metadata_iterator_delete_block it options.use_padding
                      if options.use_padding then
                        let n := FLAC__metadata_iterator_next d.2
                        remove_loop assert_active options fuel
                          { iterator := n.2, ok := (s.ok && d.1) && n.1
                            block_number := block_number, tested := tested }
                      else
                        remove_loop assert_active options fuel
                          { iterator := d.2, ok := s.ok && d.1
                            block_number := block_number, tested := tested }
                    else
                      remove_loop assert_active options fuel
                        { iterator := it, ok := s.ok, block_number := block_number, tested := tested }

/-- The function `do_major_operation__remove`. -/
def do_major_operation__remove (assert_active : Bool) (chain : Chain)
    (options : CommandLineOptions) : Except Fault RemoveLocals :=
  remove_loop assert_active options (chain.length + 1)
    { iterator := FLAC__metadata_iterator_init chain, ok := true, block_number := 0, tested := [] }

/-- Locals of `do_major_operation__remove_all`. -/
structure RemoveAllLocals where
  iterator : Iterator
  ok : Bool
  deriving DecidableEq, Repr

/-- The `while(ok && next)` loop of `do_major_operation__remove_all`. -/
def remove_all_loop (options : CommandLineOptions) : Nat → RemoveAllLocals → Except Fault RemoveAllLocals
  | 0, _ => Except.error Fault.out_of_fuel
  | fuel + 1, s =>
      if !s.ok then Except.ok s
      else
        match FLAC__metadata_iterator_next s.iterator with
        | (false, it) => Except.ok { s with iterator := it }
        | (true, it) =>
            let d := FLAC__metadata_iterator_delete_block it options.use_padding
            if options.use_padding then
              let n := FLAC__metadata_iterator_next d.2
              remove_all_loop options fuel { iterator := n.2, ok := (s.ok && d.1) && n.1 }
            else
              remove_all_loop options fuel { iterator := d.2, ok := s.ok && d.1 }

/-- The function `do_major_operation__remove_all`. -/
def do_major_operation__remove_all (chain : Chain) (options : CommandLineOptions) :
    Except Fault RemoveAllLocals :=
  remove_all_loop options (chain.length + 1)
    { iterator := FLAC__metadata_iterator_init chain, ok := true }

/-- The calls of libFLAC that `operations.c` makes on files and whole chains;
their code is not among the sources, so they are parameters: reading a chain
from a file (native and Ogg container), the two padding transforms, and the
result of writing a chain back. -/
structure MetadataLibrary where
  chain_read : String → Option Chain
  chain_read_ogg : String → Option Chain
  chain_merge_padding : Chain → Chain
  chain_sort_padding : Chain → Chain
  chain_write : Chain → Bool → Bool → Bool

/-- A chain-level library call made while one file is processed. -/
inductive ChainEvent where
  | merge_padding
  | sort_padding
  | write (chain : Chain) (use_padding : Bool) (preserve_modtime : Bool)
  deriving DecidableEq, Repr

/-- What processing one file leaves behind: the value returned, the final value
of the local `needs_write`, the chain as it is just before
`FLAC__metadata_chain_delete` (`none` when reading failed), the chain-level
library calls in order, and the blocks reported by List. -/
structure FileOutcome where
  ok : Bool
  needs_write : Bool
  chain : Option Chain
  events : List ChainEvent
  reports : List (Nat × StreamMetadata)
  deriving DecidableEq, Repr

/-- The guess of the file type in `do_major_operation_on_file`: the name has at
least four characters and ends in ".oga" or ".ogg". -/
def is_ogg_filename (filename : String) : Bool :=
  let cs := filename.data
  decide (4 ≤ cs.length) &&
    (decide (cs.drop (cs.length - 4) = ['.', 'o', 'g', 'a']) ||
     decide (cs.drop (cs.length - 4) = ['.', 'o', 'g', 'g']))

/-- The tail of `do_major_operation_on_file` and of
`do_shorthand_operations_on_file`: `if(ok && needs_write) { sort; write }`. -/
def write_if_needed (lib : MetadataLibrary) (ok needs_write use_padding preserve_modtime : Bool)
    (chain : Chain) (events : List ChainEvent) (reports : List (Nat × StreamMetadata)) :
    FileOutcome :=
  if ok && needs_write then
    let sorted := if use_padding then lib.chain_sort_padding chain else chain
    let events1 := if use_padding then events ++ [ChainEvent.sort_padding] else events
    { ok := lib.chain_write sorted use_padding preserve_modtime
      needs_write := needs_write
      chain := some sorted
      events := events1 ++ [ChainEvent.write sorted use_padding preserve_modtime]
      reports := reports }
  else
    { ok := ok, needs_write := needs_write, chain := some chain, events := events, reports := reports }

/-- The function `do_major_operation_on_file`. -/
def do_major_operation_on_file (lib : MetadataLibrary) (assert_active : Bool)
    (filename : String) (options : CommandLineOptions) : Except Fault FileOutcome :=
  let read := if is_ogg_filename filename then lib.chain_read_ogg filename
    else lib.chain_read filename
  match read with
  | none =>
      Except.ok { ok := false, needs_write := false, chain := none, events := [], reports := [] }
  | some chain =>
      match options.operations.head? with
      | none => Except.error Fault.invalid_read
      | some operation =>
          match operation.type with
          | OperationType.LIST =>
              match do_major_operation__list assert_active chain options with
              | Except.error e => Except.error e
              | Except.ok r =>
                  Except.ok (write_if_needed lib r.ok false options.use_padding
                    options.preserve_modtime r.iterator.chain [] r.reports)
          | OperationType.APPEND =>
              Except.ok (write_if_needed lib (do_major_operation__append chain options) true
                options.use_padding options.preserve_modtime chain [] [])
          | OperationType.REMOVE =>
              match do_major_operation__remove assert_active chain options with
              | Except.error e => Except.error e
              | Except.ok r =>
                  Except.ok (write_if_needed lib r.ok true options.use_padding
                    options.preserve_modtime r.iterator.chain [] [])
          | OperationType.REMOVE_ALL =>
              match do_major_operation__remove_all chain options with
              | Except.error e => Except.error e
              | Except.ok r =>
                  Except.ok (write_if_needed lib r.ok true options.use_padding
                    options.preserve_modtime r.iterator.chain [] [])
          | OperationType.MERGE_PADDING =>
              Except.ok (write_if_needed lib true true options.use_padding
                options.preserve_modtime (lib.chain_merge_padding chain)
                [ChainEvent.merge_padding] [])
          | OperationType.SORT_PADDING =>
              Except.ok (write_if_needed lib true true options.use_padding
                options.preserve_modtime (lib.chain_sort_padding chain)
                [ChainEvent.sort_padding] [])
          | _ =>
              match FLAC__ASSERT assert_active false with
              | Except.error e => Except.error e
              | Except.ok _ =>
                  Except.ok { ok := false, needs_write := false, chain := some chain
                              events := [], reports := [] }

end Metaflac

/-! ## Batches of files under a major operation -/

namespace Metaflac

/-- Locals of `do_major_operation` after some files: the accumulated `ok` and
what each file processed so far left behind, in processing order. -/
structure MajorBatchOutcome where
  ok : Bool
  files : List FileOutcome
  deriving DecidableEq, Repr

/-- The `for` loop of `do_major_operation` over the file names still to do:
`ok &= do_major_operation_on_file(filenames[i], options)`. -/
def do_major_operation_loop (lib : MetadataLibrary) (assert_active : Bool)
    (options : CommandLineOptions) :
    List String → MajorBatchOutcome → Except Fault MajorBatchOutcome
  | [], s => Except.ok s
  | filename :: rest, s =>
      match do_major_operation_on_file lib assert_active filename options with
      | Except.error e => Except.error e
      | Except.ok out =>
          do_major_operation_loop lib assert_active options rest
            { ok := s.ok && out.ok, files := s.files ++ [out] }

/-- The function `do_major_operation`. -/
def do_major_operation (lib : MetadataLibrary) (assert_active : Bool)
    (options : CommandLineOptions) : Except Fault MajorBatchOutcome :=
  do_major_operation_loop lib assert_active options options.filenames { ok := true, files := [] }

/-! ## Shorthand operations -/

/-- What a call that works on the chain through a `needs_write` pointer leaves:
the value returned, the chain, and the flag behind the pointer. -/
structure HandlerResult where
  ok : Bool
  chain : Chain
  needs_write : Bool
  deriving DecidableEq, Repr

/-- The collaborators of the shorthand path whose code is not in
`operations.c`: the handlers of the other `operations_shorthand_*.c` files, with
their arguments in the order of the C prototypes (the flag behind `needs_write`
is passed in and returned), and whether libFLAC accepts the insertion of a block
into a chain. -/
structure ShorthandLibrary where
  streaminfo : String → Bool → Chain → Operation → Bool → HandlerResult
  vorbis_comment : String → Bool → Chain → Operation → Bool → Bool → HandlerResult
  cuesheet : String → Chain → Operation → Bool → HandlerResult
  picture : String → Chain → Operation → Bool → HandlerResult
  add_seekpoints : String → Chain → String → Bool → HandlerResult
  insert_accepted : Chain → StreamMetadata → Bool

/-- Modelled from the spec: `FLAC__metadata_object_new` of libFLAC (not among
the sources), `new_block(type) -> Block`: a fresh block of the given type with
no payload, declared length 0 and `is_last` clear. -/
def FLAC__metadata_object_new (type : MetadataType) : StreamMetadata :=
  { type := type, is_last := false, length := 0
    application_id := { b0 := 0, b1 := 0, b2 := 0, b3 := 0 }, data := [] }

/-- Modelled from the spec: `FLAC__metadata_iterator_insert_block_after` (not
among the sources), `cursor.insert_after(block)`. The C call reports failure
through its result; `accepted` says whether the library accepts the insertion,
and a refused insertion changes nothing. An accepted one puts the block right
after the current block, moves the cursor onto it and restores the single
`is_last` invariant at once: the current block and the new block have the flag
cleared, then the final block of the chain gets it. -/
def FLAC__metadata_iterator_insert_block_after (accepted : Bool) (iterator : Iterator)
    (block : StreamMetadata) : Bool × Iterator :=
  match iterator.chain[iterator.current]? with
  | none => (false, iterator)
  | some current =>
      if accepted then
        (true,
          { chain := set_tail_is_last
              (iterator.chain.take iterator.current ++
                { current with is_last := false } :: { block with is_last := false } ::
                  iterator.chain.drop (iterator.current + 1))
            current := iterator.current + 1 })
      else (false, iterator)

/-- The loop `while(FLAC__metadata_iterator_next(iterator));` of
`do_shorthand_operation__add_padding`. -/
def add_padding_advance : Nat → Iterator → Except Fault Iterator
  | 0, _ => Except.error Fault.out_of_fuel
  | fuel + 1, iterator =>
      match FLAC__metadata_iterator_next iterator with
      | (false, it) => Except.ok it
      | (true, it) => add_padding_advance fuel it

/-- The function `do_shorthand_operation__add_padding`. -/
def do_shorthand_operation__add_padding (lib : ShorthandLibrary) (_filename : String)
    (chain : Chain) (length : Nat) (needs_write : Bool) : Except Fault HandlerResult :=
  match add_padding_advance (chain.length + 1) (FLAC__metadata_iterator_init chain) with
  | Except.error e => Except.error e
  | Except.ok iterator =>
      let padding := { FLAC__metadata_object_new MetadataType.PADDING with length := length }
      match FLAC__metadata_iterator_insert_block_after (lib.insert_accepted chain padding)
          iterator padding with
      | (false, it) => Except.ok { ok := false, chain := it.chain, needs_write := needs_write }
      | (true, it) => Except.ok { ok := true, chain := it.chain, needs_write := true }

/-- The function `do_shorthand_operation`: the switch over the operation type. -/
def do_shorthand_operation (lib : ShorthandLibrary) (assert_active : Bool) (filename : String)
    (prefix_with_filename : Bool) (chain : Chain) (operation : Operation) (needs_write : Bool)
    (utf8_convert : Bool) : Except Fault HandlerResult :=
  match operation.type with
  | OperationType.SHOW_MD5SUM | OperationType.SHOW_MIN_BLOCKSIZE
  | OperationType.SHOW_MAX_BLOCKSIZE | OperationType.SHOW_MIN_FRAMESIZE
  | OperationType.SHOW_MAX_FRAMESIZE | OperationType.SHOW_SAMPLE_RATE
  | OperationType.SHOW_CHANNELS | OperationType.SHOW_BPS | OperationType.SHOW_TOTAL_SAMPLES
  | OperationType.SET_MD5SUM | OperationType.SET_MIN_BLOCKSIZE
  | OperationType.SET_MAX_BLOCKSIZE | OperationType.SET_MIN_FRAMESIZE
  | OperationType.SET_MAX_FRAMESIZE | OperationType.SET_SAMPLE_RATE
  | OperationType.SET_CHANNELS | OperationType.SET_BPS | OperationType.SET_TOTAL_SAMPLES =>
      Except.ok (lib.streaminfo filename prefix_with_filename chain operation needs_write)
  | OperationType.SHOW_VC_VENDOR | OperationType.SHOW_VC_FIELD | OperationType.REMOVE_VC_ALL
  | OperationType.REMOVE_VC_FIELD | OperationType.REMOVE_VC_FIRSTFIELD
  | OperationType.SET_VC_FIELD | OperationType.IMPORT_VC_FROM | OperationType.EXPORT_VC_TO =>
      Except.ok (lib.vorbis_comment filename prefix_with_filename chain operation needs_write
        (!utf8_convert))
  | OperationType.IMPORT_CUESHEET_FROM | OperationType.EXPORT_CUESHEET_TO =>
      Except.ok (lib.cuesheet filename chain operation needs_write)
  | OperationType.IMPORT_PICTURE_FROM | OperationType.EXPORT_PICTURE_TO =>
      Except.ok (lib.picture filename chain operation needs_write)
  | OperationType.ADD_SEEKPOINT =>
      Except.ok (lib.add_seekpoints filename chain operation.add_seekpoint_specification
        needs_write)
  | OperationType.ADD_REPLAY_GAIN =>
      -- this command is always executed last
      Except.ok { ok := true, chain := chain, needs_write := needs_write }
  | OperationType.ADD_PADDING =>
      do_shorthand_operation__add_padding lib filename chain operation.add_padding_length
        needs_write
  | _ =>
      -- ok = false; FLAC__ASSERT(0);
      match FLAC__ASSERT assert_active false with
      | Except.error e => Except.error e
      | Except.ok _ => Except.ok { ok := false, chain := chain, needs_write := needs_write }

/-- The handlers only ever set the flag behind `needs_write`: called with the
flag set, each of them leaves it set (the flag "becomes true if any handler
mutated the chain", section 4.3 of the spec). -/
def ShorthandLibrary.keeps_needs_write (lib : ShorthandLibrary) : Prop :=
  (∀ filename pwf chain operation,
    (lib.streaminfo filename pwf chain operation true).needs_write = true) ∧
  (∀ filename pwf chain operation raw,
    (lib.vorbis_comment filename pwf chain operation true raw).needs_write = true) ∧
  (∀ filename chain operation, (lib.cuesheet filename chain operation true).needs_write = true) ∧
  (∀ filename chain operation, (lib.picture filename chain operation true).needs_write = true) ∧
  (∀ filename chain specification,
    (lib.add_seekpoints filename chain specification true).needs_write = true)

/-- Locals of `do_shorthand_operations_on_file`; `dispatched` records the calls
of `do_shorthand_operation` in order, by the operation handed over. -/
structure ShorthandLocals where
  ok : Bool
  needs_write : Bool
  use_padding : Bool
  chain : Chain
  dispatched : List Operation
  deriving DecidableEq, Repr

/-- The first `for` loop of `do_shorthand_operations_on_file`, over the
operations still to do: every operation but the seek point additions is
dispatched, and an add-padding operation turns the local `use_padding` off. The
loop ends as soon as `ok` is false. -/
def shorthand_first_loop (lib : ShorthandLibrary) (assert_active : Bool) (filename : String)
    (options : CommandLineOptions) :
    List Operation → ShorthandLocals → Except Fault ShorthandLocals
  | [], s => Except.ok s
  | operation :: rest, s =>
      if !s.ok then Except.ok s
      else if operation.type ≠ OperationType.ADD_SEEKPOINT then
        match do_shorthand_operation lib assert_active filename options.prefix_with_filename
            s.chain operation s.needs_write options.utf8_convert with
        | Except.error e => Except.error e
        | Except.ok r =>
            shorthand_first_loop lib assert_active filename options rest
              { ok := s.ok && r.ok, needs_write := r.needs_write
                use_padding :=
                  if operation.type = OperationType.ADD_PADDING then false else s.use_padding
                chain := r.chain, dispatched := s.dispatched ++ [operation] }
      else
        shorthand_first_loop lib assert_active filename options rest
          { s with
            use_padding :=
              if operation.type = OperationType.ADD_PADDING then false else s.use_padding }

/-- The second `for` loop of `do_shorthand_operations_on_file`: the seek point
additions, in their order. The loop ends as soon as `ok` is false. -/
def shorthand_second_loop (lib : ShorthandLibrary) (assert_active : Bool) (filename : String)
    (options : CommandLineOptions) :
    List Operation → ShorthandLocals → Except Fault ShorthandLocals
  | [], s => Except.ok s
  | operation :: rest, s =>
      if !s.ok then Except.ok s
      else if operation.type = OperationType.ADD_SEEKPOINT then
        match do_shorthand_operation lib assert_active filename options.prefix_with_filename
            s.chain operation s.needs_write options.utf8_convert with
        | Except.error e => Except.error e
        | Except.ok r =>
            shorthand_second_loop lib assert_active filename options rest
              { s with
                ok := s.ok && r.ok, needs_write := r.needs_write, chain := r.chain
                dispatched := s.dispatched ++ [operation] }
      else shorthand_second_loop lib assert_active filename options rest s

/-- What the shorthand pass over one file leaves behind: the value returned,
the final values of the locals `needs_write` and `use_padding`, the chain just
before it is deleted (`none` when reading failed), the operations dispatched in
order, and the chain-level library calls in order. -/
structure ShorthandFileOutcome where
  ok : Bool
  needs_write : Bool
  use_padding : Bool
  chain : Option Chain
  dispatched : List Operation
  events : List ChainEvent
  deriving DecidableEq, Repr

/-- The two dispatch loops of `do_shorthand_operations_on_file` one after the
other, started on the chain read from the file. Since `ok` is only ever
and-ed with the value of a dispatch, they end with `ok` true exactly when every
operation was dispatched and every dispatch returned true. -/
def shorthand_dispatch_loops (lib : ShorthandLibrary) (assert_active : Bool)
    (filename : String) (options : CommandLineOptions) (chain : Chain) :
    Except Fault ShorthandLocals :=
  match shorthand_first_loop lib assert_active filename options options.operations
      { ok := true, needs_write := false, use_padding := options.use_padding
        chain := chain, dispatched := [] } with
  | Except.error e => Except.error e
  | Except.ok s1 =>
      shorthand_second_loop lib assert_active filename options options.operations s1

/-- The function `do_shorthand_operations_on_file`. -/
def do_shorthand_operations_on_file (lib : ShorthandLibrary) (mlib : MetadataLibrary)
    (assert_active : Bool) (filename : String) (options : CommandLineOptions) :
    Except Fault ShorthandFileOutcome :=
  match mlib.chain_read filename with
  | none =>
      Except.ok { ok := false, needs_write := false, use_padding := options.use_padding
                  chain := none, dispatched := [], events := [] }
  | some chain =>
      match shorthand_dispatch_loops lib assert_active filename options chain with
      | Except.error e => Except.error e
      | Except.ok s2 =>
          let out := write_if_needed mlib s2.ok s2.needs_write s2.use_padding
            options.preserve_modtime s2.chain [] []
          Except.ok { ok := out.ok, needs_write := out.needs_write
                      use_padding := s2.use_padding, chain := out.chain
                      dispatched := s2.dispatched, events := out.events }

end Metaflac

/-! ## The replay gain aggregator -/

namespace Metaflac

/-- The three fields of a stream info block that the aggregator reads. -/
structure StreamInfo where
  sample_rate : Nat
  bits_per_sample : Nat
  channels : Nat
  deriving DecidableEq, Repr

/-- A `float` value as the aggregator handles it: it is stored and handed on,
never computed with, so it is carried as its bit pattern. -/
abbrev FloatBits := Nat

/-- The collaborators of the aggregator whose code is not in `operations.c`:
`FLAC__metadata_get_streaminfo`, the `grabbag__replaygain_*` calls and the two
constants `FLAC__MIN_BITS_PER_SAMPLE` / `FLAC__MAX_BITS_PER_SAMPLE`. The
analysis of a file yields an error text or the title gain and peak; the album
gain and peak are those of the files analysed since `init`; a store yields an
error text or nothing. Files are not changed between the analysis calls of one
run, so the analysis is a function of the file name. -/
structure ReplayGainLibrary where
  get_streaminfo : String → Option StreamInfo
  is_valid_sample_frequency : Nat → Bool
  init : Nat → Bool
  analyze_file : String → Except String (FloatBits × FloatBits)
  get_album : List String → FloatBits × FloatBits
  store_to_file : String → FloatBits → FloatBits → FloatBits → FloatBits → Bool → Option String
  min_bits_per_sample : Nat
  max_bits_per_sample : Nat

/-- A call the aggregator makes on a collaborator. -/
inductive ReplayGainEvent where
  | get_streaminfo (filename : String)
  | init (sample_rate : Nat)
  | analyze_file (filename : String)
  | get_album
  | store_to_file (filename : String) (album_gain album_peak title_gain title_peak : FloatBits)
      (preserve_modtime : Bool)
  deriving DecidableEq, Repr

/-- One run of the aggregator: the calls made, in order, and how the run ended
(the value returned, or the fault that ended it). -/
structure ReplayGainRun where
  events : List ReplayGainEvent
  result : Except Fault Bool

/-- The locals of the validation loop. -/
structure ValidationLocals where
  first : Bool
  sample_rate : Nat
  bits_per_sample : Nat
  channels : Nat
  deriving DecidableEq, Repr

/-- The first `for` loop of `do_shorthand_operation__add_replay_gain`, over the
file names still to do; `none` stands for a `return false` from inside the
loop. -/
def replay_gain_validate (lib : ReplayGainLibrary) :
    List String → ValidationLocals → List ReplayGainEvent →
      List ReplayGainEvent × Option ValidationLocals
  | [], s, events => (events, some s)
  | filename :: rest, s, events =>
      let events1 := events ++ [ReplayGainEvent.get_streaminfo filename]
      match lib.get_streaminfo filename with
      | none => (events1, none)
      | some streaminfo =>
          let checked : Option ValidationLocals :=
            if s.first then
              some { first := false, sample_rate := streaminfo.sample_rate
                     bits_per_sample := streaminfo.bits_per_sample
                     channels := streaminfo.channels }
            else if s.sample_rate ≠ streaminfo.sample_rate then none
            else if s.bits_per_sample ≠ streaminfo.bits_per_sample then none
            else if s.channels ≠ streaminfo.channels then none
            else some s
          match checked with
          | none => (events1, none)
          | some s1 =>
              if !lib.is_valid_sample_frequency s1.sample_rate then (events1, none)
              else if s1.channels ≠ 1 && s1.channels ≠ 2 then (events1, none)
              else replay_gain_validate lib rest s1 events1

/-- The second `for` loop: the analysis of each file; the title gains and peaks
are collected in file order, `none` stands for the `return false` on an analysis
error. -/
def replay_gain_analyze (lib : ReplayGainLibrary) :
    List String → List (FloatBits × FloatBits) → List ReplayGainEvent →
      List ReplayGainEvent × Option (List (FloatBits × FloatBits))
  | [], titles, events => (events, some titles)
  | filename :: rest, titles, events =>
      let events1 := events ++ [ReplayGainEvent.analyze_file filename]
      match lib.analyze_file filename with
      | Except.error _ => (events1, none)
      | Except.ok title => replay_gain_analyze lib rest (titles ++ [title]) events1

/-- The third `for` loop: the store into each file, with the album values and
the title values of that file; the result is the value the function returns. -/
def replay_gain_store (lib : ReplayGainLibrary) (album : FloatBits × FloatBits)
    (preserve_modtime : Bool) :
    List (String × (FloatBits × FloatBits)) → List ReplayGainEvent →
      List ReplayGainEvent × Bool
  | [], events => (events, true)
  | (filename, title) :: rest, events =>
      let events1 := events ++
        [ReplayGainEvent.store_to_file filename album.1 album.2 title.1 title.2 preserve_modtime]
      match lib.store_to_file filename album.1 album.2 title.1 title.2 preserve_modtime with
      | some _ => (events1, false)
      | none => replay_gain_store lib album preserve_modtime rest events1

/-- The function `do_shorthand_operation__add_replay_gain`. -/
def do_shorthand_operation__add_replay_gain (lib : ReplayGainLibrary) (assert_active : Bool)
    (filenames : List String) (preserve_modtime : Bool) : ReplayGainRun :=
  match FLAC__ASSERT assert_active (decide (0 < filenames.length)) with
  | Except.error e => { events := [], result := Except.error e }
  | Except.ok _ =>
      match replay_gain_validate lib filenames
          { first := true, sample_rate := 0, bits_per_sample := 0, channels := 0 } [] with
      | (events, none) => { events := events, result := Except.ok false }
      | (events, some s) =>
          match FLAC__ASSERT assert_active
              (decide (lib.min_bits_per_sample ≤ s.bits_per_sample) &&
                decide (s.bits_per_sample ≤ lib.max_bits_per_sample)) with
          | Except.error e => { events := events, result := Except.error e }
          | Except.ok _ =>
              let events1 := events ++ [ReplayGainEvent.init s.sample_rate]
              if !lib.init s.sample_rate then
                match FLAC__ASSERT assert_active false with
                | Except.error e => { events := events1, result := Except.error e }
                | Except.ok _ => { events := events1, result := Except.ok false }
              else
                match replay_gain_analyze lib filenames [] events1 with
                | (events2, none) => { events := events2, result := Except.ok false }
                | (events2, some titles) =>
                    let album := lib.get_album filenames
                    let stored := replay_gain_store lib album preserve_modtime
                      (filenames.zip titles) (events2 ++ [ReplayGainEvent.get_album])
                    { events := stored.1, result := Except.ok stored.2 }

/-- The store call made for a file and its title values. -/
def store_call (album : FloatBits × FloatBits) (preserve_modtime : Bool)
    (p : String × (FloatBits × FloatBits)) : ReplayGainEvent :=
  ReplayGainEvent.store_to_file p.1 album.1 album.2 p.2.1 p.2.2 preserve_modtime

/-- Whether an event is an analysis call. -/
def ReplayGainEvent.is_analysis : ReplayGainEvent → Bool
  | ReplayGainEvent.analyze_file _ => true
  | _ => false

/-- Whether an event is a store call. -/
def ReplayGainEvent.is_store : ReplayGainEvent → Bool
  | ReplayGainEvent.store_to_file _ _ _ _ _ _ => true
  | _ => false

/-! ## Batches of files under shorthand operations -/

/-- A step of `do_shorthand_operations`: the pass over one file, or one run of
the replay gain aggregator. -/
inductive ShorthandBatchEvent where
  | file_pass (filename : String) (outcome : ShorthandFileOutcome)
  | add_replay_gain (run : ReplayGainRun)

/-- Locals of `do_shorthand_operations`: the accumulated `ok` and the steps taken
so far, in order. -/
structure ShorthandBatchOutcome where
  ok : Bool
  log : List ShorthandBatchEvent

/-- Whether a step of the batch is a run of the replay gain aggregator. -/
def ShorthandBatchEvent.is_replay_gain : ShorthandBatchEvent → Bool
  | ShorthandBatchEvent.add_replay_gain _ => true
  | ShorthandBatchEvent.file_pass _ _ => false

/-- The first `for` loop of `do_shorthand_operations`, over the file names still
to do: `ok &= do_shorthand_operations_on_file(filenames[i], options)`. -/
def do_shorthand_operations_files (lib : ShorthandLibrary) (mlib : MetadataLibrary)
    (assert_active : Bool) (options : CommandLineOptions) :
    List String → ShorthandBatchOutcome → Except Fault ShorthandBatchOutcome
  | [], s => Except.ok s
  | filename :: rest, s =>
      match do_shorthand_operations_on_file lib mlib assert_active filename options with
      | Except.error e => Except.error e
      | Except.ok out =>
          do_shorthand_operations_files lib mlib assert_active options rest
            { ok := s.ok && out.ok
              log := s.log ++ [ShorthandBatchEvent.file_pass filename out] }

/-- The second `for` loop of `do_shorthand_operations`, over the operations
still to do: each operation of type `OP__ADD_REPLAY_GAIN` runs the aggregator
and assigns its result to `ok`. -/
def do_shorthand_operations_replay_gain (rg : ReplayGainLibrary) (assert_active : Bool)
    (options : CommandLineOptions) :
    List Operation → ShorthandBatchOutcome → Except Fault ShorthandBatchOutcome
  | [], s => Except.ok s
  | operation :: rest, s =>
      if operation.type = OperationType.ADD_REPLAY_GAIN then
        let run := do_shorthand_operation__add_replay_gain rg assert_active options.filenames
          options.preserve_modtime
        match run.result with
        | Except.error e => Except.error e
        | Except.ok r =>
            do_shorthand_operations_replay_gain rg assert_active options rest
              { ok := r, log := s.log ++ [ShorthandBatchEvent.add_replay_gain run] }
      else do_shorthand_operations_replay_gain rg assert_active options rest s

/-- The function `do_shorthand_operations`. -/
def do_shorthand_operations (lib : ShorthandLibrary) (mlib : MetadataLibrary)
    (rg : ReplayGainLibrary) (assert_active : Bool) (options : CommandLineOptions) :
    Except Fault ShorthandBatchOutcome :=
  match do_shorthand_operations_files lib mlib assert_active options options.filenames
      { ok := true, log := [] } with
  | Except.error e => Except.error e
  | Except.ok s =>
      if s.ok && decide (0 < options.filenames.length) then
        do_shorthand_operations_replay_gain rg assert_active options options.operations s
      else Except.ok s

end Metaflac

/-! ## Chain invariants -/

namespace Metaflac

/-- Exactly one block of the chain has `is_last` set, and it is the final
block. -/
def single_is_last : Chain → Bool
  | [] => false
  | [b] => b.is_last
  | b :: c :: rest => !b.is_last && single_is_last (c :: rest)

/-- The number of stream info blocks of a chain; the invariant "at most one
StreamInfo block" is `streaminfo_count chain ≤ 1`. -/
def streaminfo_count (chain : Chain) : Nat :=
  chain.countP (fun b => decide (b.type = MetadataType.STREAMINFO))

/-- Every block of the chain but the final one has `is_last` clear. -/
def no_early_is_last : Chain → Bool
  | [] => true
  | [_] => true
  | b :: c :: rest => !b.is_last && no_early_is_last (c :: rest)

end Metaflac

/-! ## What Remove is expected to leave -/

namespace Metaflac

/-- Whether `passes_filter` returns true on a block and a position. -/
def selects (assert_active : Bool) (options : CommandLineOptions) (block : StreamMetadata)
    (position : Nat) : Bool :=
  match passes_filter assert_active options block position with
  | Except.ok r => r
  | Except.error _ => false

/-- The blocks of `blocks` for which `passes_filter` is false, in their order;
`position` is the position of the first of them in the chain. -/
def kept_from (assert_active : Bool) (options : CommandLineOptions) :
    Nat → List StreamMetadata → List StreamMetadata
  | _, [] => []
  | position, b :: rest =>
      if selects assert_active options b position then
        kept_from assert_active options (position + 1) rest
      else b :: kept_from assert_active options (position + 1) rest

/-- Whether `passes_filter` is true for some block of `blocks`; `position` is
the position of the first of them in the chain. -/
def any_selected (assert_active : Bool) (options : CommandLineOptions) :
    Nat → List StreamMetadata → Bool
  | _, [] => false
  | position, b :: rest =>
      selects assert_active options b position ||
        any_selected assert_active options (position + 1) rest

/-- The blocks of `blocks`, each one for which `passes_filter` is true replaced
by its replacement padding; `position` is the position of the first of them in
the chain. -/
def padded_from (assert_active : Bool) (options : CommandLineOptions) :
    Nat → List StreamMetadata → List StreamMetadata
  | _, [] => []
  | position, b :: rest =>
      (if selects assert_active options b position then replacement_padding b else b) ::
        padded_from assert_active options (position + 1) rest

/-- The blocks of `blocks` paired with their positions in the chain; `position`
is the position of the first of them. -/
def with_positions : Nat → List StreamMetadata → List (StreamMetadata × Nat)
  | _, [] => []
  | position, b :: rest => (b, position) :: with_positions (position + 1) rest

end Metaflac

/-! ## The dispatches of a shorthand pass, one after the other -/

namespace Metaflac

/-- What the calls of `do_shorthand_operation` for the given operations return
when they are made one after the other as `do_shorthand_operations_on_file`
makes them: each on the chain and with the flag behind `needs_write` that the
call before it left. -/
def dispatch_results (lib : ShorthandLibrary) (assert_active : Bool) (filename : String)
    (options : CommandLineOptions) :
    List Operation → Chain → Bool → Except Fault (List HandlerResult)
  | [], _, _ => Except.ok []
  | operation :: rest, chain, needs_write =>
      match do_shorthand_operation lib assert_active filename options.prefix_with_filename
          chain operation needs_write options.utf8_convert with
      | Except.error e => Except.error e
      | Except.ok r =>
          match dispatch_results lib assert_active filename options rest r.chain
              r.needs_write with
          | Except.error e => Except.error e
          | Except.ok rs => Except.ok (r :: rs)

/-- The chain and the flag behind `needs_write` after a series of dispatches
with the given results, started on `chain` and `needs_write`. -/
def dispatch_end (results : List HandlerResult) (chain : Chain) (needs_write : Bool) :
    Chain × Bool :=
  results.foldl (fun _ r => (r.chain, r.needs_write)) (chain, needs_write)

/-- The locals of `do_shorthand_operations_on_file` agree with the dispatches
made so far on the chain read from the file: `ok` is the conjunction of their
results, and the chain and `needs_write` are what the last of them left. -/
def agrees_with_dispatches (lib : ShorthandLibrary) (assert_active : Bool) (filename : String)
    (options : CommandLineOptions) (chain : Chain) (s : ShorthandLocals) : Prop :=
  ∃ results, dispatch_results lib assert_active filename options s.dispatched chain false =
      Except.ok results ∧
    s.ok = results.all (fun r => r.ok) ∧
    (s.chain, s.needs_write) = dispatch_end results chain false

end Metaflac

/-! ## Sample inputs -/

namespace Metaflac

/-- A block of the given type, declared length, flag and application id. -/
def sample_block (type : MetadataType) (length : Nat) (is_last : Bool)
    (application_id : ApplicationId) : StreamMetadata :=
  { type := type, is_last := is_last, length := length, application_id := application_id
    data := [length % 256] }

/-- Options with the given filter arguments, type flags, padding option and
operations; the remaining switches are off and there are no files. -/
def sample_options (arguments : List Argument) (has_block_type has_except_block_type : Bool)
    (use_padding : Bool) (operations : List Operation) : CommandLineOptions :=
  { preserve_modtime := false, prefix_with_filename := false, utf8_convert := false
    use_padding := use_padding, application_data_format_is_hexdump := false
    output_json := false, operations := operations
    checks := { has_block_type := has_block_type, has_except_block_type := has_except_block_type }
    arguments := arguments, filenames := [] }

/-- An operation of the given type, with no padding length and an empty seek
point specification. -/
def sample_operation (type : OperationType) : Operation :=
  { type := type, add_padding_length := 0, add_seekpoint_specification := "" }

/-- A library whose reads return the given chain for every file name, whose
padding transforms leave a chain as it is, and whose write succeeds. -/
def sample_library (chain : Chain) : MetadataLibrary :=
  { chain_read := fun _ => some chain
    chain_read_ogg := fun _ => some chain
    chain_merge_padding := fun c => c
    chain_sort_padding := fun c => c
    chain_write := fun _ _ _ => true }

/-- A library as `sample_library`, except that reading the file `missing` fails. -/
def sample_library_without (missing : String) (chain : Chain) : MetadataLibrary :=
  { chain_read := fun filename => if filename = missing then none else some chain
    chain_read_ogg := fun filename => if filename = missing then none else some chain
    chain_merge_padding := fun c => c
    chain_sort_padding := fun c => c
    chain_write := fun _ _ _ => true }

/-- Handlers that all succeed, leave the chain as it is and set `needs_write`;
every insertion is accepted. -/
def sample_handlers : ShorthandLibrary :=
  { streaminfo := fun _ _ chain _ _ => { ok := true, chain := chain, needs_write := true }
    vorbis_comment := fun _ _ chain _ _ _ => { ok := true, chain := chain, needs_write := true }
    cuesheet := fun _ chain _ _ => { ok := true, chain := chain, needs_write := true }
    picture := fun _ chain _ _ => { ok := true, chain := chain, needs_write := true }
    add_seekpoints := fun _ chain _ _ => { ok := true, chain := chain, needs_write := true }
    insert_accepted := fun _ _ => true }

/-- A replay gain library over the given stream infos, analysis and store
behaviour: 44100 Hz and 48000 Hz are the supported sample rates, the title gain
and peak of a file are the length of its name and twice that, the album gain is
the number of files analysed and the album peak 99, a store fails on the files
for which `store_fails` holds, and 4 to 32 bits per sample are allowed. -/
def sample_replay_gain (streaminfo : String → Option StreamInfo)
    (analysis_fails store_fails : String → Bool) : ReplayGainLibrary :=
  { get_streaminfo := streaminfo
    is_valid_sample_frequency := fun rate => rate == 44100 || rate == 48000
    init := fun rate => rate == 44100 || rate == 48000
    analyze_file := fun filename =>
      if analysis_fails filename then Except.error "analysis failed"
      else Except.ok (filename.length, 2 * filename.length)
    get_album := fun filenames => (filenames.length, 99)
    store_to_file := fun filename _ _ _ _ _ =>
      if store_fails filename then some "store failed" else none
    min_bits_per_sample := 4
    max_bits_per_sample := 32 }

/-- The stream info of a CD-quality file: 44100 Hz, 16 bits, 2 channels. -/
def cd_streaminfo : StreamInfo := { sample_rate := 44100, bits_per_sample := 16, channels := 2 }

/-- The application id "abcd". -/
def id_abcd : ApplicationId := { b0 := 97, b1 := 98, b2 := 99, b3 := 100 }

/-- The application id "wxyz". -/
def id_wxyz : ApplicationId := { b0 := 119, b1 := 120, b2 := 121, b3 := 122 }

/-- The all-zero application id carried by blocks that are not application blocks. -/
def id_zero : ApplicationId := { b0 := 0, b1 := 0, b2 := 0, b3 := 0 }

/-- An entry for `type:abcd`: restricted to the application id "abcd". -/
def entry_abcd (type : MetadataType) : BlockTypeEntry :=
  { type := type, application_id := id_abcd, filter_application_by_id := true }

/-- An entry for a bare `type`, without identifier restriction. -/
def entry_any (type : MetadataType) : BlockTypeEntry :=
  { type := type, application_id := id_zero, filter_application_by_id := false }

end Metaflac

/-! ## The file encoder of libFLAC (`file_encoder.c`) -/

namespace LibFLAC

/-- The states of a file encoder, in the order of `FLAC__FileEncoderStateString`. -/
inductive FLAC__FileEncoderState where
  | FLAC__FILE_ENCODER_OK
  | FLAC__FILE_ENCODER_NO_FILENAME
  | FLAC__FILE_ENCODER_SEEKABLE_STREAM_ENCODER_ERROR
  | FLAC__FILE_ENCODER_FATAL_ERROR_WHILE_WRITING
  | FLAC__FILE_ENCODER_ERROR_OPENING_FILE
  | FLAC__FILE_ENCODER_MEMORY_ALLOCATION_ERROR
  | FLAC__FILE_ENCODER_ALREADY_INITIALIZED
  | FLAC__FILE_ENCODER_UNINITIALIZED
  deriving DecidableEq, Repr

/-- A value handed to one of the setters of the seekable stream encoder, named
after the setter (`FLAC__seekable_stream_encoder_set_<name>`). The C types
`FLAC__bool`, `unsigned` and `FLAC__uint64` are carried as `Bool` and `Nat`;
the values are handed on unchanged, never computed with. -/
inductive EncoderSetting where
  | streamable_subset (value : Bool)
  | do_mid_side_stereo (value : Bool)
  | loose_mid_side_stereo (value : Bool)
  | channels (value : Nat)
  | bits_per_sample (value : Nat)
  | sample_rate (value : Nat)
  | blocksize (value : Nat)
  | max_lpc_order (value : Nat)
  | qlp_coeff_precision (value : Nat)
  | do_qlp_coeff_prec_search (value : Bool)
  | do_escape_coding (value : Bool)
  | do_exhaustive_model_search (value : Bool)
  | min_residual_partition_order (value : Nat)
  | max_residual_partition_order (value : Nat)
  | rice_parameter_search_dist (value : Nat)
  | total_samples_estimate (value : Nat)
  | metadata (metadata : List Metaflac.StreamMetadata) (num_blocks : Nat)
  deriving DecidableEq, Repr

/-- A call that the file encoder makes on its seekable stream encoder. -/
inductive SeekableCall where
  | set (setting : EncoderSetting)
  | set_seek_callback
  | set_write_callback
  | set_client_data
  | init
  | finish
  deriving DecidableEq, Repr

/-- A `FILE *` that is not null. -/
abbrev FILE := Nat

/-- What `file_encoder.c` calls and does not define: the seekable stream
encoder (the result of a setter and whether `init` returns
`FLAC__SEEKABLE_STREAM_ENCODER_OK`, both as functions of the calls it has
received before), `fopen(filename, "w+b")` (`none` for a null result) and
whether `malloc` of the given size succeeds. -/
structure FileEncoderLibrary where
  set_result : List SeekableCall → EncoderSetting → Bool
  init_ok : List SeekableCall → Bool
  fopen : String → Option FILE
  malloc : Nat → Bool

/-- The member `state` of `FLAC__FileEncoderProtected`. -/
structure FLAC__FileEncoderProtected where
  state : FLAC__FileEncoderState
  deriving DecidableEq, Repr

/-- The structure `FLAC__FileEncoderPrivate`: the open file and the stored file
name (`none` for a null pointer), and the seekable stream encoder, kept as the
calls it has received, in order. -/
structure FLAC__FileEncoderPrivate where
  file : Option FILE
  filename : Option String
  seekable_stream_encoder : List SeekableCall
  deriving DecidableEq, Repr

/-- The structure `FLAC__FileEncoder`. The pointers that the functions assert
to be non-null (`encoder`, `protected_`, `private_`, the seekable stream
encoder, the `value` of `set_filename`) are values here, so those assertions
hold. -/
structure FLAC__FileEncoder where
  protected_ : FLAC__FileEncoderProtected
  private_ : FLAC__FileEncoderPrivate
  deriving DecidableEq, Repr

/-- A call `FLAC__seekable_stream_encoder_set_<name>(seekable_stream_encoder,
value)` made by the file encoder: the result is the library's, and the call is
recorded. -/
def seekable_stream_encoder_set (lib : FileEncoderLibrary) (encoder : FLAC__FileEncoder)
    (setting : EncoderSetting) : Bool × FLAC__FileEncoder :=
  (lib.set_result encoder.private_.seekable_stream_encoder setting,
    { encoder with
      private_ :=
        { encoder.private_ with
          seekable_stream_encoder :=
            encoder.private_.seekable_stream_encoder ++ [SeekableCall.set setting] } })

/-- The function `set_defaults_`. -/
def set_defaults_ (encoder : FLAC__FileEncoder) : FLAC__FileEncoder :=
  { encoder with private_ := { encoder.private_ with filename := none } }

/-- The function `FLAC__file_encoder_init`: the state returned (and stored) and
the encoder afterwards. -/
def FLAC__file_encoder_init (lib : FileEncoderLibrary) (encoder : FLAC__FileEncoder) :
    FLAC__FileEncoderState × FLAC__FileEncoder :=
  if encoder.protected_.state ≠ FLAC__FileEncoderState.FLAC__FILE_ENCODER_UNINITIALIZED then
    (FLAC__FileEncoderState.FLAC__FILE_ENCODER_ALREADY_INITIALIZED,
      { encoder with
        protected_ := { state := FLAC__FileEncoderState.FLAC__FILE_ENCODER_ALREADY_INITIALIZED } })
  else
    match encoder.private_.filename with
    | none =>
        (FLAC__FileEncoderState.FLAC__FILE_ENCODER_NO_FILENAME,
          { encoder with
            protected_ := { state := FLAC__FileEncoderState.FLAC__FILE_ENCODER_NO_FILENAME } })
    | some filename =>
        match lib.fopen filename with
        | none =>
            (FLAC__FileEncoderState.FLAC__FILE_ENCODER_ERROR_OPENING_FILE,
              { protected_ :=
                  { state := FLAC__FileEncoderState.FLAC__FILE_ENCODER_ERROR_OPENING_FILE }
                private_ := { encoder.private_ with file := none } })
        | some file =>
            let calls := encoder.private_.seekable_stream_encoder ++
              [SeekableCall.set_seek_callback, SeekableCall.set_write_callback,
                SeekableCall.set_client_data]
            let private_ : FLAC__FileEncoderPrivate :=
              { encoder.private_ with
                file := some file, seekable_stream_encoder := calls ++ [SeekableCall.init] }
            if !lib.init_ok calls then
              (FLAC__FileEncoderState.FLAC__FILE_ENCODER_SEEKABLE_STREAM_ENCODER_ERROR,
                { protected_ :=
                    { state :=
                        FLAC__FileEncoderState.FLAC__FILE_ENCODER_SEEKABLE_STREAM_ENCODER_ERROR }
                  private_ := private_ })
            else
              (FLAC__FileEncoderState.FLAC__FILE_ENCODER_OK,
                { protected_ := { state := FLAC__FileEncoderState.FLAC__FILE_ENCODER_OK }
                  private_ := private_ })

/-- The function `FLAC__file_encoder_finish`. The calls `fclose` and `free`
leave no trace in the encoder beyond the pointers set to null. -/
def FLAC__file_encoder_finish (encoder : FLAC__FileEncoder) : FLAC__FileEncoder :=
  if encoder.protected_.state = FLAC__FileEncoderState.FLAC__FILE_ENCODER_UNINITIALIZED then
    encoder
  else
    let e1 : FLAC__FileEncoder :=
      { encoder with
        private_ :=
          { encoder.private_ with
            seekable_stream_encoder :=
              encoder.private_.seekable_stream_encoder ++ [SeekableCall.finish] } }
    let e2 : FLAC__FileEncoder :=
      if e1.private_.file ≠ none then { e1 with private_ := { e1.private_ with file := none } }
      else e1
    let e3 : FLAC__FileEncoder :=
      if e2.private_.filename ≠ none then
        { e2 with private_ := { e2.private_ with filename := none } }
      else e2
    { set_defaults_ e3 with
      protected_ := { state := FLAC__FileEncoderState.FLAC__FILE_ENCODER_UNINITIALIZED } }

/-- The function `FLAC__file_encoder_set_streamable_subset`. -/
def FLAC__file_encoder_set_streamable_subset (lib : FileEncoderLibrary)
    (encoder : FLAC__FileEncoder) (value : Bool) : Bool × FLAC__FileEncoder :=
  if encoder.protected_.state ≠ FLAC__FileEncoderState.FLAC__FILE_ENCODER_UNINITIALIZED then
    (false, encoder)
  else seekable_stream_encoder_set lib encoder (EncoderSetting.streamable_subset value)

/-- The function `FLAC__file_encoder_set_do_mid_side_stereo`. -/
def FLAC__file_encoder_set_do_mid_side_stereo (lib : FileEncoderLibrary)
    (encoder : FLAC__FileEncoder) (value : Bool) : Bool × FLAC__FileEncoder :=
  if encoder.protected_.state ≠ FLAC__FileEncoderState.FLAC__FILE_ENCODER_UNINITIALIZED then
    (false, encoder)
  else seekable_stream_encoder_set lib encoder (EncoderSetting.do_mid_side_stereo value)

/-- The function `FLAC__file_encoder_set_loose_mid_side_stereo`. -/
def FLAC__file_encoder_set_loose_mid_side_stereo (lib : FileEncoderLibrary)
    (encoder : FLAC__FileEncoder) (value : Bool) : Bool × FLAC__FileEncoder :=
  if encoder.protected_.state ≠ FLAC__FileEncoderState.FLAC__FILE_ENCODER_UNINITIALIZED then
    (false, encoder)
  else seekable_stream_encoder_set lib encoder (EncoderSetting.loose_mid_side_stereo value)

/-- The function `FLAC__file_encoder_set_channels`. -/
def FLAC__file_encoder_set_channels (lib : FileEncoderLibrary)
    (encoder : FLAC__FileEncoder) (value : Nat) : Bool × FLAC__FileEncoder :=
  if encoder.protected_.state ≠ FLAC__FileEncoderState.FLAC__FILE_ENCODER_UNINITIALIZED then
    (false, encoder)
  else seekable_stream_encoder_set lib encoder (EncoderSetting.channels value)

/-- The function `FLAC__file_encoder_set_bits_per_sample`. -/
def FLAC__file_encoder_set_bits_per_sample (lib : FileEncoderLibrary)
    (encoder : FLAC__FileEncoder) (value : Nat) : Bool × FLAC__FileEncoder :=
  if encoder.protected_.state ≠ FLAC__FileEncoderState.FLAC__FILE_ENCODER_UNINITIALIZED then
    (false, encoder)
  else seekable_stream_encoder_set lib encoder (EncoderSetting.bits_per_sample value)

/-- The function `FLAC__file_encoder_set_sample_rate`. -/
def FLAC__file_encoder_set_sample_rate (lib : FileEncoderLibrary)
    (encoder : FLAC__FileEncoder) (value : Nat) : Bool × FLAC__FileEncoder :=
  if encoder.protected_.state ≠ FLAC__FileEncoderState.FLAC__FILE_ENCODER_UNINITIALIZED then
    (false, encoder)
  else seekable_stream_encoder_set lib encoder (EncoderSetting.sample_rate value)

/-- The function `FLAC__file_encoder_set_blocksize`. -/
def FLAC__file_encoder_set_blocksize (lib : FileEncoderLibrary)
    (encoder : FLAC__FileEncoder) (value : Nat) : Bool × FLAC__FileEncoder :=
  if encoder.protected_.state ≠ FLAC__FileEncoderState.FLAC__FILE_ENCODER_UNINITIALIZED then
    (false, encoder)
  else seekable_stream_encoder_set lib encoder (EncoderSetting.blocksize value)

/-- The function `FLAC__file_encoder_set_max_lpc_order`. -/
def FLAC__file_encoder_set_max_lpc_order (lib : FileEncoderLibrary)
    (encoder : FLAC__FileEncoder) (value : Nat) : Bool × FLAC__FileEncoder :=
  if encoder.protected_.state ≠ FLAC__FileEncoderState.FLAC__FILE_ENCODER_UNINITIALIZED then
    (false, encoder)
  else seekable_stream_encoder_set lib encoder (EncoderSetting.max_lpc_order value)

/-- The function `FLAC__file_encoder_set_qlp_coeff_precision`. -/
def FLAC__file_encoder_set_qlp_coeff_precision (lib : FileEncoderLibrary)
    (encoder : FLAC__FileEncoder) (value : Nat) : Bool × FLAC__FileEncoder :=
  if encoder.protected_.state ≠ FLAC__FileEncoderState.FLAC__FILE_ENCODER_UNINITIALIZED then
    (false, encoder)
  else seekable_stream_encoder_set lib encoder (EncoderSetting.qlp_coeff_precision value)

/-- The function `FLAC__file_encoder_set_do_qlp_coeff_prec_search`. -/
def FLAC__file_encoder_set_do_qlp_coeff_prec_search (lib : FileEncoderLibrary)
    (encoder : FLAC__FileEncoder) (value : Bool) : Bool × FLAC__FileEncoder :=
  if encoder.protected_.state ≠ FLAC__FileEncoderState.FLAC__FILE_ENCODER_UNINITIALIZED then
    (false, encoder)
  else seekable_stream_encoder_set lib encoder (EncoderSetting.do_qlp_coeff_prec_search value)

/-- The function `FLAC__file_encoder_set_do_escape_coding`. -/
def FLAC__file_encoder_set_do_escape_coding (lib : FileEncoderLibrary)
    (encoder : FLAC__FileEncoder) (value : Bool) : Bool × FLAC__FileEncoder :=
  if encoder.protected_.state ≠ FLAC__FileEncoderState.FLAC__FILE_ENCODER_UNINITIALIZED then
    (false, encoder)
  else seekable_stream_encoder_set lib encoder (EncoderSetting.do_escape_coding value)

/-- The function `FLAC__file_encoder_set_do_exhaustive_model_search`. -/
def FLAC__file_encoder_set_do_exhaustive_model_search (lib : FileEncoderLibrary)
    (encoder : FLAC__FileEncoder) (value : Bool) : Bool × FLAC__FileEncoder :=
  if encoder.protected_.state ≠ FLAC__FileEncoderState.FLAC__FILE_ENCODER_UNINITIALIZED then
    (false, encoder)
  else seekable_stream_encoder_set lib encoder (EncoderSetting.do_exhaustive_model_search value)

/-- The function `FLAC__file_encoder_set_min_residual_partition_order`. -/
def FLAC__file_encoder_set_min_residual_partition_order (lib : FileEncoderLibrary)
    (encoder : FLAC__FileEncoder) (value : Nat) : Bool × FLAC__FileEncoder :=
  if encoder.protected_.state ≠ FLAC__FileEncoderState.FLAC__FILE_ENCODER_UNINITIALIZED then
    (false, encoder)
  else seekable_stream_encoder_set lib encoder (EncoderSetting.min_residual_partition_order value)

/-- The function `FLAC__file_encoder_set_max_residual_partition_order`. -/
def FLAC__file_encoder_set_max_residual_partition_order (lib : FileEncoderLibrary)
    (encoder : FLAC__FileEncoder) (value : Nat) : Bool × FLAC__FileEncoder :=
  if encoder.protected_.state ≠ FLAC__FileEncoderState.FLAC__FILE_ENCODER_UNINITIALIZED then
    (false, encoder)
  else seekable_stream_encoder_set lib encoder (EncoderSetting.max_residual_partition_order value)

/-- The function `FLAC__file_encoder_set_rice_parameter_search_dist`. -/
def FLAC__file_encoder_set_rice_parameter_search_dist (lib : FileEncoderLibrary)
    (encoder : FLAC__FileEncoder) (value : Nat) : Bool × FLAC__FileEncoder :=
  if encoder.protected_.state ≠ FLAC__FileEncoderState.FLAC__FILE_ENCODER_UNINITIALIZED then
    (false, encoder)
  else seekable_stream_encoder_set lib encoder (EncoderSetting.rice_parameter_search_dist value)

/-- The function `FLAC__file_encoder_set_total_samples_estimate`. -/
def FLAC__file_encoder_set_total_samples_estimate (lib : FileEncoderLibrary)
    (encoder : FLAC__FileEncoder) (value : Nat) : Bool × FLAC__FileEncoder :=
  if encoder.protected_.state ≠ FLAC__FileEncoderState.FLAC__FILE_ENCODER_UNINITIALIZED then
    (false, encoder)
  else seekable_stream_encoder_set lib encoder (EncoderSetting.total_samples_estimate value)

/-- The function `FLAC__file_encoder_set_metadata`. -/
def FLAC__file_encoder_set_metadata (lib : FileEncoderLibrary) (encoder : FLAC__FileEncoder)
    (metadata : List Metaflac.StreamMetadata) (num_blocks : Nat) : Bool × FLAC__FileEncoder :=
  if encoder.protected_.state ≠ FLAC__FileEncoderState.FLAC__FILE_ENCODER_UNINITIALIZED then
    (false, encoder)
  else seekable_stream_encoder_set lib encoder (EncoderSetting.metadata metadata num_blocks)

/-- The function `FLAC__file_encoder_set_filename`; the buffer asked of
`malloc` has `strlen(value) + 1` bytes. -/
def FLAC__file_encoder_set_filename (lib : FileEncoderLibrary) (encoder : FLAC__FileEncoder)
    (value : String) : Bool × FLAC__FileEncoder :=
  if encoder.protected_.state ≠ FLAC__FileEncoderState.FLAC__FILE_ENCODER_UNINITIALIZED then
    (false, encoder)
  else
    let e1 : FLAC__FileEncoder :=
      if encoder.private_.filename ≠ none then
        { encoder with private_ := { encoder.private_ with filename := none } }
      else encoder
    if !lib.malloc (value.utf8ByteSize + 1) then
      (false,
        { e1 with
          protected_ :=
            { state := FLAC__FileEncoderState.FLAC__FILE_ENCODER_MEMORY_ALLOCATION_ERROR } })
    else (true, { e1 with private_ := { e1.private_ with filename := some value } })

/-- The function `FLAC__file_encoder_get_state`. -/
def FLAC__file_encoder_get_state (encoder : FLAC__FileEncoder) : FLAC__FileEncoderState :=
  encoder.protected_.state

/-! ### Calls of a client -/

/-- A call of a client on a file encoder other than `finish`: one of the
setters that forward a value, `set_filename`, or `init`. -/
inductive ClientCall where
  | set (setting : EncoderSetting)
  | set_filename (value : String)
  | init
  deriving DecidableEq, Repr

/-- The setter of the file encoder for the given value. -/
def file_encoder_set (lib : FileEncoderLibrary) (encoder : FLAC__FileEncoder) :
    EncoderSetting → Bool × FLAC__FileEncoder
  | EncoderSetting.streamable_subset value => FLAC__file_encoder_set_streamable_subset lib encoder value
  | EncoderSetting.do_mid_side_stereo value => FLAC__file_encoder_set_do_mid_side_stereo lib encoder value
  | EncoderSetting.loose_mid_side_stereo value => FLAC__file_encoder_set_loose_mid_side_stereo lib encoder value
  | EncoderSetting.channels value => FLAC__file_encoder_set_channels lib encoder value
  | EncoderSetting.bits_per_sample value => FLAC__file_encoder_set_bits_per_sample lib encoder value
  | EncoderSetting.sample_rate value => FLAC__file_encoder_set_sample_rate lib encoder value
  | EncoderSetting.blocksize value => FLAC__file_encoder_set_blocksize lib encoder value
  | EncoderSetting.max_lpc_order value => FLAC__file_encoder_set_max_lpc_order lib encoder value
  | EncoderSetting.qlp_coeff_precision value => FLAC__file_encoder_set_qlp_coeff_precision lib encoder value
  | EncoderSetting.do_qlp_coeff_prec_search value => FLAC__file_encoder_set_do_qlp_coeff_prec_search lib encoder value
  | EncoderSetting.do_escape_coding value => FLAC__file_encoder_set_do_escape_coding lib encoder value
  | EncoderSetting.do_exhaustive_model_search value => FLAC__file_encoder_set_do_exhaustive_model_search lib encoder value
  | EncoderSetting.min_residual_partition_order value => FLAC__file_encoder_set_min_residual_partition_order lib encoder value
  | EncoderSetting.max_residual_partition_order value => FLAC__file_encoder_set_max_residual_partition_order lib encoder value
  | EncoderSetting.rice_parameter_search_dist value => FLAC__file_encoder_set_rice_parameter_search_dist lib encoder value
  | EncoderSetting.total_samples_estimate value => FLAC__file_encoder_set_total_samples_estimate lib encoder value
  | EncoderSetting.metadata metadata num_blocks =>
      FLAC__file_encoder_set_metadata lib encoder metadata num_blocks

/-- The encoder after a call of a client. -/
def client_call (lib : FileEncoderLibrary) (encoder : FLAC__FileEncoder) :
    ClientCall → FLAC__FileEncoder
  | ClientCall.set setting => (file_encoder_set lib encoder setting).2
  | ClientCall.set_filename value => (FLAC__file_encoder_set_filename lib encoder value).2
  | ClientCall.init => (FLAC__file_encoder_init lib encoder).2

/-- The encoder after a series of calls of a client, none of them `finish`. -/
def client_calls (lib : FileEncoderLibrary) (encoder : FLAC__FileEncoder) :
    List ClientCall → FLAC__FileEncoder
  | [] => encoder
  | call :: rest => client_calls lib (client_call lib encoder call) rest

/-! ### Sample inputs -/

/-- A library whose setters and `init` succeed, whose `fopen` returns the file 3
and whose `malloc` succeeds. -/
def sample_encoder_library : FileEncoderLibrary :=
  { set_result := fun _ _ => true, init_ok := fun _ => true, fopen := fun _ => some 3
    malloc := fun _ => true }

/-- An encoder in the given state with the given file and file name, whose
seekable stream encoder has received no call. -/
def sample_encoder (state : FLAC__FileEncoderState) (file : Option FILE)
    (filename : Option String) : FLAC__FileEncoder :=
  { protected_ := { state := state }
    private_ := { file := file, filename := filename, seekable_stream_encoder := [] } }

end LibFLAC

/-! ## Theorems -/

namespace Metaflac

/-! ### The filter predicate -/

theorem foldl_type_entry (block : StreamMetadata) (entries : List BlockTypeEntry) (m : Bool) :
    entries.foldl (passes_filter_type_entry block) m = true ↔
      m = true ∨ ∃ entry ∈ entries, entry_matches block entry := by
  induction entries generalizing m with
  | nil => simp
  | cons e rest ih =>
      rw [List.foldl_cons, ih]
      by_cases ht : e.type = block.type
      · by_cases hm : block.type ≠ MetadataType.APPLICATION ∨ e.filter_application_by_id = false ∨
            e.application_id = block.application_id
        · have : passes_filter_type_entry block m e = true := by
            rcases hm with h | h | h <;> simp [passes_filter_type_entry, ht, h]
          simp only [this, true_or, true_iff]
          exact Or.inr ⟨e, List.mem_cons_self _ _, ht, hm⟩
        · have hm2 := hm
          simp only [not_or] at hm2
          have : passes_filter_type_entry block m e = m := by
            simp [passes_filter_type_entry, ht, hm2.1, hm2.2.1, hm2.2.2]
          rw [this]
          simp only [List.mem_cons, exists_eq_or_imp, entry_matches, ht, hm, and_false, false_or,
            true_and]
      · have : passes_filter_type_entry block m e = m := by
          simp [passes_filter_type_entry, ht]
        rw [this]
        simp only [List.mem_cons, exists_eq_or_imp, entry_matches, ht, false_and, false_or]

theorem foldl_number_entry (block_number : Nat) (entries : List Nat) (m : Bool) :
    entries.foldl (passes_filter_number_entry block_number) m = true ↔
      m = true ∨ block_number ∈ entries := by
  induction entries generalizing m with
  | nil => simp
  | cons e rest ih =>
      rw [List.foldl_cons, ih]
      by_cases h : e = block_number
      · simp [passes_filter_number_entry, h]
      · have h2 : ¬ block_number = e := fun h3 => h h3.symm
        simp [passes_filter_number_entry, h, h2]

/-- What the argument loop of `passes_filter` leaves in its three locals. -/
theorem foldl_argument (block : StreamMetadata) (block_number : Nat) (args : List Argument)
    (s : FilterLocals) :
    ((args.foldl (passes_filter_argument block block_number) s).matches_type = true ↔
        s.matches_type = true ∨ ∃ arg ∈ args, ∃ entry ∈ type_entries arg, entry_matches block entry) ∧
    ((args.foldl (passes_filter_argument block block_number) s).matches_number = true ↔
        s.matches_number = true ∨ ∃ arg ∈ args, block_number ∈ number_entries arg) ∧
    ((args.foldl (passes_filter_argument block block_number) s).has_block_number_arg = true ↔
        s.has_block_number_arg = true ∨ ∃ arg ∈ args, is_block_number_argument arg = true) := by
  induction args generalizing s with
  | nil => simp
  | cons a rest ih =>
      rw [List.foldl_cons]
      obtain ⟨h1, h2, h3⟩ := ih (passes_filter_argument block block_number s a)
      rw [h1, h2, h3]
      cases a <;>
        simp [passes_filter_argument, type_entries, number_entries, is_block_number_argument,
          foldl_type_entry, foldl_number_entry, or_assoc]

/-- The value `passes_filter` computes, in the words of the evaluation rule. The
assertion fails exactly when it is active and both type flags are set; otherwise
the call returns, and returns true iff the position test holds and the type test
of the mode in force holds (with both flags set and the assertion compiled out,
the wanted-types test). -/
theorem passes_filter_eval (assert_active : Bool) (options : CommandLineOptions)
    (block : StreamMetadata) (block_number : Nat) :
    (assert_active = true ∧ options.checks.has_block_type = true ∧
        options.checks.has_except_block_type = true →
      passes_filter assert_active options block block_number =
        Except.error Fault.assertion_failure) ∧
    (¬ (assert_active = true ∧ options.checks.has_block_type = true ∧
        options.checks.has_except_block_type = true) →
      ∃ r, passes_filter assert_active options block block_number = Except.ok r ∧
        (r = true ↔ type_ok options block ∧ position_ok options block_number)) := by
  obtain ⟨h1, h2, h3⟩ := foldl_argument block block_number options.arguments
    { matches_number := false, matches_type := false, has_block_number_arg := false }
  simp only [Bool.false_eq_true, false_or] at h1 h2 h3
  have hn : ∀ s : FilterLocals,
      (s.has_block_number_arg = true ↔ position_set_configured options) →
      (s.matches_number = true ↔ position_member options block_number) →
      ((if (!s.has_block_number_arg) = true then true else s.matches_number) = true ↔
        position_ok options block_number) := by
    intro s e1 e2
    unfold position_ok
    rw [← e1, ← e2]
    cases s.has_block_number_arg <;> simp
  have hpos := hn _ h3 h2
  constructor
  · rintro ⟨ha, hb, he⟩
    simp [passes_filter, FLAC__ASSERT, ha, hb, he]
  · intro hcfg
    unfold passes_filter
    by_cases hb : options.checks.has_block_type = true
    · have hassert : FLAC__ASSERT assert_active (!options.checks.has_except_block_type) =
          Except.ok () := by
        unfold FLAC__ASSERT
        have : ¬ (assert_active = true ∧ options.checks.has_except_block_type = true) :=
          fun h => hcfg ⟨h.1, hb, h.2⟩
        cases assert_active <;> cases hx : options.checks.has_except_block_type <;> simp_all
      simp only [hb, if_true, hassert]
      refine ⟨_, rfl, ?_⟩
      rw [Bool.and_eq_true, hpos, h1]
      simp only [type_ok, hb, if_true, type_member]
      exact And.comm
    · by_cases he : options.checks.has_except_block_type = true
      · simp only [hb, he, if_true, if_false]
        refine ⟨_, rfl, ?_⟩
        rw [Bool.and_eq_true, hpos, Bool.not_eq_true', ← Bool.not_eq_true, h1]
        simp only [type_ok, hb, he, if_true, if_false, type_member]
        exact And.comm
      · simp only [hb, he, if_false]
        refine ⟨_, rfl, ?_⟩
        rw [Bool.and_true, hpos]
        simp [type_ok, hb, he]

/-- C1. With no block-number argument among the arguments and both
`has_block_type` and `has_except_block_type` false, `passes_filter` returns true
for every block and every block number (whether or not assertions are active). -/
theorem passes_filter_unconfigured (assert_active : Bool) (options : CommandLineOptions)
    (block : StreamMetadata) (block_number : Nat)
    (hnum : ∀ arg ∈ options.arguments, is_block_number_argument arg = false)
    (hb : options.checks.has_block_type = false)
    (he : options.checks.has_except_block_type = false) :
    passes_filter assert_active options block block_number = Except.ok true := by
  obtain ⟨r, hr, hiff⟩ := (passes_filter_eval assert_active options block block_number).2
    (by simp [hb])
  rw [hr]
  congr 1
  rw [hiff]
  refine ⟨by simp [type_ok, hb, he], Or.inl ?_⟩
  rintro ⟨arg, harg, h⟩
  rw [hnum arg harg] at h
  exact Bool.false_ne_true h

/-- Witness of C1: an options record with only a data-format argument. -/
theorem passes_filter_unconfigured_witness :
    (∀ arg ∈ (sample_options [Argument.DATA_FORMAT true] false false false []).arguments,
        is_block_number_argument arg = false) ∧
    passes_filter true (sample_options [Argument.DATA_FORMAT true] false false false [])
      (sample_block MetadataType.PICTURE 100 false id_zero) 3 = Except.ok true :=
  ⟨by decide,
   passes_filter_unconfigured true (sample_options [Argument.DATA_FORMAT true] false false false [])
     (sample_block MetadataType.PICTURE 100 false id_zero) 3 (by decide) rfl rfl⟩

/-- Counterexample to C2 as stated: with both type flags set and assertions
compiled out, `passes_filter` returns an ordinary selection result (here true,
the wanted-types result) instead of failing. -/
theorem both_type_flags_unasserted_selects :
    (sample_options [Argument.BLOCK_TYPE [entry_any MetadataType.PICTURE]] true true false
        []).checks.has_block_type = true ∧
    (sample_options [Argument.BLOCK_TYPE [entry_any MetadataType.PICTURE]] true true false
        []).checks.has_except_block_type = true ∧
    passes_filter false
      (sample_options [Argument.BLOCK_TYPE [entry_any MetadataType.PICTURE]] true true false [])
      (sample_block MetadataType.PICTURE 100 false id_zero) 2 = Except.ok true :=
  ⟨rfl, rfl, rfl⟩

/-- C2, amended. With both `has_block_type` and `has_except_block_type` set,
`passes_filter` fails its assertion when `FLAC__ASSERT` is active and returns
no selection result; when the assertion is compiled out it returns, and its
result is that of wanted-types mode (the except flag is not consulted). -/
theorem passes_filter_both_flags (options : CommandLineOptions) (block : StreamMetadata)
    (block_number : Nat) (hb : options.checks.has_block_type = true)
    (he : options.checks.has_except_block_type = true) :
    passes_filter true options block block_number = Except.error Fault.assertion_failure ∧
    ∃ r, passes_filter false options block block_number = Except.ok r ∧
      (r = true ↔ type_member options block ∧ position_ok options block_number) := by
  refine ⟨(passes_filter_eval true options block block_number).1 ⟨rfl, hb, he⟩, ?_⟩
  obtain ⟨r, hr, hiff⟩ := (passes_filter_eval false options block block_number).2 (by simp)
  refine ⟨r, hr, ?_⟩
  rw [hiff]
  simp [type_ok, hb]

/-- Witness of the amended C2. -/
theorem passes_filter_both_flags_witness :
    passes_filter true
        (sample_options [Argument.BLOCK_TYPE [entry_any MetadataType.PICTURE]] true true false [])
        (sample_block MetadataType.PICTURE 100 false id_zero) 2 =
      Except.error Fault.assertion_failure ∧
    ∃ r, passes_filter false
        (sample_options [Argument.BLOCK_TYPE [entry_any MetadataType.PICTURE]] true true false [])
        (sample_block MetadataType.PICTURE 100 false id_zero) 2 = Except.ok r ∧
      (r = true ↔
        type_member
          (sample_options [Argument.BLOCK_TYPE [entry_any MetadataType.PICTURE]] true true false [])
          (sample_block MetadataType.PICTURE 100 false id_zero) ∧
        position_ok
          (sample_options [Argument.BLOCK_TYPE [entry_any MetadataType.PICTURE]] true true false [])
          2) :=
  passes_filter_both_flags
    (sample_options [Argument.BLOCK_TYPE [entry_any MetadataType.PICTURE]] true true false [])
    (sample_block MetadataType.PICTURE 100 false id_zero) 2 rfl rfl

/-- C3. In wanted-types mode with no block-number argument, `passes_filter`
returns, and returns true if and only if some configured type entry has the
block's type and (the block is not Application-typed, or the entry has no
identifier restriction, or the entry's identifier bytes equal the block's
application id). -/
theorem passes_filter_wanted_types (assert_active : Bool) (options : CommandLineOptions)
    (block : StreamMetadata) (block_number : Nat)
    (hb : options.checks.has_block_type = true)
    (he : options.checks.has_except_block_type = false)
    (hnum : ∀ arg ∈ options.arguments, is_block_number_argument arg = false) :
    ∃ r, passes_filter assert_active options block block_number = Except.ok r ∧
      (r = true ↔
        ∃ arg ∈ options.arguments, ∃ entry ∈ type_entries arg,
          entry.type = block.type ∧
            (block.type ≠ MetadataType.APPLICATION ∨ entry.filter_application_by_id = false ∨
              entry.application_id = block.application_id)) := by
  obtain ⟨r, hr, hiff⟩ := (passes_filter_eval assert_active options block block_number).2
    (by simp [he])
  refine ⟨r, hr, ?_⟩
  rw [hiff]
  have hpos : position_ok options block_number := by
    refine Or.inl ?_
    rintro ⟨arg, harg, h⟩
    rw [hnum arg harg] at h
    exact Bool.false_ne_true h
  simp only [type_ok, hb, if_true, hpos, and_true, type_member, entry_matches]

/-- Witness of C3: `--block-type=APPLICATION:abcd` against an application block
with id "abcd". -/
theorem passes_filter_wanted_types_witness :
    (∀ arg ∈ (sample_options [Argument.BLOCK_TYPE [entry_abcd MetadataType.APPLICATION]] true false
        false []).arguments, is_block_number_argument arg = false) ∧
    ∃ r, passes_filter true
        (sample_options [Argument.BLOCK_TYPE [entry_abcd MetadataType.APPLICATION]] true false
          false [])
        (sample_block MetadataType.APPLICATION 20 false id_abcd) 1 = Except.ok r ∧
      (r = true ↔
        ∃ arg ∈ (sample_options [Argument.BLOCK_TYPE [entry_abcd MetadataType.APPLICATION]] true
            false false []).arguments, ∃ entry ∈ type_entries arg,
          entry.type = (sample_block MetadataType.APPLICATION 20 false id_abcd).type ∧
            ((sample_block MetadataType.APPLICATION 20 false id_abcd).type ≠
                MetadataType.APPLICATION ∨ entry.filter_application_by_id = false ∨
              entry.application_id =
                (sample_block MetadataType.APPLICATION 20 false id_abcd).application_id)) :=
  ⟨by decide,
   passes_filter_wanted_types true
     (sample_options [Argument.BLOCK_TYPE [entry_abcd MetadataType.APPLICATION]] true false false [])
     (sample_block MetadataType.APPLICATION 20 false id_abcd) 1 rfl rfl (by decide)⟩

/-- Counterexample to C4 as stated: in except-types mode with the entry
`APPLICATION:abcd`, an application block with id "wxyz" has its type in the
except set, yet `passes_filter` returns true: the identifier restriction of the
entry takes part in the exclusion. -/
theorem passes_filter_except_application_other_id :
    (sample_block MetadataType.APPLICATION 20 false id_wxyz).type = MetadataType.APPLICATION ∧
    (∃ arg ∈ (sample_options [Argument.EXCEPT_BLOCK_TYPE [entry_abcd MetadataType.APPLICATION]]
          false true false []).arguments, ∃ entry ∈ type_entries arg,
        entry.type = (sample_block MetadataType.APPLICATION 20 false id_wxyz).type) ∧
    passes_filter true
      (sample_options [Argument.EXCEPT_BLOCK_TYPE [entry_abcd MetadataType.APPLICATION]] false true
        false [])
      (sample_block MetadataType.APPLICATION 20 false id_wxyz) 1 = Except.ok true :=
  ⟨rfl, ⟨_, List.mem_cons_self _ _, _, List.mem_cons_self _ _, rfl⟩, rfl⟩

/-- C4, amended. In except-types mode with no block-number argument,
`passes_filter` is the negation of the wanted-types test, identifier
sub-filtering included: it returns false if and only if some configured type
entry has the block's type and (the block is not Application-typed, or the entry
has no identifier restriction, or the entry's identifier equals the block's
application id). Hence a block whose type is in no entry passes, and an
Application block is rejected by an unrestricted entry of its type whatever its
application id. -/
theorem passes_filter_except_types (assert_active : Bool) (options : CommandLineOptions)
    (block : StreamMetadata) (block_number : Nat)
    (hb : options.checks.has_block_type = false)
    (he : options.checks.has_except_block_type = true)
    (hnum : ∀ arg ∈ options.arguments, is_block_number_argument arg = false) :
    ∃ r, passes_filter assert_active options block block_number = Except.ok r ∧
      (r = false ↔
        ∃ arg ∈ options.arguments, ∃ entry ∈ type_entries arg,
          entry.type = block.type ∧
            (block.type ≠ MetadataType.APPLICATION ∨ entry.filter_application_by_id = false ∨
              entry.application_id = block.application_id)) ∧
      ((∀ arg ∈ options.arguments, ∀ entry ∈ type_entries arg, entry.type ≠ block.type) →
        r = true) ∧
      ((∃ arg ∈ options.arguments, ∃ entry ∈ type_entries arg,
          entry.type = block.type ∧ entry.filter_application_by_id = false) → r = false) := by
  obtain ⟨r, hr, hiff⟩ := (passes_filter_eval assert_active options block block_number).2
    (by simp [hb])
  have hpos : position_ok options block_number := by
    refine Or.inl ?_
    rintro ⟨arg, harg, h⟩
    rw [hnum arg harg] at h
    exact Bool.false_ne_true h
  have hmain : r = false ↔ type_member options block := by
    rw [← Bool.not_eq_true, hiff]
    simp [type_ok, hb, he, hpos]
  refine ⟨r, hr, ?_, ?_, ?_⟩
  · rw [hmain]
    simp only [type_member, entry_matches]
  · intro hno
    rw [hiff]
    refine ⟨?_, hpos⟩
    simp only [type_ok, hb, he, Bool.false_eq_true, if_false, if_true]
    rintro ⟨arg, harg, entry, hentry, hm⟩
    exact hno arg harg entry hentry hm.1
  · rintro ⟨arg, harg, entry, hentry, ht, hf⟩
    rw [hmain]
    exact ⟨arg, harg, entry, hentry, ht, Or.inr (Or.inl hf)⟩

/-- Witness of the amended C4: `--except-block-type=APPLICATION` (no identifier)
against an application block with id "wxyz". -/
theorem passes_filter_except_types_witness :
    (∀ arg ∈ (sample_options [Argument.EXCEPT_BLOCK_TYPE [entry_any MetadataType.APPLICATION]]
        false true false []).arguments, is_block_number_argument arg = false) ∧
    ∃ r, passes_filter true
        (sample_options [Argument.EXCEPT_BLOCK_TYPE [entry_any MetadataType.APPLICATION]] false true
          false [])
        (sample_block MetadataType.APPLICATION 20 false id_wxyz) 1 = Except.ok r ∧ r = false :=
  ⟨by decide,
   (passes_filter_except_types true
     (sample_options [Argument.EXCEPT_BLOCK_TYPE [entry_any MetadataType.APPLICATION]] false true
       false [])
     (sample_block MetadataType.APPLICATION 20 false id_wxyz) 1 rfl rfl (by decide)).elim
     fun r h => ⟨r, h.1, h.2.2.2 ⟨_, List.mem_cons_self _ _, _, List.mem_cons_self _ _, rfl, rfl⟩⟩⟩

/-- C5. For every filter configuration on which `passes_filter` does not fail
its assertion (assertions compiled out, or not both type flags set), every block
and every position, `passes_filter` returns `type_ok AND position_ok`, where
`position_ok` holds when no block-number argument is configured and otherwise
iff the position is an entry of some configured block-number argument; so when
block-number arguments are configured and all are empty, nothing is selected. -/
theorem passes_filter_type_and_position (assert_active : Bool) (options : CommandLineOptions)
    (block : StreamMetadata) (block_number : Nat)
    (hcfg : ¬ (assert_active = true ∧ options.checks.has_block_type = true ∧
      options.checks.has_except_block_type = true)) :
    ∃ r, passes_filter assert_active options block block_number = Except.ok r ∧
      (r = true ↔ type_ok options block ∧
        ((¬ ∃ arg ∈ options.arguments, is_block_number_argument arg = true) ∨
          ∃ arg ∈ options.arguments, block_number ∈ number_entries arg)) ∧
      ((∃ arg ∈ options.arguments, is_block_number_argument arg = true) →
        (∀ arg ∈ options.arguments, number_entries arg = []) → r = false) := by
  obtain ⟨r, hr, hiff⟩ := (passes_filter_eval assert_active options block block_number).2 hcfg
  refine ⟨r, hr, hiff, ?_⟩
  intro hconf hempty
  rw [← Bool.not_eq_true, hiff]
  rintro ⟨-, hpos⟩
  rcases hpos with hpos | ⟨arg, harg, hmem⟩
  · exact hpos hconf
  · rw [hempty arg harg] at hmem
    exact List.not_mem_nil _ hmem

/-- Witness of C5: `--block-number=` with no entry, assertions active. -/
theorem passes_filter_type_and_position_witness :
    ¬ (true = true ∧
        (sample_options [Argument.BLOCK_NUMBER []] false false false []).checks.has_block_type
          = true ∧
        (sample_options [Argument.BLOCK_NUMBER []] false false false
          []).checks.has_except_block_type = true) ∧
    ∃ r, passes_filter true (sample_options [Argument.BLOCK_NUMBER []] false false false [])
        (sample_block MetadataType.PICTURE 100 false id_zero) 0 = Except.ok r ∧ r = false :=
  ⟨by decide,
   (passes_filter_type_and_position true
     (sample_options [Argument.BLOCK_NUMBER []] false false false [])
     (sample_block MetadataType.PICTURE 100 false id_zero) 0 (by decide)).elim
     fun r h => ⟨r, h.1, h.2.2 ⟨_, List.mem_cons_self _ _, rfl⟩ (by decide)⟩⟩

/-! ### The iterator on a chain split at the cursor

The chain is `x :: (q ++ todo)` and the cursor is on the last block of
`x :: q`, at index `q.length`. -/

theorem getElem_split (q t : List StreamMetadata) (b : StreamMetadata)
    (h : q.length < (q ++ b :: t).length) : (q ++ b :: t)[q.length] = b := by
  induction q with
  | nil => rfl
  | cons a q ih => simpa using ih (by simp)

theorem next_at_end (x : StreamMetadata) (q : List StreamMetadata) :
    FLAC__metadata_iterator_next { chain := x :: q, current := q.length } =
      (false, { chain := x :: q, current := q.length }) := by
  simp [FLAC__metadata_iterator_next]

theorem next_at_inner (x b : StreamMetadata) (q t : List StreamMetadata) :
    FLAC__metadata_iterator_next { chain := x :: (q ++ b :: t), current := q.length } =
      (true, { chain := x :: (q ++ b :: t), current := q.length + 1 }) := by
  simp [FLAC__metadata_iterator_next]

theorem get_block_at_inner (x b : StreamMetadata) (q t : List StreamMetadata) :
    FLAC__metadata_iterator_get_block
      { chain := x :: (q ++ b :: t), current := q.length + 1 } = some b := by
  simp [FLAC__metadata_iterator_get_block, getElem_split]

theorem delete_block_collapse (x b : StreamMetadata) (q t : List StreamMetadata) :
    FLAC__metadata_iterator_delete_block
      { chain := x :: (q ++ b :: t), current := q.length + 1 } false =
      (true, { chain := set_tail_is_last (x :: (q ++ t)), current := q.length }) := by
  simp [FLAC__metadata_iterator_delete_block, List.eraseIdx_append_of_length_le, getElem_split]

theorem delete_block_padding (x b : StreamMetadata) (q t : List StreamMetadata) :
    FLAC__metadata_iterator_delete_block
      { chain := x :: (q ++ b :: t), current := q.length + 1 } true =
      (true, { chain := x :: (q ++ replacement_padding b :: t), current := q.length }) := by
  simp [FLAC__metadata_iterator_delete_block, getElem_split]

theorem set_tail_is_last_append (l t : List StreamMetadata) (ht : t ≠ []) :
    set_tail_is_last (l ++ t) = l ++ set_tail_is_last t := by
  induction l with
  | nil => rfl
  | cons a l ih =>
      cases hl : l ++ t with
      | nil => simp [ht] at hl
      | cons c rest =>
          rw [List.cons_append, hl, set_tail_is_last, ← hl, ih, List.cons_append]

theorem set_tail_is_last_length (l : List StreamMetadata) :
    (set_tail_is_last l).length = l.length := by
  induction l with
  | nil => rfl
  | cons a l ih =>
      cases l with
      | nil => rfl
      | cons c rest => simp only [set_tail_is_last, List.length_cons] at ih ⊢; omega

theorem set_tail_is_last_ne_nil (l : List StreamMetadata) (hl : l ≠ []) :
    set_tail_is_last l ≠ [] := by
  intro h
  have := set_tail_is_last_length l
  rw [h] at this
  exact hl (List.length_eq_zero.mp this.symm)

theorem set_tail_is_last_concat (l : List StreamMetadata) (b : StreamMetadata) :
    set_tail_is_last (l ++ [b]) = l ++ [{ b with is_last := true }] := by
  rw [set_tail_is_last_append l [b] (by simp)]
  rfl

/-- A nonempty chain stays a head followed by as many blocks after its tail
flag is set. -/
theorem set_tail_is_last_cons (x : StreamMetadata) (q : List StreamMetadata) :
    ∃ x2 q2, set_tail_is_last (x :: q) = x2 :: q2 ∧ q2.length = q.length := by
  cases h : set_tail_is_last (x :: q) with
  | nil => exact absurd h (set_tail_is_last_ne_nil _ (by simp))
  | cons x2 q2 =>
      refine ⟨x2, q2, rfl, ?_⟩
      have := set_tail_is_last_length (x :: q)
      rw [h] at this
      simpa using this

/-! ### The filter reads the type and the application id of a block only -/

theorem passes_filter_congr (assert_active : Bool) (options : CommandLineOptions)
    (b c : StreamMetadata) (n : Nat) (ht : b.type = c.type)
    (hid : b.application_id = c.application_id) :
    passes_filter assert_active options b n = passes_filter assert_active options c n := by
  have e1 : passes_filter_type_entry b = passes_filter_type_entry c := by
    funext m e
    simp [passes_filter_type_entry, ht, hid]
  have e2 : passes_filter_argument b n = passes_filter_argument c n := by
    funext s arg
    cases arg <;> simp [passes_filter_argument, e1]
  simp [passes_filter, e2]

theorem selects_set_is_last (assert_active : Bool) (options : CommandLineOptions)
    (b : StreamMetadata) (n : Nat) (flag : Bool) :
    selects assert_active options { b with is_last := flag } n =
      selects assert_active options b n := by
  unfold selects
  rw [passes_filter_congr assert_active options { b with is_last := flag } b n rfl rfl]

/-- When no assertion can fail, `passes_filter` returns and `selects` is its
value. -/
theorem passes_filter_eq_selects (assert_active : Bool) (options : CommandLineOptions)
    (hcfg : ¬ (assert_active = true ∧ options.checks.has_block_type = true ∧
      options.checks.has_except_block_type = true))
    (b : StreamMetadata) (n : Nat) :
    passes_filter assert_active options b n = Except.ok (selects assert_active options b n) := by
  obtain ⟨r, hr, -⟩ := (passes_filter_eval assert_active options b n).2 hcfg
  simp [selects, hr]

/-! ### Remove, chain collapsing (`use_padding = false`) -/

theorem any_selected_set_tail (assert_active : Bool) (options : CommandLineOptions) (p : Nat)
    (t : List StreamMetadata) :
    any_selected assert_active options p (set_tail_is_last t) =
      any_selected assert_active options p t := by
  induction t generalizing p with
  | nil => rfl
  | cons b t ih =>
      cases t with
      | nil => simp [set_tail_is_last, any_selected, selects_set_is_last]
      | cons c rest =>
          have e : set_tail_is_last (b :: c :: rest) = b :: set_tail_is_last (c :: rest) := rfl
          have h2 := ih (p + 1)
          rw [e]
          simp only [any_selected] at h2 ⊢
          rw [h2]

theorem kept_from_of_none_selected (assert_active : Bool) (options : CommandLineOptions) (p : Nat)
    (t : List StreamMetadata) (h : any_selected assert_active options p t = false) :
    kept_from assert_active options p t = t := by
  induction t generalizing p with
  | nil => rfl
  | cons b t ih =>
      simp only [any_selected, Bool.or_eq_false_iff] at h
      simp [kept_from, h.1, ih (p + 1) h.2]

theorem set_tail_kept_set_tail (assert_active : Bool) (options : CommandLineOptions) (p : Nat)
    (l t : List StreamMetadata) :
    set_tail_is_last (l ++ kept_from assert_active options p (set_tail_is_last t)) =
      set_tail_is_last (l ++ kept_from assert_active options p t) := by
  induction t generalizing p l with
  | nil => rfl
  | cons b t ih =>
      cases t with
      | nil =>
          simp only [set_tail_is_last, kept_from, selects_set_is_last]
          by_cases hs : selects assert_active options b p = true
          · simp [hs]
          · simp only [hs, Bool.false_eq_true, if_false]
            rw [set_tail_is_last_concat, set_tail_is_last_concat]
      | cons c rest =>
          simp only [set_tail_is_last, kept_from]
          by_cases hs : selects assert_active options b p = true
          · simp only [hs, if_true]
            exact ih (p + 1) l
          · simp only [hs, Bool.false_eq_true, if_false]
            have := ih (p + 1) (l ++ [b])
            simpa using this

/-- The loop of Remove without padding, started with the cursor on the last
block of `x :: q` and the blocks `todo` still ahead: it ends with `ok` true and
leaves the blocks before the cursor followed by the blocks of `todo` that
`passes_filter` rejects; the tail flag is set again if a block was deleted. -/
theorem remove_loop_collapse (assert_active : Bool) (options : CommandLineOptions)
    (hup : options.use_padding = false)
    (hcfg : ¬ (assert_active = true ∧ options.checks.has_block_type = true ∧
      options.checks.has_except_block_type = true)) :
    ∀ (fuel : Nat) (todo : List StreamMetadata) (x : StreamMetadata) (q : List StreamMetadata)
      (p : Nat) (tested : List (StreamMetadata × Nat)) (chain : Chain) (cur : Nat),
      chain = x :: (q ++ todo) → cur = q.length → todo.length < fuel →
      ∃ r, remove_loop assert_active options fuel
          { iterator := { chain := chain, current := cur }, ok := true, block_number := p
            tested := tested } = Except.ok r ∧
        r.ok = true ∧
        r.iterator.chain =
          if any_selected assert_active options (p + 1) todo = true then
            set_tail_is_last (x :: (q ++ kept_from assert_active options (p + 1) todo))
          else x :: (q ++ todo) := by
  intro fuel
  induction fuel with
  | zero => intro todo x q p tested chain cur _ _ h; exact absurd h (Nat.not_lt_zero _)
  | succ fuel ih =>
      intro todo x q p tested chain cur hchain hcur hfuel
      subst hchain hcur
      cases todo with
      | nil =>
          refine ⟨{ iterator := { chain := x :: q, current := q.length }, ok := true
                    block_number := p, tested := tested }, ?_, rfl, ?_⟩
          · simp only [remove_loop, List.append_nil, next_at_end]
            rfl
          · simp [any_selected]
      | cons b t =>
          simp only [remove_loop, next_at_inner, get_block_at_inner,
            passes_filter_eq_selects assert_active options hcfg, Bool.not_true,
            Bool.false_eq_true, if_false, hup, delete_block_collapse, Bool.and_true]
          have hfuel2 : t.length < fuel := by simpa using hfuel
          by_cases hs : selects assert_active options b (p + 1) = true
          · simp only [hs, if_true, any_selected, kept_from, Bool.true_or]
            cases t with
            | nil =>
                obtain ⟨x2, q2, he, hlen⟩ := set_tail_is_last_cons x q
                obtain ⟨r, hr, hok, hch⟩ := ih [] x2 q2 (p + 1) (tested ++ [(b, p + 1)])
                  (set_tail_is_last (x :: (q ++ []))) q.length
                  (by simp [he]) hlen.symm hfuel2
                refine ⟨r, hr, hok, ?_⟩
                rw [hch]
                simp [any_selected, kept_from, he]
            | cons c rest =>
                have hsplit : set_tail_is_last (x :: (q ++ c :: rest)) =
                    x :: (q ++ set_tail_is_last (c :: rest)) := by
                  have := set_tail_is_last_append (x :: q) (c :: rest) (by simp)
                  simpa using this
                obtain ⟨r, hr, hok, hch⟩ := ih (set_tail_is_last (c :: rest)) x q (p + 1)
                  (tested ++ [(b, p + 1)]) (set_tail_is_last (x :: (q ++ c :: rest))) q.length
                  hsplit rfl (by rw [set_tail_is_last_length]; exact hfuel2)
                refine ⟨r, hr, hok, ?_⟩
                rw [hch, any_selected_set_tail]
                by_cases hany : any_selected assert_active options (p + 1 + 1) (c :: rest) = true
                · simp only [hany, if_true]
                  have := set_tail_kept_set_tail assert_active options (p + 1 + 1) (x :: q)
                    (c :: rest)
                  simpa using this
                · simp only [hany, Bool.false_eq_true, if_false]
                  rw [kept_from_of_none_selected assert_active options (p + 1 + 1) (c :: rest)
                    (by simpa using hany), hsplit]
          · simp only [hs, Bool.false_eq_true, if_false, any_selected, kept_from, Bool.false_or]
            obtain ⟨r, hr, hok, hch⟩ := ih t x (q ++ [b]) (p + 1) (tested ++ [(b, p + 1)])
              (x :: (q ++ b :: t)) (q.length + 1) (by simp) (by simp) hfuel2
            refine ⟨r, hr, hok, ?_⟩
            rw [hch]
            simp

theorem set_tail_is_last_map_clear (l : List StreamMetadata) :
    (set_tail_is_last l).map (fun b => { b with is_last := false }) =
      l.map (fun b => { b with is_last := false }) := by
  induction l with
  | nil => rfl
  | cons a l ih =>
      cases l with
      | nil => rfl
      | cons c rest =>
          have e : set_tail_is_last (a :: c :: rest) = a :: set_tail_is_last (c :: rest) := rfl
          rw [e]
          simp only [List.map_cons] at ih ⊢
          rw [ih]

/-- C6. Remove with `use_padding = false`, on any non-empty chain and any filter
configuration on which `passes_filter` does not fail its assertion: the call
returns true and leaves the first block followed by exactly the blocks at
positions `p ≥ 1` for which `passes_filter(block, p)` is false, in their
original order. The `is_last` flag of the final block is set again by each
deletion; apart from that flag the blocks are the original ones. -/
theorem remove_without_padding (assert_active : Bool) (options : CommandLineOptions)
    (first : StreamMetadata) (rest : List StreamMetadata)
    (hup : options.use_padding = false)
    (hcfg : ¬ (assert_active = true ∧ options.checks.has_block_type = true ∧
      options.checks.has_except_block_type = true)) :
    ∃ r, do_major_operation__remove assert_active (first :: rest) options = Except.ok r ∧
      r.ok = true ∧
      r.iterator.chain =
        (if any_selected assert_active options 1 rest = true then
          set_tail_is_last (first :: kept_from assert_active options 1 rest)
        else first :: rest) ∧
      r.iterator.chain.map (fun b => { b with is_last := false }) =
        (first :: kept_from assert_active options 1 rest).map
          (fun b => { b with is_last := false }) := by
  obtain ⟨r, hr, hok, hch⟩ := remove_loop_collapse assert_active options hup hcfg
    ((first :: rest).length + 1) rest first [] 0 [] (first :: rest) 0 rfl rfl
    (by simp; omega)
  refine ⟨r, hr, hok, hch, ?_⟩
  rw [hch]
  by_cases hany : any_selected assert_active options 1 rest = true
  · simp only [hany, if_true, Nat.zero_add, List.nil_append]
    exact set_tail_is_last_map_clear _
  · rw [kept_from_of_none_selected assert_active options 1 rest (by simpa using hany)]
    simp [hany]

/-- Witness of C6: the chain `[A, B, C]` with `--block-type=VORBIS_COMMENT`
selecting only `B` becomes `[A, C]`. -/
theorem remove_without_padding_witness :
    (sample_options [Argument.BLOCK_TYPE [entry_any MetadataType.VORBIS_COMMENT]] true false false
        []).use_padding = false ∧
    ∃ r, do_major_operation__remove true
        [ sample_block MetadataType.STREAMINFO 34 false id_zero,
          sample_block MetadataType.VORBIS_COMMENT 40 false id_zero,
          sample_block MetadataType.PADDING 50 true id_zero ]
        (sample_options [Argument.BLOCK_TYPE [entry_any MetadataType.VORBIS_COMMENT]] true false
          false []) = Except.ok r ∧
      r.ok = true ∧
      r.iterator.chain =
        [ sample_block MetadataType.STREAMINFO 34 false id_zero,
          sample_block MetadataType.PADDING 50 true id_zero ] :=
  ⟨rfl,
   (remove_without_padding true
     (sample_options [Argument.BLOCK_TYPE [entry_any MetadataType.VORBIS_COMMENT]] true false false
       [])
     (sample_block MetadataType.STREAMINFO 34 false id_zero)
     [ sample_block MetadataType.VORBIS_COMMENT 40 false id_zero,
       sample_block MetadataType.PADDING 50 true id_zero ] rfl (by decide)).elim
     fun r h => ⟨r, h.1, h.2.1, h.2.2.1.trans (by decide)⟩⟩

/-! ### Remove, replacing by padding (`use_padding = true`) -/

theorem padded_from_length (assert_active : Bool) (options : CommandLineOptions) (p : Nat)
    (l : List StreamMetadata) : (padded_from assert_active options p l).length = l.length := by
  induction l generalizing p with
  | nil => rfl
  | cons b l ih => simp [padded_from, ih (p + 1)]

theorem padded_from_getElem? (assert_active : Bool) (options : CommandLineOptions) (p : Nat)
    (l : List StreamMetadata) (i : Nat) (b : StreamMetadata) (h : l[i]? = some b) :
    (padded_from assert_active options p l)[i]? =
      some (if selects assert_active options b (p + i) = true then replacement_padding b
        else b) := by
  induction l generalizing p i with
  | nil => simp at h
  | cons a l ih =>
      cases i with
      | zero =>
          simp only [List.getElem?_cons_zero, Option.some.injEq] at h
          simp [padded_from, h]
      | succ i =>
          simp only [List.getElem?_cons_succ] at h
          simp only [padded_from, List.getElem?_cons_succ]
          rw [ih (p + 1) i h]
          have : p + 1 + i = p + (i + 1) := by omega
          rw [this]

theorem with_positions_eq_zip (p : Nat) (l : List StreamMetadata) :
    with_positions p l = l.zip (List.range' p l.length) := by
  induction l generalizing p with
  | nil => rfl
  | cons b l ih => simp [with_positions, ih (p + 1), List.range'_succ]

/-- The loop of Remove with padding, started with the cursor on the last block
of `x :: q` and the blocks `todo` still ahead: it ends with `ok` true, has
replaced in place every block of `todo` that `passes_filter` selects, and has
handed each block of `todo` to `passes_filter` once, with its position. -/
theorem remove_loop_padding (assert_active : Bool) (options : CommandLineOptions)
    (hup : options.use_padding = true)
    (hcfg : ¬ (assert_active = true ∧ options.checks.has_block_type = true ∧
      options.checks.has_except_block_type = true)) :
    ∀ (fuel : Nat) (todo : List StreamMetadata) (x : StreamMetadata) (q : List StreamMetadata)
      (p : Nat) (tested : List (StreamMetadata × Nat)) (chain : Chain) (cur : Nat),
      chain = x :: (q ++ todo) → cur = q.length → todo.length < fuel →
      ∃ r, remove_loop assert_active options fuel
          { iterator := { chain := chain, current := cur }, ok := true, block_number := p
            tested := tested } = Except.ok r ∧
        r.ok = true ∧
        r.iterator.chain = x :: (q ++ padded_from assert_active options (p + 1) todo) ∧
        r.tested = tested ++ with_positions (p + 1) todo := by
  intro fuel
  induction fuel with
  | zero => intro todo x q p tested chain cur _ _ h; exact absurd h (Nat.not_lt_zero _)
  | succ fuel ih =>
      intro todo x q p tested chain cur hchain hcur hfuel
      subst hchain hcur
      cases todo with
      | nil =>
          refine ⟨{ iterator := { chain := x :: q, current := q.length }, ok := true
                    block_number := p, tested := tested }, ?_, rfl, ?_, ?_⟩
          · simp only [remove_loop, List.append_nil, next_at_end]
            rfl
          · simp [padded_from]
          · simp [with_positions]
      | cons b t =>
          simp only [remove_loop, next_at_inner, get_block_at_inner,
            passes_filter_eq_selects assert_active options hcfg, Bool.not_true,
            Bool.false_eq_true, if_false, hup, if_true, delete_block_padding, Bool.and_true]
          have hfuel2 : t.length < fuel := by simpa using hfuel
          by_cases hs : selects assert_active options b (p + 1) = true
          · simp only [hs, if_true, padded_from, with_positions]
            obtain ⟨r, hr, hok, hch, htested⟩ := ih t x (q ++ [replacement_padding b]) (p + 1)
              (tested ++ [(b, p + 1)]) (x :: (q ++ replacement_padding b :: t)) (q.length + 1)
              (by simp) (by simp) hfuel2
            refine ⟨r, hr, hok, ?_, ?_⟩
            · rw [hch]; simp
            · rw [htested]; simp
          · simp only [hs, Bool.false_eq_true, if_false, padded_from, with_positions]
            obtain ⟨r, hr, hok, hch, htested⟩ := ih t x (q ++ [b]) (p + 1)
              (tested ++ [(b, p + 1)]) (x :: (q ++ b :: t)) (q.length + 1)
              (by simp) (by simp) hfuel2
            refine ⟨r, hr, hok, ?_, ?_⟩
            · rw [hch]; simp
            · rw [htested]; simp

/-- C7. Remove with `use_padding = true`, on any non-empty chain and any filter
configuration on which `passes_filter` does not fail its assertion: the call
returns true; the chain keeps its number of blocks and its first block; the
block at each original position `p ≥ 1` is the replacement Padding block of the
original one (type Padding, same declared length) if
`passes_filter(block, p)` is true and the original block otherwise; and
`passes_filter` is called exactly on the original blocks at positions
`1, 2, ...`, once each, in order, with their original position, so never on a
replacement Padding block. -/
theorem remove_with_padding (assert_active : Bool) (options : CommandLineOptions)
    (first : StreamMetadata) (rest : List StreamMetadata)
    (hup : options.use_padding = true)
    (hcfg : ¬ (assert_active = true ∧ options.checks.has_block_type = true ∧
      options.checks.has_except_block_type = true)) :
    ∃ r, do_major_operation__remove assert_active (first :: rest) options = Except.ok r ∧
      r.ok = true ∧
      r.iterator.chain.length = (first :: rest).length ∧
      r.iterator.chain[0]? = some first ∧
      (∀ i b, rest[i]? = some b →
        r.iterator.chain[i + 1]? =
          some (if selects assert_active options b (i + 1) = true then replacement_padding b
            else b)) ∧
      (∀ b : StreamMetadata, (replacement_padding b).type = MetadataType.PADDING ∧
        (replacement_padding b).length = b.length) ∧
      r.tested = rest.zip (List.range' 1 rest.length) := by
  obtain ⟨r, hr, hok, hch, htested⟩ := remove_loop_padding assert_active options hup hcfg
    ((first :: rest).length + 1) rest first [] 0 [] (first :: rest) 0 rfl rfl
    (by simp; omega)
  refine ⟨r, hr, hok, ?_, ?_, ?_, fun b => ⟨rfl, rfl⟩, ?_⟩
  · rw [hch]; simp [padded_from_length]
  · rw [hch]; simp
  · intro i b hb
    rw [hch]
    simp only [List.nil_append, List.getElem?_cons_succ, Nat.zero_add]
    rw [padded_from_getElem? assert_active options 1 rest i b hb, Nat.add_comm 1 i]
  · rw [htested, ← with_positions_eq_zip]; rfl

/-- Witness of C7: the chain `[A, B, C]` with `--block-type=VORBIS_COMMENT`
selecting only `B` becomes `[A, Padding(len = B.length), C]`. -/
theorem remove_with_padding_witness :
    (sample_options [Argument.BLOCK_TYPE [entry_any MetadataType.VORBIS_COMMENT]] true false true
        []).use_padding = true ∧
    ∃ r, do_major_operation__remove true
        [ sample_block MetadataType.STREAMINFO 34 false id_zero,
          sample_block MetadataType.VORBIS_COMMENT 40 false id_zero,
          sample_block MetadataType.PADDING 50 true id_zero ]
        (sample_options [Argument.BLOCK_TYPE [entry_any MetadataType.VORBIS_COMMENT]] true false
          true []) = Except.ok r ∧
      r.ok = true ∧
      r.iterator.chain[1]? =
        some (replacement_padding (sample_block MetadataType.VORBIS_COMMENT 40 false id_zero)) ∧
      r.iterator.chain[2]? = some (sample_block MetadataType.PADDING 50 true id_zero) :=
  ⟨rfl,
   (remove_with_padding true
     (sample_options [Argument.BLOCK_TYPE [entry_any MetadataType.VORBIS_COMMENT]] true false true
       [])
     (sample_block MetadataType.STREAMINFO 34 false id_zero)
     [ sample_block MetadataType.VORBIS_COMMENT 40 false id_zero,
       sample_block MetadataType.PADDING 50 true id_zero ] rfl (by decide)).elim
     fun r h => ⟨r, h.1, h.2.1,
       (h.2.2.2.2.1 0 (sample_block MetadataType.VORBIS_COMMENT 40 false id_zero) rfl).trans
         (by decide),
       (h.2.2.2.2.1 1 (sample_block MetadataType.PADDING 50 true id_zero) rfl).trans
         (by decide)⟩⟩

/-! ### RemoveAll -/

/-- The loop of RemoveAll without padding, started with the cursor on the last
block of `x :: q` and the blocks `todo` still ahead: it deletes all of `todo`
and leaves `x :: q`, with the tail flag set again if a block was deleted. -/
theorem remove_all_loop_collapse (options : CommandLineOptions)
    (hup : options.use_padding = false) :
    ∀ (fuel : Nat) (todo : List StreamMetadata) (x : StreamMetadata) (q : List StreamMetadata)
      (chain : Chain) (cur : Nat),
      chain = x :: (q ++ todo) → cur = q.length → todo.length < fuel →
      remove_all_loop options fuel { iterator := { chain := chain, current := cur }, ok := true } =
        Except.ok
          { iterator :=
              { chain := if todo = [] then x :: q else set_tail_is_last (x :: q)
                current := q.length }
            ok := true } := by
  intro fuel
  induction fuel with
  | zero => intro todo x q chain cur _ _ h; exact absurd h (Nat.not_lt_zero _)
  | succ fuel ih =>
      intro todo x q chain cur hchain hcur hfuel
      subst hchain hcur
      cases todo with
      | nil => simp only [remove_all_loop, List.append_nil, next_at_end, if_true]; rfl
      | cons b t =>
          simp only [remove_all_loop, next_at_inner, Bool.not_true, Bool.false_eq_true, if_false,
            hup, delete_block_collapse, Bool.and_true]
          have hfuel2 : t.length < fuel := by simpa using hfuel
          cases t with
          | nil =>
              obtain ⟨x2, q2, he, hlen⟩ := set_tail_is_last_cons x q
              rw [ih [] x2 q2 (set_tail_is_last (x :: (q ++ []))) q.length (by simp [he])
                hlen.symm hfuel2]
              simp [he, hlen]
          | cons c rest =>
              have hsplit : set_tail_is_last (x :: (q ++ c :: rest)) =
                  x :: (q ++ set_tail_is_last (c :: rest)) := by
                have := set_tail_is_last_append (x :: q) (c :: rest) (by simp)
                simpa using this
              rw [ih (set_tail_is_last (c :: rest)) x q (set_tail_is_last (x :: (q ++ c :: rest)))
                q.length hsplit rfl (by rw [set_tail_is_last_length]; exact hfuel2)]
              simp [set_tail_is_last_ne_nil]

/-- Counterexample to C8 as stated: RemoveAll with `use_padding = false` on a
chain that is a single stream info block leaves that block in the chain, and on
a chain of three blocks it leaves the first block (now flagged last). -/
theorem remove_all_keeps_first_block :
    (sample_options [] false false false []).use_padding = false ∧
    do_major_operation__remove_all [sample_block MetadataType.STREAMINFO 34 true id_zero]
        (sample_options [] false false false []) =
      Except.ok
        { iterator :=
            { chain := [sample_block MetadataType.STREAMINFO 34 true id_zero], current := 0 }
          ok := true } ∧
    do_major_operation__remove_all
        [ sample_block MetadataType.STREAMINFO 34 false id_zero,
          sample_block MetadataType.VORBIS_COMMENT 40 false id_zero,
          sample_block MetadataType.PADDING 50 true id_zero ]
        (sample_options [] false false false []) =
      Except.ok
        { iterator :=
            { chain := [sample_block MetadataType.STREAMINFO 34 true id_zero], current := 0 }
          ok := true } :=
  ⟨rfl, rfl, rfl⟩

/-- C8, amended. RemoveAll with `use_padding = false` returns true and deletes
every block after the first, whatever the filter configuration: of any
non-empty chain exactly the first block is left (flagged last once a block has
been deleted); the first block itself is never deleted. -/
theorem remove_all_without_padding (options : CommandLineOptions) (first : StreamMetadata)
    (rest : List StreamMetadata) (hup : options.use_padding = false) :
    do_major_operation__remove_all (first :: rest) options =
      Except.ok
        { iterator :=
            { chain := [if rest = [] then first else { first with is_last := true }]
              current := 0 }
          ok := true } := by
  unfold do_major_operation__remove_all FLAC__metadata_iterator_init
  rw [remove_all_loop_collapse options hup ((first :: rest).length + 1) rest first []
    (first :: rest) 0 rfl rfl (by simp; omega)]
  by_cases h : rest = [] <;> simp [h, set_tail_is_last]

/-- Witness of the amended C8: a filter that selects nothing does not keep
RemoveAll from deleting the two blocks after the first. -/
theorem remove_all_without_padding_witness :
    (sample_options [Argument.BLOCK_NUMBER []] false false false []).use_padding = false ∧
    do_major_operation__remove_all
        [ sample_block MetadataType.STREAMINFO 34 false id_zero,
          sample_block MetadataType.VORBIS_COMMENT 40 false id_zero,
          sample_block MetadataType.PADDING 50 true id_zero ]
        (sample_options [Argument.BLOCK_NUMBER []] false false false []) =
      Except.ok
        { iterator :=
            { chain := [sample_block MetadataType.STREAMINFO 34 true id_zero], current := 0 }
          ok := true } :=
  ⟨rfl,
   (remove_all_without_padding (sample_options [Argument.BLOCK_NUMBER []] false false false [])
     (sample_block MetadataType.STREAMINFO 34 false id_zero)
     [ sample_block MetadataType.VORBIS_COMMENT 40 false id_zero,
       sample_block MetadataType.PADDING 50 true id_zero ] rfl).trans rfl⟩

/-! ### List and Append under `do_major_operation_on_file` -/

theorem next_chain (it : Iterator) :
    (FLAC__metadata_iterator_next it).2.chain = it.chain := by
  unfold FLAC__metadata_iterator_next
  split <;> rfl

theorem next_true_current (it it2 : Iterator)
    (h : FLAC__metadata_iterator_next it = (true, it2)) :
    it2.chain = it.chain ∧ it2.current = it.current + 1 ∧ it.current + 1 < it.chain.length := by
  unfold FLAC__metadata_iterator_next at h
  split at h
  · rename_i hlt
    simp only [Prod.mk.injEq, true_and] at h
    subst h
    exact ⟨rfl, rfl, hlt⟩
  · simp at h

/-- The loop of List never changes the chain it walks. -/
theorem list_loop_chain (assert_active : Bool) (options : CommandLineOptions) :
    ∀ (fuel : Nat) (s r : ListLocals),
      list_loop assert_active options fuel s = Except.ok r →
      r.iterator.chain = s.iterator.chain := by
  intro fuel
  induction fuel with
  | zero => intro s r h; simp [list_loop] at h
  | succ fuel ih =>
      intro s r h
      rw [list_loop] at h
      cases hg : FLAC__metadata_iterator_get_block s.iterator with
      | none =>
          simp only [hg, Except.ok.injEq] at h
          subst h; rfl
      | some block =>
          simp only [hg] at h
          cases hok : s.ok with
          | false =>
              simp only [hok, Bool.not_false, if_true, Except.ok.injEq] at h
              subst h; rfl
          | true =>
              simp only [hok, Bool.not_true, Bool.false_eq_true, if_false] at h
              cases hp : passes_filter assert_active options block s.block_number with
              | error e => simp [hp] at h
              | ok selected =>
                  simp only [hp] at h
                  have hc := next_chain s.iterator
                  cases hn : FLAC__metadata_iterator_next s.iterator with
                  | mk flag it =>
                      rw [hn] at hc
                      simp only [hn] at h
                      cases flag with
                      | false =>
                          simp only [Except.ok.injEq] at h
                          subst h
                          exact hc
                      | true =>
                          simp only at h
                          rw [ih _ r h]
                          exact hc

/-- The loop of List returns when no assertion can fail and the fuel exceeds
the number of blocks from the cursor to the end of the chain. -/
theorem list_loop_returns (assert_active : Bool) (options : CommandLineOptions)
    (hcfg : ¬ (assert_active = true ∧ options.checks.has_block_type = true ∧
      options.checks.has_except_block_type = true)) :
    ∀ (fuel : Nat) (s : ListLocals),
      s.iterator.chain.length - s.iterator.current < fuel →
      ∃ r, list_loop assert_active options fuel s = Except.ok r := by
  intro fuel
  induction fuel with
  | zero => intro s h; exact absurd h (Nat.not_lt_zero _)
  | succ fuel ih =>
      intro s hfuel
      rw [list_loop]
      cases hg : FLAC__metadata_iterator_get_block s.iterator with
      | none => exact ⟨_, rfl⟩
      | some block =>
          simp only
          cases hok : s.ok with
          | false => exact ⟨_, rfl⟩
          | true =>
              simp only [Bool.not_true, Bool.false_eq_true, if_false,
                passes_filter_eq_selects assert_active options hcfg]
              cases hn : FLAC__metadata_iterator_next s.iterator with
              | mk flag it =>
                  cases flag with
                  | false => exact ⟨_, rfl⟩
                  | true =>
                      obtain ⟨hc, hcur, hlt⟩ := next_true_current _ _ hn
                      apply ih
                      simp only [hc, hcur]
                      omega

/-- C9. The List major operation never mutates: whenever
`do_major_operation_on_file` returns for a List operation, `needs_write` is
false, no chain-level library call was made (no write, no padding transform),
and the chain is the chain that was read from the file; and it does return
whenever `passes_filter` cannot fail its assertion. -/
theorem list_never_mutates (lib : MetadataLibrary) (assert_active : Bool) (filename : String)
    (options : CommandLineOptions) (operation : Operation) (others : List Operation)
    (hops : options.operations = operation :: others)
    (hop : operation.type = OperationType.LIST) :
    (∀ out, do_major_operation_on_file lib assert_active filename options = Except.ok out →
      out.needs_write = false ∧ out.events = [] ∧
      out.chain = (if is_ogg_filename filename = true then lib.chain_read_ogg filename
        else lib.chain_read filename)) ∧
    (¬ (assert_active = true ∧ options.checks.has_block_type = true ∧
        options.checks.has_except_block_type = true) →
      ∃ out, do_major_operation_on_file lib assert_active filename options = Except.ok out) := by
  unfold do_major_operation_on_file
  simp only [hops, List.head?_cons]
  cases hread : (if is_ogg_filename filename = true then lib.chain_read_ogg filename
      else lib.chain_read filename) with
  | none =>
      simp only
      refine ⟨?_, fun _ => ⟨_, rfl⟩⟩
      intro out hout
      simp only [Except.ok.injEq] at hout
      subst hout
      exact ⟨rfl, rfl, rfl⟩
  | some chain =>
      simp only [hop]
      constructor
      · intro out hout
        cases hl : do_major_operation__list assert_active chain options with
        | error e => simp [hl] at hout
        | ok r =>
            simp only [hl, Except.ok.injEq] at hout
            subst hout
            have hc : r.iterator.chain = chain := by
              have := list_loop_chain assert_active options _ _ r hl
              simpa [FLAC__metadata_iterator_init] using this
            simp [write_if_needed, hc]
      · intro hcfg
        obtain ⟨r, hr⟩ := list_loop_returns assert_active options hcfg (chain.length + 1)
          { iterator := FLAC__metadata_iterator_init chain, ok := true, block_number := 0
            reports := [] } (by simp [FLAC__metadata_iterator_init])
        have hl : do_major_operation__list assert_active chain options = Except.ok r := hr
        simp only [hl]
        exact ⟨_, rfl⟩

/-- Witness of C9: listing a three-block chain read from "a.flac". -/
theorem list_never_mutates_witness :
    ∃ out, do_major_operation_on_file
        (sample_library
          [ sample_block MetadataType.STREAMINFO 34 false id_zero,
            sample_block MetadataType.VORBIS_COMMENT 40 false id_zero,
            sample_block MetadataType.PADDING 50 true id_zero ])
        true "a.flac"
        (sample_options [] false false true [sample_operation OperationType.LIST]) =
          Except.ok out ∧
      out.needs_write = false ∧ out.events = [] ∧
      out.chain = some
        [ sample_block MetadataType.STREAMINFO 34 false id_zero,
          sample_block MetadataType.VORBIS_COMMENT 40 false id_zero,
          sample_block MetadataType.PADDING 50 true id_zero ] :=
  ((list_never_mutates
      (sample_library
        [ sample_block MetadataType.STREAMINFO 34 false id_zero,
          sample_block MetadataType.VORBIS_COMMENT 40 false id_zero,
          sample_block MetadataType.PADDING 50 true id_zero ])
      true "a.flac" (sample_options [] false false true [sample_operation OperationType.LIST])
      (sample_operation OperationType.LIST) [] rfl rfl).2 (by decide)).elim
    fun out hout =>
      ⟨out, hout,
        ((list_never_mutates
          (sample_library
            [ sample_block MetadataType.STREAMINFO 34 false id_zero,
              sample_block MetadataType.VORBIS_COMMENT 40 false id_zero,
              sample_block MetadataType.PADDING 50 true id_zero ])
          true "a.flac" (sample_options [] false false true [sample_operation OperationType.LIST])
          (sample_operation OperationType.LIST) [] rfl rfl).1 out hout).1,
        ((list_never_mutates
          (sample_library
            [ sample_block MetadataType.STREAMINFO 34 false id_zero,
              sample_block MetadataType.VORBIS_COMMENT 40 false id_zero,
              sample_block MetadataType.PADDING 50 true id_zero ])
          true "a.flac" (sample_options [] false false true [sample_operation OperationType.LIST])
          (sample_operation OperationType.LIST) [] rfl rfl).1 out hout).2.1,
        ((list_never_mutates
          (sample_library
            [ sample_block MetadataType.STREAMINFO 34 false id_zero,
              sample_block MetadataType.VORBIS_COMMENT 40 false id_zero,
              sample_block MetadataType.PADDING 50 true id_zero ])
          true "a.flac" (sample_options [] false false true [sample_operation OperationType.LIST])
          (sample_operation OperationType.LIST) [] rfl rfl).1 out hout).2.2.trans (by decide)⟩

/-- C10. Append is unsupported: for every library behaviour, file name and
options whose first operation is Append, `do_major_operation_on_file` returns
false and makes no chain-level library call, so the chain is never written; and
`do_major_operation__append` itself returns false on every chain. -/
theorem append_not_supported (lib : MetadataLibrary) (assert_active : Bool) (filename : String)
    (options : CommandLineOptions) (operation : Operation) (others : List Operation)
    (hops : options.operations = operation :: others)
    (hop : operation.type = OperationType.APPEND) :
    (∀ chain : Chain, do_major_operation__append chain options = false) ∧
    ∃ out, do_major_operation_on_file lib assert_active filename options = Except.ok out ∧
      out.ok = false ∧ out.events = [] ∧
      ∀ chain use_padding preserve_modtime,
        ChainEvent.write chain use_padding preserve_modtime ∉ out.events := by
  refine ⟨fun _ => rfl, ?_⟩
  unfold do_major_operation_on_file
  simp only [hops, List.head?_cons]
  cases hread : (if is_ogg_filename filename = true then lib.chain_read_ogg filename
      else lib.chain_read filename) with
  | none => exact ⟨_, rfl, rfl, rfl, fun _ _ _ => List.not_mem_nil _⟩
  | some chain =>
      simp only [hop]
      refine ⟨_, rfl, ?_, ?_, ?_⟩ <;> simp [write_if_needed, do_major_operation__append]

/-- Witness of C10: Append on a three-block chain read from "a.flac", with
`use_padding` set. -/
theorem append_not_supported_witness :
    ∃ out, do_major_operation_on_file
        (sample_library
          [ sample_block MetadataType.STREAMINFO 34 false id_zero,
            sample_block MetadataType.VORBIS_COMMENT 40 false id_zero,
            sample_block MetadataType.PADDING 50 true id_zero ])
        true "a.flac"
        (sample_options [] false false true [sample_operation OperationType.APPEND]) =
          Except.ok out ∧
      out.ok = false ∧ out.events = [] :=
  (append_not_supported
      (sample_library
        [ sample_block MetadataType.STREAMINFO 34 false id_zero,
          sample_block MetadataType.VORBIS_COMMENT 40 false id_zero,
          sample_block MetadataType.PADDING 50 true id_zero ])
      true "a.flac" (sample_options [] false false true [sample_operation OperationType.APPEND])
      (sample_operation OperationType.APPEND) [] rfl rfl).2.elim
    fun out h => ⟨out, h.1, h.2.1, h.2.2.1⟩

/-! ### Batches: every file is processed, the result is the conjunction -/

theorem do_major_operation_loop_eq (lib : MetadataLibrary) (assert_active : Bool)
    (options : CommandLineOptions) (filenames : List String) (outs : List FileOutcome)
    (h : List.Forall₂
      (fun filename out =>
        do_major_operation_on_file lib assert_active filename options = Except.ok out)
      filenames outs) (s : MajorBatchOutcome) :
    do_major_operation_loop lib assert_active options filenames s =
      Except.ok { ok := s.ok && outs.all (fun out => out.ok), files := s.files ++ outs } := by
  induction h generalizing s with
  | nil => simp [do_major_operation_loop]
  | cons hhead _ ih =>
      simp only [do_major_operation_loop, hhead, ih, List.all_cons, List.append_assoc,
        List.singleton_append, Bool.and_assoc]

theorem do_shorthand_operations_files_eq (lib : ShorthandLibrary) (mlib : MetadataLibrary)
    (assert_active : Bool) (options : CommandLineOptions) (filenames : List String)
    (outs : List ShorthandFileOutcome)
    (h : List.Forall₂
      (fun filename out =>
        do_shorthand_operations_on_file lib mlib assert_active filename options = Except.ok out)
      filenames outs) (s : ShorthandBatchOutcome) :
    do_shorthand_operations_files lib mlib assert_active options filenames s =
      Except.ok
        { ok := s.ok && outs.all (fun out => out.ok)
          log := s.log ++ List.zipWith ShorthandBatchEvent.file_pass filenames outs } := by
  induction h generalizing s with
  | nil => simp [do_shorthand_operations_files]
  | cons hhead _ ih =>
      simp only [do_shorthand_operations_files, hhead, ih, List.all_cons, List.append_assoc,
        List.singleton_append, Bool.and_assoc, List.zipWith_cons_cons]

theorem replay_gain_loop_of_no_request (rg : ReplayGainLibrary) (assert_active : Bool)
    (options : CommandLineOptions) (operations : List Operation)
    (h : ∀ operation ∈ operations, operation.type ≠ OperationType.ADD_REPLAY_GAIN)
    (s : ShorthandBatchOutcome) :
    do_shorthand_operations_replay_gain rg assert_active options operations s = Except.ok s := by
  induction operations with
  | nil => rfl
  | cons operation rest ih =>
      have h1 := h operation (List.mem_cons_self _ _)
      simp only [do_shorthand_operations_replay_gain, h1, if_false]
      exact ih (fun o ho => h o (List.mem_cons_of_mem _ ho))

/-- C11. For a batch under a major operation, and for a batch under shorthand
operations none of which is add-replay-gain: whenever the pass over each file
returns, the batch call returns, its record of per-file passes is the list of
the file names' outcomes, one per file and in batch order (whether or not an
earlier file failed), and its result is true if and only if every per-file
result is true. -/
theorem batch_processes_every_file (lib : ShorthandLibrary) (mlib : MetadataLibrary)
    (rg : ReplayGainLibrary) (assert_active : Bool) (options : CommandLineOptions) :
    (∀ outs : List FileOutcome,
      List.Forall₂
        (fun filename out =>
          do_major_operation_on_file mlib assert_active filename options = Except.ok out)
        options.filenames outs →
      ∃ ok, do_major_operation mlib assert_active options =
          Except.ok { ok := ok, files := outs } ∧
        (ok = true ↔ ∀ out ∈ outs, out.ok = true)) ∧
    ((∀ operation ∈ options.operations, operation.type ≠ OperationType.ADD_REPLAY_GAIN) →
      ∀ outs : List ShorthandFileOutcome,
        List.Forall₂
          (fun filename out =>
            do_shorthand_operations_on_file lib mlib assert_active filename options =
              Except.ok out)
          options.filenames outs →
        ∃ ok, do_shorthand_operations lib mlib rg assert_active options =
            Except.ok
              { ok := ok
                log := List.zipWith ShorthandBatchEvent.file_pass options.filenames outs } ∧
          (ok = true ↔ ∀ out ∈ outs, out.ok = true)) := by
  constructor
  · intro outs h
    refine ⟨outs.all (fun out => out.ok), ?_, by simp⟩
    unfold do_major_operation
    rw [do_major_operation_loop_eq mlib assert_active options _ outs h]
    simp
  · intro hno outs h
    refine ⟨outs.all (fun out => out.ok), ?_, by simp⟩
    unfold do_shorthand_operations
    rw [do_shorthand_operations_files_eq lib mlib assert_active options _ outs h]
    simp only [Bool.true_and, List.nil_append]
    split
    · exact replay_gain_loop_of_no_request rg assert_active options _ hno _
    · rfl

/-- Witness of C11: a batch of two files of which the first cannot be read,
under List and under a set-tag shorthand operation. The second file is
processed all the same and the batch result is false. -/
theorem batch_processes_every_file_witness :
    (∃ ok, do_major_operation
        (sample_library_without "a.flac" [sample_block MetadataType.STREAMINFO 34 true id_zero])
        true
        { sample_options [] false false false [sample_operation OperationType.LIST] with
          filenames := ["a.flac", "b.flac"] } =
        Except.ok
          { ok := ok
            files :=
              [ { ok := false, needs_write := false, chain := none, events := [], reports := [] },
                { ok := true, needs_write := false
                  chain := some [sample_block MetadataType.STREAMINFO 34 true id_zero]
                  events := []
                  reports := [(0, sample_block MetadataType.STREAMINFO 34 true id_zero)] } ] } ∧
      ok = false) ∧
    (∃ ok, do_shorthand_operations sample_handlers
        (sample_library_without "a.flac" [sample_block MetadataType.STREAMINFO 34 true id_zero])
        (sample_replay_gain (fun _ => some cd_streaminfo) (fun _ => false) (fun _ => false))
        true
        { sample_options [] false false false [sample_operation OperationType.SET_VC_FIELD] with
          filenames := ["a.flac", "b.flac"] } =
        Except.ok
          { ok := ok
            log :=
              [ ShorthandBatchEvent.file_pass "a.flac"
                  { ok := false, needs_write := false, use_padding := false, chain := none
                    dispatched := [], events := [] },
                ShorthandBatchEvent.file_pass "b.flac"
                  { ok := true, needs_write := true, use_padding := false
                    chain := some [sample_block MetadataType.STREAMINFO 34 true id_zero]
                    dispatched := [sample_operation OperationType.SET_VC_FIELD]
                    events :=
                      [ChainEvent.write [sample_block MetadataType.STREAMINFO 34 true id_zero]
                        false false] } ] } ∧
      ok = false) := by
  constructor
  · obtain ⟨ok, heq, hiff⟩ := (batch_processes_every_file sample_handlers
      (sample_library_without "a.flac" [sample_block MetadataType.STREAMINFO 34 true id_zero])
      (sample_replay_gain (fun _ => some cd_streaminfo) (fun _ => false) (fun _ => false))
      true
      { sample_options [] false false false [sample_operation OperationType.LIST] with
        filenames := ["a.flac", "b.flac"] }).1
      [ { ok := false, needs_write := false, chain := none, events := [], reports := [] },
        { ok := true, needs_write := false
          chain := some [sample_block MetadataType.STREAMINFO 34 true id_zero]
          events := []
          reports := [(0, sample_block MetadataType.STREAMINFO 34 true id_zero)] } ]
      (List.Forall₂.cons rfl (List.Forall₂.cons rfl List.Forall₂.nil))
    refine ⟨ok, heq, ?_⟩
    cases ok with
    | false => rfl
    | true => exact absurd (hiff.mp rfl _ (List.mem_cons_self _ _)) (by decide)
  · obtain ⟨ok, heq, hiff⟩ := (batch_processes_every_file sample_handlers
      (sample_library_without "a.flac" [sample_block MetadataType.STREAMINFO 34 true id_zero])
      (sample_replay_gain (fun _ => some cd_streaminfo) (fun _ => false) (fun _ => false))
      true
      { sample_options [] false false false [sample_operation OperationType.SET_VC_FIELD] with
        filenames := ["a.flac", "b.flac"] }).2 (by decide)
      [ { ok := false, needs_write := false, use_padding := false, chain := none
          dispatched := [], events := [] },
        { ok := true, needs_write := true, use_padding := false
          chain := some [sample_block MetadataType.STREAMINFO 34 true id_zero]
          dispatched := [sample_operation OperationType.SET_VC_FIELD]
          events :=
            [ChainEvent.write [sample_block MetadataType.STREAMINFO 34 true id_zero]
              false false] } ]
      (List.Forall₂.cons rfl (List.Forall₂.cons rfl List.Forall₂.nil))
    refine ⟨ok, heq, ?_⟩
    cases ok with
    | false => rfl
    | true => exact absurd (hiff.mp rfl _ (List.mem_cons_self _ _)) (by decide)

/-! ### The two dispatch loops of the shorthand pass over one file -/

/-- A successful add-padding dispatch leaves `needs_write` set. -/
theorem add_padding_dispatch_sets_needs_write (lib : ShorthandLibrary) (assert_active : Bool)
    (filename : String) (pwf : Bool) (chain : Chain) (operation : Operation) (nw utf8 : Bool)
    (r : HandlerResult) (htype : operation.type = OperationType.ADD_PADDING)
    (h : do_shorthand_operation lib assert_active filename pwf chain operation nw utf8 =
      Except.ok r) (hok : r.ok = true) : r.needs_write = true := by
  simp only [do_shorthand_operation, htype, do_shorthand_operation__add_padding] at h
  cases hadv : add_padding_advance (chain.length + 1) (FLAC__metadata_iterator_init chain) with
  | error e => simp [hadv] at h
  | ok it =>
      simp only [hadv] at h
      cases hins : FLAC__metadata_iterator_insert_block_after
          (lib.insert_accepted chain
            { FLAC__metadata_object_new MetadataType.PADDING with
              length := operation.add_padding_length }) it
          { FLAC__metadata_object_new MetadataType.PADDING with
            length := operation.add_padding_length } with
      | mk flag it2 =>
          simp only [hins] at h
          cases flag with
          | false =>
              simp only [Except.ok.injEq] at h
              subst h
              simp at hok
          | true =>
              simp only [Except.ok.injEq] at h
              subst h
              rfl

/-- Called with `needs_write` set, a dispatch leaves it set, provided the
handlers do. -/
theorem dispatch_keeps_needs_write (lib : ShorthandLibrary) (hkeep : lib.keeps_needs_write)
    (assert_active : Bool) (filename : String) (pwf : Bool) (chain : Chain)
    (operation : Operation) (utf8 : Bool) (r : HandlerResult)
    (h : do_shorthand_operation lib assert_active filename pwf chain operation true utf8 =
      Except.ok r) : r.needs_write = true := by
  obtain ⟨h1, h2, h3, h4, h5⟩ := hkeep
  unfold do_shorthand_operation at h
  split at h
  all_goals try (simp only [Except.ok.injEq] at h; subst h; simp [h1, h2, h3, h4, h5])
  · -- add padding
    simp only [do_shorthand_operation__add_padding] at h
    split at h
    · simp at h
    · split at h <;> (simp only [Except.ok.injEq] at h; subst h; rfl)
  · -- an operation type without handler
    split at h
    · simp at h
    · simp only [Except.ok.injEq] at h; subst h; rfl

/-- The first loop, when it ends with `ok` true: `ok` was true at the start,
the operations that are not seek point additions were dispatched once each, in
their order, `use_padding` is off iff an add-padding operation is among the
operations (and as before otherwise), and `needs_write` is set if it was set or
a padding block was added, provided the handlers leave a set flag set. -/
theorem shorthand_first_loop_trace (lib : ShorthandLibrary) (assert_active : Bool)
    (filename : String) (options : CommandLineOptions) :
    ∀ (operations : List Operation) (s s2 : ShorthandLocals),
      shorthand_first_loop lib assert_active filename options operations s = Except.ok s2 →
      s2.ok = true →
      s.ok = true ∧
        s2.dispatched = s.dispatched ++
          operations.filter (fun o => decide (o.type ≠ OperationType.ADD_SEEKPOINT)) ∧
        s2.use_padding =
          (if operations.any (fun o => decide (o.type = OperationType.ADD_PADDING)) = true
            then false else s.use_padding) ∧
        (lib.keeps_needs_write →
          (s.needs_write = true ∨
            ∃ operation ∈ operations, operation.type = OperationType.ADD_PADDING) →
          s2.needs_write = true) := by
  intro operations
  induction operations with
  | nil =>
      intro s s2 h hok2
      simp only [shorthand_first_loop, Except.ok.injEq] at h
      subst h
      refine ⟨hok2, by simp, by simp, ?_⟩
      intro _ h
      rcases h with h | ⟨o, ho, _⟩
      · exact h
      · exact absurd ho (List.not_mem_nil _)
  | cons operation rest ih =>
      intro s s2 h hok2
      rw [shorthand_first_loop] at h
      cases hok : s.ok with
      | false =>
          simp only [hok, Bool.not_false, if_true, Except.ok.injEq] at h
          subst h
          rw [hok] at hok2
          exact absurd hok2 (by decide)
      | true =>
          simp only [hok, Bool.not_true, Bool.false_eq_true, if_false, Bool.true_and] at h
          by_cases hseek : operation.type = OperationType.ADD_SEEKPOINT
          · have hpad : operation.type ≠ OperationType.ADD_PADDING := by rw [hseek]; decide
            simp only [hseek, ne_eq, not_true_eq_false, if_false] at h
            obtain ⟨-, hd, hup, hnw⟩ := ih _ s2 h hok2
            refine ⟨rfl, ?_, ?_, ?_⟩
            · rw [hd]; simp [hseek]
            · rw [hup]; simp [hseek]
            · intro hkeep hflag
              apply hnw hkeep
              rcases hflag with h | ⟨o, ho, hto⟩
              · exact Or.inl h
              · rcases List.mem_cons.mp ho with rfl | ho2
                · exact absurd hto hpad
                · exact Or.inr ⟨o, ho2, hto⟩
          · simp only [ne_eq, hseek, not_false_eq_true, if_true] at h
            cases hdisp : do_shorthand_operation lib assert_active filename
                options.prefix_with_filename s.chain operation s.needs_write
                options.utf8_convert with
            | error e => simp [hdisp] at h
            | ok r =>
                simp only [hdisp] at h
                obtain ⟨hrok, hd, hup, hnw⟩ := ih _ s2 h hok2
                simp only at hrok hd hup hnw
                refine ⟨rfl, ?_, ?_, ?_⟩
                · rw [hd]; simp [hseek]
                · rw [hup]
                  by_cases hpad : operation.type = OperationType.ADD_PADDING <;> simp [hpad]
                · intro hkeep hflag
                  apply hnw hkeep
                  rcases hflag with h | ⟨o, ho, hto⟩
                  · left
                    rw [h] at hdisp
                    exact dispatch_keeps_needs_write lib hkeep assert_active filename _ _ _ _ r
                      hdisp
                  · rcases List.mem_cons.mp ho with rfl | ho2
                    · left
                      exact add_padding_dispatch_sets_needs_write lib assert_active filename _ _
                        _ _ _ r hto hdisp hrok
                    · exact Or.inr ⟨o, ho2, hto⟩

/-- The second loop, when it ends with `ok` true: `ok` was true at the start,
the seek point additions were dispatched once each, in their order,
`use_padding` is as before, and a set `needs_write` is still set, provided the
handlers leave a set flag set. -/
theorem shorthand_second_loop_trace (lib : ShorthandLibrary) (assert_active : Bool)
    (filename : String) (options : CommandLineOptions) :
    ∀ (operations : List Operation) (s s2 : ShorthandLocals),
      shorthand_second_loop lib assert_active filename options operations s = Except.ok s2 →
      s2.ok = true →
      s.ok = true ∧
        s2.dispatched = s.dispatched ++
          operations.filter (fun o => decide (o.type = OperationType.ADD_SEEKPOINT)) ∧
        s2.use_padding = s.use_padding ∧
        (lib.keeps_needs_write → s.needs_write = true → s2.needs_write = true) := by
  intro operations
  induction operations with
  | nil =>
      intro s s2 h hok2
      simp only [shorthand_second_loop, Except.ok.injEq] at h
      subst h
      exact ⟨hok2, by simp, rfl, fun _ h => h⟩
  | cons operation rest ih =>
      intro s s2 h hok2
      rw [shorthand_second_loop] at h
      cases hok : s.ok with
      | false =>
          simp only [hok, Bool.not_false, if_true, Except.ok.injEq] at h
          subst h
          rw [hok] at hok2
          exact absurd hok2 (by decide)
      | true =>
          simp only [hok, Bool.not_true, Bool.false_eq_true, if_false, Bool.true_and] at h
          by_cases hseek : operation.type = OperationType.ADD_SEEKPOINT
          · simp only [hseek, if_true] at h
            cases hdisp : do_shorthand_operation lib assert_active filename
                options.prefix_with_filename s.chain operation s.needs_write
                options.utf8_convert with
            | error e => simp [hdisp] at h
            | ok r =>
                simp only [hdisp] at h
                obtain ⟨-, hd, hup, hnw⟩ := ih _ s2 h hok2
                simp only at hd hup hnw
                refine ⟨rfl, ?_, hup, ?_⟩
                · rw [hd]; simp [hseek]
                · intro hkeep hflag
                  apply hnw hkeep
                  rw [hflag] at hdisp
                  exact dispatch_keeps_needs_write lib hkeep assert_active filename _ _ _ _ r
                    hdisp
          · simp only [hseek, if_false] at h
            obtain ⟨-, hd, hup, hnw⟩ := ih _ s2 h hok2
            refine ⟨rfl, ?_, hup, hnw⟩
            rw [hd]; simp [hseek]

/-- What the two dispatch loops leave when they end with `ok` true. -/
theorem shorthand_dispatch_loops_trace (lib : ShorthandLibrary) (assert_active : Bool)
    (filename : String) (options : CommandLineOptions) (chain : Chain) (s : ShorthandLocals)
    (h : shorthand_dispatch_loops lib assert_active filename options chain = Except.ok s)
    (hok : s.ok = true) :
    s.dispatched =
        options.operations.filter (fun o => decide (o.type ≠ OperationType.ADD_SEEKPOINT)) ++
          options.operations.filter (fun o => decide (o.type = OperationType.ADD_SEEKPOINT)) ∧
      s.use_padding =
        (if options.operations.any (fun o => decide (o.type = OperationType.ADD_PADDING)) = true
          then false else options.use_padding) ∧
      (lib.keeps_needs_write →
        (∃ operation ∈ options.operations, operation.type = OperationType.ADD_PADDING) →
        s.needs_write = true) := by
  unfold shorthand_dispatch_loops at h
  cases h1 : shorthand_first_loop lib assert_active filename options options.operations
      { ok := true, needs_write := false, use_padding := options.use_padding
        chain := chain, dispatched := [] } with
  | error e => simp [h1] at h
  | ok s1 =>
      simp only [h1] at h
      obtain ⟨hok1, hd2, hup2, hnw2⟩ := shorthand_second_loop_trace lib assert_active filename
        options _ s1 s h hok
      obtain ⟨-, hd1, hup1, hnw1⟩ := shorthand_first_loop_trace lib assert_active filename
        options _ _ s1 h1 hok1
      refine ⟨?_, ?_, ?_⟩
      · rw [hd2, hd1]; simp
      · rw [hup2, hup1]
      · intro hkeep hpad
        exact hnw2 hkeep (hnw1 hkeep (Or.inr hpad))

theorem write_if_needed_events (lib : MetadataLibrary) (ok needs_write use_padding pm : Bool)
    (chain : Chain) :
    (write_if_needed lib ok needs_write use_padding pm chain [] []).needs_write = needs_write ∧
    (write_if_needed lib ok needs_write use_padding pm chain [] []).events =
      (if (ok && needs_write) = true then
        (if use_padding = true then
          [ChainEvent.sort_padding,
            ChainEvent.write (lib.chain_sort_padding chain) use_padding pm]
        else [ChainEvent.write chain use_padding pm])
      else []) := by
  unfold write_if_needed
  cases ok <;> cases needs_write <;> cases use_padding <;> simp

/-- C12. For every shorthand operation sequence, file and chain read from it:
when every dispatch succeeds (the two dispatch loops end with `ok` true), the
operations dispatched are, in this order, all the operations that are not seek
point additions in input order, then all seek point additions in input order;
this is a rearrangement of the input sequence, so each operation is dispatched
exactly once and no seek point addition precedes any other operation. -/
theorem shorthand_dispatch_order (lib : ShorthandLibrary) (mlib : MetadataLibrary)
    (assert_active : Bool) (filename : String) (options : CommandLineOptions) (chain : Chain)
    (s : ShorthandLocals) (hread : mlib.chain_read filename = some chain)
    (hloops : shorthand_dispatch_loops lib assert_active filename options chain = Except.ok s)
    (hok : s.ok = true) :
    ∃ out, do_shorthand_operations_on_file lib mlib assert_active filename options =
        Except.ok out ∧
      out.dispatched =
        options.operations.filter (fun o => decide (o.type ≠ OperationType.ADD_SEEKPOINT)) ++
          options.operations.filter (fun o => decide (o.type = OperationType.ADD_SEEKPOINT)) ∧
      out.dispatched.Perm options.operations := by
  obtain ⟨hd, -, -⟩ := shorthand_dispatch_loops_trace lib assert_active filename options chain
    s hloops hok
  refine ⟨_, by simp only [do_shorthand_operations_on_file, hread, hloops]; rfl, hd, ?_⟩
  show s.dispatched.Perm options.operations
  rw [hd]
  have := List.filter_append_perm
    (fun o : Operation => decide (o.type ≠ OperationType.ADD_SEEKPOINT)) options.operations
  have e : (fun o : Operation => !decide (o.type ≠ OperationType.ADD_SEEKPOINT)) =
      (fun o : Operation => decide (o.type = OperationType.ADD_SEEKPOINT)) := by
    funext o; simp
  rw [e] at this
  exact this

/-- Witness of C12: a seek point addition given first is dispatched after the
cue sheet import and the padding addition that follow it. -/
theorem shorthand_dispatch_order_witness :
    ∃ out, do_shorthand_operations_on_file sample_handlers
        (sample_library [sample_block MetadataType.STREAMINFO 34 true id_zero]) true "a.flac"
        (sample_options [] false false true
          [ sample_operation OperationType.ADD_SEEKPOINT,
            sample_operation OperationType.IMPORT_CUESHEET_FROM,
            sample_operation OperationType.ADD_PADDING ]) = Except.ok out ∧
      out.dispatched =
        [ sample_operation OperationType.IMPORT_CUESHEET_FROM,
          sample_operation OperationType.ADD_PADDING,
          sample_operation OperationType.ADD_SEEKPOINT ] :=
  (shorthand_dispatch_order sample_handlers
      (sample_library [sample_block MetadataType.STREAMINFO 34 true id_zero]) true "a.flac"
      (sample_options [] false false true
        [ sample_operation OperationType.ADD_SEEKPOINT,
          sample_operation OperationType.IMPORT_CUESHEET_FROM,
          sample_operation OperationType.ADD_PADDING ])
      [sample_block MetadataType.STREAMINFO 34 true id_zero] _ rfl rfl rfl).elim
    fun out h => ⟨out, h.1, h.2.1.trans (by decide)⟩

/-- C13. For every file whose chain is read and whose shorthand operations all
succeed (the two dispatch loops end with `ok` true): if the sequence contains an
add-padding operation, the local `use_padding` ends false whatever the global
option, padding is not sorted, no write is made with `use_padding` true, and,
the handlers leaving a set `needs_write` set, the chain is written exactly once,
with `use_padding = false`; if the sequence contains no add-padding operation,
`use_padding` is the global option, and every write (there is one as soon as
`needs_write` is set) is made with it. -/
theorem add_padding_turns_use_padding_off (lib : ShorthandLibrary) (mlib : MetadataLibrary)
    (assert_active : Bool) (filename : String) (options : CommandLineOptions) (chain : Chain)
    (s : ShorthandLocals) (hread : mlib.chain_read filename = some chain)
    (hloops : shorthand_dispatch_loops lib assert_active filename options chain = Except.ok s)
    (hok : s.ok = true) :
    ∃ out, do_shorthand_operations_on_file lib mlib assert_active filename options =
        Except.ok out ∧
      ((∃ operation ∈ options.operations, operation.type = OperationType.ADD_PADDING) →
        out.use_padding = false ∧
        ChainEvent.sort_padding ∉ out.events ∧
        (∀ c up pm, ChainEvent.write c up pm ∈ out.events → up = false) ∧
        (lib.keeps_needs_write →
          out.events = [ChainEvent.write s.chain false options.preserve_modtime])) ∧
      ((∀ operation ∈ options.operations, operation.type ≠ OperationType.ADD_PADDING) →
        out.use_padding = options.use_padding ∧
        (∀ c up pm, ChainEvent.write c up pm ∈ out.events → up = options.use_padding) ∧
        (out.needs_write = true →
          ∃ c, ChainEvent.write c options.use_padding options.preserve_modtime ∈ out.events)) := by
  obtain ⟨-, hup, hnw⟩ := shorthand_dispatch_loops_trace lib assert_active filename options
    chain s hloops hok
  obtain ⟨hwn, hwe⟩ := write_if_needed_events mlib s.ok s.needs_write s.use_padding
    options.preserve_modtime s.chain
  refine ⟨_, by simp only [do_shorthand_operations_on_file, hread, hloops]; rfl, ?_, ?_⟩
  · intro hpad
    have hany : options.operations.any
        (fun o => decide (o.type = OperationType.ADD_PADDING)) = true := by
      simpa using hpad
    have hup2 : s.use_padding = false := by rw [hup]; simp [hany]
    simp only [hup2, Bool.false_eq_true, if_false] at hwe
    refine ⟨hup2, ?_, ?_, ?_⟩
    · show ChainEvent.sort_padding ∉ (write_if_needed mlib s.ok s.needs_write s.use_padding
        options.preserve_modtime s.chain [] []).events
      rw [hup2, hwe]
      split <;> simp
    · intro c up pm hmem
      have hmem2 : ChainEvent.write c up pm ∈ (write_if_needed mlib s.ok s.needs_write
          s.use_padding options.preserve_modtime s.chain [] []).events := hmem
      rw [hup2, hwe] at hmem2
      split at hmem2
      · simp only [List.mem_singleton, ChainEvent.write.injEq] at hmem2
        exact hmem2.2.1
      · exact absurd hmem2 (List.not_mem_nil _)
    · intro hkeep
      show (write_if_needed mlib s.ok s.needs_write s.use_padding
        options.preserve_modtime s.chain [] []).events = _
      rw [hup2, hwe, hok, hnw hkeep hpad]
      simp
  · intro hno
    have hany : ¬ options.operations.any
        (fun o => decide (o.type = OperationType.ADD_PADDING)) = true := by
      simpa using hno
    have hup2 : s.use_padding = options.use_padding := by rw [hup]; simp [hany]
    refine ⟨hup2, ?_, ?_⟩
    · intro c up pm hmem
      have hmem2 : ChainEvent.write c up pm ∈ (write_if_needed mlib s.ok s.needs_write
          s.use_padding options.preserve_modtime s.chain [] []).events := hmem
      rw [hwe, hup2] at hmem2
      split at hmem2
      · split at hmem2
        · simp only [List.mem_cons, ChainEvent.write.injEq, List.mem_singleton, false_or,
            reduceCtorEq, List.not_mem_nil, or_false] at hmem2
          exact hmem2.2.1
        · simp only [List.mem_singleton, ChainEvent.write.injEq] at hmem2
          exact hmem2.2.1
      · exact absurd hmem2 (List.not_mem_nil _)
    · intro hnw2
      have hnw3 : s.needs_write = true := by rw [← hwn]; exact hnw2
      show ∃ c, ChainEvent.write c options.use_padding options.preserve_modtime ∈
        (write_if_needed mlib s.ok s.needs_write s.use_padding
          options.preserve_modtime s.chain [] []).events
      rw [hwe, hok, hnw3, hup2]
      by_cases hg : options.use_padding = true
      · exact ⟨mlib.chain_sort_padding s.chain, by simp [hg]⟩
      · exact ⟨s.chain, by simp [hg]⟩

theorem sample_handlers_keep_needs_write : sample_handlers.keeps_needs_write :=
  ⟨fun _ _ _ _ => rfl, fun _ _ _ _ _ => rfl, fun _ _ _ => rfl, fun _ _ _ => rfl,
    fun _ _ _ => rfl⟩

/-- Witness of C13: with the global `use_padding` set, an add-padding operation
of length 0 on a one-block chain: the chain with the new padding block is
written once, with `use_padding = false` and without sorting. -/
theorem add_padding_turns_use_padding_off_witness :
    ∃ out, do_shorthand_operations_on_file sample_handlers
        (sample_library [sample_block MetadataType.STREAMINFO 34 true id_zero]) true "a.flac"
        (sample_options [] false false true [sample_operation OperationType.ADD_PADDING]) =
          Except.ok out ∧
      out.use_padding = false ∧
      out.events =
        [ChainEvent.write
          [ sample_block MetadataType.STREAMINFO 34 false id_zero,
            { FLAC__metadata_object_new MetadataType.PADDING with is_last := true } ]
          false false] :=
  (add_padding_turns_use_padding_off sample_handlers
      (sample_library [sample_block MetadataType.STREAMINFO 34 true id_zero]) true "a.flac"
      (sample_options [] false false true [sample_operation OperationType.ADD_PADDING])
      [sample_block MetadataType.STREAMINFO 34 true id_zero] _ rfl rfl rfl).elim
    fun out h =>
      ⟨out, h.1, (h.2.1 ⟨_, List.mem_cons_self _ _, rfl⟩).1,
        ((h.2.1 ⟨_, List.mem_cons_self _ _, rfl⟩).2.2.2 sample_handlers_keep_needs_write).trans
          (by decide)⟩

/-! ### The replay gain aggregator: the validation loop -/

/-- The validation loop makes no call but `FLAC__metadata_get_streaminfo`. -/
theorem validate_events (lib : ReplayGainLibrary) :
    ∀ (files : List String) (s : ValidationLocals) (events : List ReplayGainEvent)
      (e : ReplayGainEvent), e ∈ (replay_gain_validate lib files s events).1 →
      e ∈ events ∨ ∃ f, e = ReplayGainEvent.get_streaminfo f := by
  intro files
  induction files with
  | nil => intro s events e he; exact Or.inl he
  | cons f rest ih =>
      intro s events e he
      have base : ∀ e, e ∈ events ++ [ReplayGainEvent.get_streaminfo f] →
          e ∈ events ∨ ∃ f, e = ReplayGainEvent.get_streaminfo f := by
        intro e h
        rcases List.mem_append.mp h with h | h
        · exact Or.inl h
        · exact Or.inr ⟨f, List.mem_singleton.mp h⟩
      rw [replay_gain_validate] at he
      simp only at he
      split at he
      · exact base e he
      · split at he
        · exact base e he
        · split_ifs at he
          · exact base e he
          · exact base e he
          · rcases ih _ _ e he with h | h
            · exact base e h
            · exact Or.inr h

/-- Once the first file has been seen, the loop passes only if every remaining
file has exactly the recorded sample rate, resolution and channel count; it
leaves the locals as they are. -/
theorem validate_some_agree (lib : ReplayGainLibrary) :
    ∀ (files : List String) (s : ValidationLocals) (events events2 : List ReplayGainEvent)
      (s2 : ValidationLocals),
      replay_gain_validate lib files s events = (events2, some s2) → s.first = false →
      s2 = s ∧ ∀ f ∈ files, lib.get_streaminfo f =
        some { sample_rate := s.sample_rate, bits_per_sample := s.bits_per_sample
               channels := s.channels } := by
  intro files
  induction files with
  | nil =>
      intro s events events2 s2 h _
      simp only [replay_gain_validate, Prod.mk.injEq, Option.some.injEq] at h
      exact ⟨h.2.symm, fun f hf => absurd hf (List.not_mem_nil _)⟩
  | cons f rest ih =>
      intro s events events2 s2 h hfirst
      rw [replay_gain_validate] at h
      simp only [hfirst, Bool.false_eq_true, if_false] at h
      cases hg : lib.get_streaminfo f with
      | none => simp [hg] at h
      | some si =>
          simp only [hg] at h
          by_cases h1 : s.sample_rate = si.sample_rate
          · by_cases h2 : s.bits_per_sample = si.bits_per_sample
            · by_cases h3 : s.channels = si.channels
              · simp only [ne_eq, h1, h2, h3, not_true_eq_false, if_false] at h
                split_ifs at h
                all_goals try (exact absurd h (by simp))
                obtain ⟨hs2, hrest⟩ := ih _ _ _ _ h hfirst
                refine ⟨hs2, ?_⟩
                intro g hgm
                rcases List.mem_cons.mp hgm with rfl | hgm2
                · rw [hg, h1, h2, h3]
                · exact hrest g hgm2
              · simp [h1, h2, h3] at h
            · simp [h1, h2] at h
          · simp [h1] at h

/-- On the first file the loop records its stream info; it passes only if the
sample rate is supported, there are 1 or 2 channels, and every other file
has the same stream info. -/
theorem validate_some_first (lib : ReplayGainLibrary) (f0 : String) (rest : List String)
    (s : ValidationLocals) (events events2 : List ReplayGainEvent) (s2 : ValidationLocals)
    (h : replay_gain_validate lib (f0 :: rest) s events = (events2, some s2))
    (hfirst : s.first = true) :
    ∃ si0, lib.get_streaminfo f0 = some si0 ∧
      s2 = { first := false, sample_rate := si0.sample_rate
             bits_per_sample := si0.bits_per_sample, channels := si0.channels } ∧
      lib.is_valid_sample_frequency si0.sample_rate = true ∧
      (si0.channels = 1 ∨ si0.channels = 2) ∧
      ∀ f ∈ rest, lib.get_streaminfo f = some si0 := by
  rw [replay_gain_validate] at h
  simp only [hfirst, if_true] at h
  cases hg : lib.get_streaminfo f0 with
  | none => simp [hg] at h
  | some si =>
      simp only [hg] at h
      split_ifs at h with hv hc
      all_goals try (exact absurd h (by simp))
      obtain ⟨hs2, hrest⟩ := validate_some_agree lib _ _ _ _ _ h rfl
      refine ⟨si, rfl, hs2, by simpa using hv, ?_, ?_⟩
      · simp only [ne_eq, Bool.and_eq_true, decide_eq_true_eq, not_and, not_not] at hc
        by_cases h1 : si.channels = 1
        · exact Or.inl h1
        · exact Or.inr (hc h1)
      · intro g hgm
        exact hrest g hgm

/-- Files that all carry the recorded, supported format pass the loop, each
read once in order. -/
theorem validate_of_agree (lib : ReplayGainLibrary) (si0 : StreamInfo)
    (hvalid : lib.is_valid_sample_frequency si0.sample_rate = true)
    (hch : si0.channels = 1 ∨ si0.channels = 2) :
    ∀ (files : List String) (events : List ReplayGainEvent),
      (∀ f ∈ files, lib.get_streaminfo f = some si0) →
      replay_gain_validate lib files
          { first := false, sample_rate := si0.sample_rate
            bits_per_sample := si0.bits_per_sample, channels := si0.channels } events =
        (events ++ files.map ReplayGainEvent.get_streaminfo,
          some { first := false, sample_rate := si0.sample_rate
                 bits_per_sample := si0.bits_per_sample, channels := si0.channels }) := by
  intro files
  induction files with
  | nil => intro events _; simp [replay_gain_validate]
  | cons f rest ih =>
      intro events hall
      have hch2 : ¬ (si0.channels ≠ 1 ∧ si0.channels ≠ 2) := by
        rintro ⟨h1, h2⟩; rcases hch with h | h
        · exact h1 h
        · exact h2 h
      rw [replay_gain_validate]
      simp only [hall f (List.mem_cons_self _ _), Bool.false_eq_true, if_false, ne_eq,
        not_true_eq_false, hvalid, Bool.not_true, Bool.and_eq_true, decide_eq_true_eq, hch2]
      rw [ih _ (fun g hg => hall g (List.mem_cons_of_mem _ hg))]
      simp

theorem validate_of_agree_first (lib : ReplayGainLibrary) (si0 : StreamInfo)
    (hvalid : lib.is_valid_sample_frequency si0.sample_rate = true)
    (hch : si0.channels = 1 ∨ si0.channels = 2) (f0 : String) (rest : List String)
    (hall : ∀ f ∈ f0 :: rest, lib.get_streaminfo f = some si0) :
    replay_gain_validate lib (f0 :: rest)
        { first := true, sample_rate := 0, bits_per_sample := 0, channels := 0 } [] =
      ((f0 :: rest).map ReplayGainEvent.get_streaminfo,
        some { first := false, sample_rate := si0.sample_rate
               bits_per_sample := si0.bits_per_sample, channels := si0.channels }) := by
  have hch2 : ¬ (si0.channels ≠ 1 ∧ si0.channels ≠ 2) := by
    rintro ⟨h1, h2⟩; rcases hch with h | h
    · exact h1 h
    · exact h2 h
  rw [replay_gain_validate]
  simp only [hall f0 (List.mem_cons_self _ _), if_true, hvalid, Bool.not_true,
    Bool.false_eq_true, if_false, ne_eq, Bool.and_eq_true, decide_eq_true_eq, hch2]
  rw [validate_of_agree lib si0 hvalid hch rest _
    (fun g hg => hall g (List.mem_cons_of_mem _ hg))]
  simp

/-! ### The replay gain aggregator: the analysis and store loops -/

/-- When every analysis succeeds the loop analyses each file once, in order,
and collects the title values in file order. -/
theorem analyze_some_of_all (lib : ReplayGainLibrary) (files : List String)
    (titles : List (FloatBits × FloatBits))
    (h : List.Forall₂ (fun f t => lib.analyze_file f = Except.ok t) files titles)
    (titles0 : List (FloatBits × FloatBits)) (events : List ReplayGainEvent) :
    replay_gain_analyze lib files titles0 events =
      (events ++ files.map ReplayGainEvent.analyze_file, some (titles0 ++ titles)) := by
  induction h generalizing titles0 events with
  | nil => simp [replay_gain_analyze]
  | cons hhead _ ih =>
      rw [replay_gain_analyze]
      simp only [hhead, ih]
      simp

/-- When every store succeeds the loop stores into each file once, in order,
and returns true. -/
theorem store_all (lib : ReplayGainLibrary) (album : FloatBits × FloatBits) (pm : Bool) :
    ∀ (l : List (String × (FloatBits × FloatBits))) (events : List ReplayGainEvent),
      (∀ p ∈ l, lib.store_to_file p.1 album.1 album.2 p.2.1 p.2.2 pm = none) →
      replay_gain_store lib album pm l events = (events ++ l.map (store_call album pm), true) := by
  intro l
  induction l with
  | nil => intro events _; simp [replay_gain_store]
  | cons p rest ih =>
      intro events hall
      obtain ⟨f, t⟩ := p
      rw [replay_gain_store]
      simp only [hall (f, t) (List.mem_cons_self _ _)]
      rw [ih _ (fun q hq => hall q (List.mem_cons_of_mem _ hq))]
      simp [store_call]

/-- The store loop stops at the first file on which the store fails: the files
before it have been stored, the files after it are not touched, the result is
false. -/
theorem store_until_failure (lib : ReplayGainLibrary) (album : FloatBits × FloatBits)
    (pm : Bool) (p : String × (FloatBits × FloatBits)) (post : List (String × (FloatBits × FloatBits)))
    (err : String)
    (hp : lib.store_to_file p.1 album.1 album.2 p.2.1 p.2.2 pm = some err) :
    ∀ (pre : List (String × (FloatBits × FloatBits))) (events : List ReplayGainEvent),
      (∀ q ∈ pre, lib.store_to_file q.1 album.1 album.2 q.2.1 q.2.2 pm = none) →
      replay_gain_store lib album pm (pre ++ p :: post) events =
        (events ++ (pre ++ [p]).map (store_call album pm), false) := by
  intro pre
  induction pre with
  | nil =>
      intro events _
      obtain ⟨f, t⟩ := p
      rw [List.nil_append, replay_gain_store]
      simp only at hp
      simp only [hp]
      simp [store_call]
  | cons q rest ih =>
      intro events hall
      obtain ⟨f, t⟩ := q
      rw [List.cons_append, replay_gain_store]
      simp only [hall (f, t) (List.mem_cons_self _ _)]
      rw [ih _ (fun q hq => hall q (List.mem_cons_of_mem _ hq))]
      simp [store_call]

theorem FLAC__ASSERT_true (active : Bool) : FLAC__ASSERT active true = Except.ok () := by
  cases active <;> rfl

theorem FLAC__ASSERT_inactive (x : Bool) : FLAC__ASSERT false x = Except.ok () := rfl

/-- A run on a non-empty batch whose validation loop returns false: the run
returns false after the stream info reads of that loop. -/
theorem run_of_validate_none (lib : ReplayGainLibrary) (assert_active : Bool)
    (filenames : List String) (pm : Bool) (events : List ReplayGainEvent)
    (hne : filenames ≠ [])
    (hv : replay_gain_validate lib filenames
      { first := true, sample_rate := 0, bits_per_sample := 0, channels := 0 } [] =
        (events, none)) :
    (do_shorthand_operation__add_replay_gain lib assert_active filenames pm).result =
        Except.ok false ∧
      (do_shorthand_operation__add_replay_gain lib assert_active filenames pm).events =
        events := by
  have hpos : decide (0 < filenames.length) = true := by
    simpa using List.length_pos.mpr hne
  simp only [do_shorthand_operation__add_replay_gain, hpos, FLAC__ASSERT_true, hv]
  exact ⟨trivial, trivial⟩

/-- A run on a non-empty batch that passes validation, the resolution assertion
and `init`: it analyses, and stores if the analysis of every file succeeded. -/
theorem run_of_validated (lib : ReplayGainLibrary) (assert_active : Bool)
    (filenames : List String) (pm : Bool) (events : List ReplayGainEvent)
    (s : ValidationLocals) (hne : filenames ≠ [])
    (hv : replay_gain_validate lib filenames
      { first := true, sample_rate := 0, bits_per_sample := 0, channels := 0 } [] =
        (events, some s))
    (hbps : assert_active = true →
      lib.min_bits_per_sample ≤ s.bits_per_sample ∧ s.bits_per_sample ≤ lib.max_bits_per_sample)
    (hinit : lib.init s.sample_rate = true) :
    do_shorthand_operation__add_replay_gain lib assert_active filenames pm =
      match replay_gain_analyze lib filenames [] (events ++ [ReplayGainEvent.init s.sample_rate])
        with
      | (events2, none) => { events := events2, result := Except.ok false }
      | (events2, some titles) =>
          { events := (replay_gain_store lib (lib.get_album filenames) pm
              (filenames.zip titles) (events2 ++ [ReplayGainEvent.get_album])).1
            result := Except.ok (replay_gain_store lib (lib.get_album filenames) pm
              (filenames.zip titles) (events2 ++ [ReplayGainEvent.get_album])).2 } := by
  have hpos : decide (0 < filenames.length) = true := by
    simpa using List.length_pos.mpr hne
  have hassert : FLAC__ASSERT assert_active
      (decide (lib.min_bits_per_sample ≤ s.bits_per_sample) &&
        decide (s.bits_per_sample ≤ lib.max_bits_per_sample)) = Except.ok () := by
    cases assert_active with
    | false => rfl
    | true =>
        obtain ⟨h1, h2⟩ := hbps rfl
        simp [FLAC__ASSERT, h1, h2]
  simp only [do_shorthand_operation__add_replay_gain, hpos, FLAC__ASSERT_true, hv, hassert,
    hinit, Bool.not_true, Bool.false_eq_true, if_false]

theorem get_streaminfo_event_kind (e : ReplayGainEvent)
    (h : e ∈ ([] : List ReplayGainEvent) ∨ ∃ f, e = ReplayGainEvent.get_streaminfo f) :
    e.is_analysis = false ∧ e.is_store = false := by
  rcases h with h | ⟨f, rfl⟩
  · exact absurd h (List.not_mem_nil _)
  · exact ⟨rfl, rfl⟩

/-- C14. For every batch in which some file's stream info differs from the
first file's in sample rate, bits per sample or channel count (so the batch has
at least two files), the aggregator returns false and calls neither the analysis
nor the store on any file. -/
theorem replay_gain_format_mismatch (lib : ReplayGainLibrary) (assert_active : Bool)
    (filenames : List String) (pm : Bool) (first f : String) (s0 sf : StreamInfo)
    (hfirst : filenames.head? = some first) (hf : f ∈ filenames)
    (h0 : lib.get_streaminfo first = some s0) (hsf : lib.get_streaminfo f = some sf)
    (hdiff : sf.sample_rate ≠ s0.sample_rate ∨ sf.bits_per_sample ≠ s0.bits_per_sample ∨
      sf.channels ≠ s0.channels) :
    (do_shorthand_operation__add_replay_gain lib assert_active filenames pm).result =
        Except.ok false ∧
      ∀ e ∈ (do_shorthand_operation__add_replay_gain lib assert_active filenames pm).events,
        e.is_analysis = false ∧ e.is_store = false := by
  cases filenames with
  | nil => simp at hfirst
  | cons g rest =>
      simp only [List.head?_cons, Option.some.injEq] at hfirst
      subst hfirst
      cases hv : replay_gain_validate lib (g :: rest)
          { first := true, sample_rate := 0, bits_per_sample := 0, channels := 0 } [] with
      | mk events r =>
          cases r with
          | none =>
              obtain ⟨hr, he⟩ := run_of_validate_none lib assert_active (g :: rest) pm events
                (by simp) hv
              refine ⟨hr, ?_⟩
              rw [he]
              intro e hmem
              apply get_streaminfo_event_kind
              have := validate_events lib (g :: rest)
                { first := true, sample_rate := 0, bits_per_sample := 0, channels := 0 } [] e
              rw [hv] at this
              exact this hmem
          | some s2 =>
              exfalso
              obtain ⟨si0, hg0, -, -, -, hrest⟩ := validate_some_first lib g rest _ [] events s2
                hv rfl
              have hs0 : s0 = si0 := by rw [h0] at hg0; exact Option.some.inj hg0
              have hsf2 : sf = si0 := by
                rcases List.mem_cons.mp hf with rfl | hf2
                · rw [hsf] at hg0; exact Option.some.inj hg0
                · have := hrest f hf2
                  rw [hsf] at this; exact Option.some.inj this
              rw [hs0, hsf2] at hdiff
              rcases hdiff with h | h | h <;> exact h rfl

/-- Witness of C14: of two files the second is sampled at 48000 Hz instead of
44100 Hz: the run reads the two stream infos and returns false. -/
theorem replay_gain_format_mismatch_witness :
    (do_shorthand_operation__add_replay_gain
        (sample_replay_gain
          (fun f => if f = "b.flac" then
            some { sample_rate := 48000, bits_per_sample := 16, channels := 2 }
            else some cd_streaminfo)
          (fun _ => false) (fun _ => false))
        true ["a.flac", "b.flac"] false).result = Except.ok false ∧
    ∀ e ∈ (do_shorthand_operation__add_replay_gain
        (sample_replay_gain
          (fun f => if f = "b.flac" then
            some { sample_rate := 48000, bits_per_sample := 16, channels := 2 }
            else some cd_streaminfo)
          (fun _ => false) (fun _ => false))
        true ["a.flac", "b.flac"] false).events,
      e.is_analysis = false ∧ e.is_store = false :=
  replay_gain_format_mismatch
    (sample_replay_gain
      (fun f => if f = "b.flac" then
        some { sample_rate := 48000, bits_per_sample := 16, channels := 2 }
        else some cd_streaminfo)
      (fun _ => false) (fun _ => false))
    true ["a.flac", "b.flac"] false "a.flac" "b.flac" cd_streaminfo
    { sample_rate := 48000, bits_per_sample := 16, channels := 2 } rfl (by decide) rfl rfl
    (Or.inl (by decide))

/-- C16. For every batch of at least one file whose files all carry the same
stream info, with a supported sample rate and 1 or 2 channels, on which no
assertion fails and `init` accepts the sample rate: if every analysis and every
store succeeds, the aggregator returns true, and its calls are, in order, one
stream info read per file, `init` with the common sample rate, one analysis per
file, the album query, and one store per file, in batch order, each with the
title gain and peak of that file's own analysis and with the one album gain and
peak. -/
theorem replay_gain_success (lib : ReplayGainLibrary) (assert_active : Bool)
    (filenames : List String) (pm : Bool) (si0 : StreamInfo)
    (titles : List (FloatBits × FloatBits)) (hne : filenames ≠ [])
    (hall : ∀ f ∈ filenames, lib.get_streaminfo f = some si0)
    (hvalid : lib.is_valid_sample_frequency si0.sample_rate = true)
    (hch : si0.channels = 1 ∨ si0.channels = 2)
    (hbps : assert_active = true →
      lib.min_bits_per_sample ≤ si0.bits_per_sample ∧
        si0.bits_per_sample ≤ lib.max_bits_per_sample)
    (hinit : lib.init si0.sample_rate = true)
    (hanalysis : List.Forall₂ (fun f t => lib.analyze_file f = Except.ok t) filenames titles)
    (hstore : ∀ p ∈ filenames.zip titles,
      lib.store_to_file p.1 (lib.get_album filenames).1 (lib.get_album filenames).2 p.2.1 p.2.2
        pm = none) :
    (do_shorthand_operation__add_replay_gain lib assert_active filenames pm).result =
        Except.ok true ∧
      (do_shorthand_operation__add_replay_gain lib assert_active filenames pm).events =
        filenames.map ReplayGainEvent.get_streaminfo ++
          [ReplayGainEvent.init si0.sample_rate] ++
          filenames.map ReplayGainEvent.analyze_file ++
          [ReplayGainEvent.get_album] ++
          (filenames.zip titles).map (store_call (lib.get_album filenames) pm) := by
  cases filenames with
  | nil => exact absurd rfl hne
  | cons f0 rest =>
      rw [run_of_validated lib assert_active (f0 :: rest) pm _ _ hne
        (validate_of_agree_first lib si0 hvalid hch f0 rest hall) hbps hinit]
      rw [analyze_some_of_all lib (f0 :: rest) titles hanalysis]
      simp only [List.nil_append]
      rw [store_all lib (lib.get_album (f0 :: rest)) pm _ _ hstore]
      exact ⟨rfl, rfl⟩

/-- Witness of C16: two CD-quality files, every analysis and store succeeding. -/
theorem replay_gain_success_witness :
    (do_shorthand_operation__add_replay_gain
        (sample_replay_gain (fun _ => some cd_streaminfo) (fun _ => false) (fun _ => false))
        true ["a.flac", "bb.flac"] false).result = Except.ok true ∧
    (do_shorthand_operation__add_replay_gain
        (sample_replay_gain (fun _ => some cd_streaminfo) (fun _ => false) (fun _ => false))
        true ["a.flac", "bb.flac"] false).events =
      [ ReplayGainEvent.get_streaminfo "a.flac", ReplayGainEvent.get_streaminfo "bb.flac",
        ReplayGainEvent.init 44100,
        ReplayGainEvent.analyze_file "a.flac", ReplayGainEvent.analyze_file "bb.flac",
        ReplayGainEvent.get_album,
        ReplayGainEvent.store_to_file "a.flac" 2 99 6 12 false,
        ReplayGainEvent.store_to_file "bb.flac" 2 99 7 14 false ] :=
  (replay_gain_success
    (sample_replay_gain (fun _ => some cd_streaminfo) (fun _ => false) (fun _ => false))
    true ["a.flac", "bb.flac"] false cd_streaminfo [(6, 12), (7, 14)] (by decide)
    (fun _ _ => rfl) rfl (Or.inr rfl) (fun _ => by decide) rfl
    (List.Forall₂.cons rfl (List.Forall₂.cons rfl List.Forall₂.nil))
    (fun _ _ => rfl)).imp id (fun h => h.trans (by decide))

/-- C17. For every batch whose first file has a readable stream info with a
sample rate outside the supported set, or with a channel count that is neither 1
nor 2, the aggregator returns false and has called neither the analysis nor the
store (it has only read stream infos). -/
theorem replay_gain_unsupported_format (lib : ReplayGainLibrary) (assert_active : Bool)
    (filenames : List String) (pm : Bool) (first : String) (s0 : StreamInfo)
    (hfirst : filenames.head? = some first)
    (h0 : lib.get_streaminfo first = some s0)
    (hbad : lib.is_valid_sample_frequency s0.sample_rate = false ∨
      (s0.channels ≠ 1 ∧ s0.channels ≠ 2)) :
    (do_shorthand_operation__add_replay_gain lib assert_active filenames pm).result =
        Except.ok false ∧
      ∀ e ∈ (do_shorthand_operation__add_replay_gain lib assert_active filenames pm).events,
        e.is_analysis = false ∧ e.is_store = false := by
  cases filenames with
  | nil => simp at hfirst
  | cons g rest =>
      simp only [List.head?_cons, Option.some.injEq] at hfirst
      subst hfirst
      cases hv : replay_gain_validate lib (g :: rest)
          { first := true, sample_rate := 0, bits_per_sample := 0, channels := 0 } [] with
      | mk events r =>
          cases r with
          | none =>
              obtain ⟨hr, he⟩ := run_of_validate_none lib assert_active (g :: rest) pm events
                (by simp) hv
              refine ⟨hr, ?_⟩
              rw [he]
              intro e hmem
              apply get_streaminfo_event_kind
              have := validate_events lib (g :: rest)
                { first := true, sample_rate := 0, bits_per_sample := 0, channels := 0 } [] e
              rw [hv] at this
              exact this hmem
          | some s2 =>
              exfalso
              obtain ⟨si0, hg0, -, hvalid, hch, -⟩ := validate_some_first lib g rest _ []
                events s2 hv rfl
              have hs0 : s0 = si0 := by rw [h0] at hg0; exact Option.some.inj hg0
              subst hs0
              rcases hbad with h | ⟨h1, h2⟩
              · rw [h] at hvalid; exact absurd hvalid (by decide)
              · rcases hch with h | h
                · exact h1 h
                · exact h2 h

/-- Witness of C17: a batch whose first file has 6 channels. -/
theorem replay_gain_unsupported_format_witness :
    (do_shorthand_operation__add_replay_gain
        (sample_replay_gain
          (fun _ => some { sample_rate := 44100, bits_per_sample := 16, channels := 6 })
          (fun _ => false) (fun _ => false))
        true ["a.flac", "b.flac"] false).result = Except.ok false ∧
    ∀ e ∈ (do_shorthand_operation__add_replay_gain
        (sample_replay_gain
          (fun _ => some { sample_rate := 44100, bits_per_sample := 16, channels := 6 })
          (fun _ => false) (fun _ => false))
        true ["a.flac", "b.flac"] false).events,
      e.is_analysis = false ∧ e.is_store = false :=
  replay_gain_unsupported_format
    (sample_replay_gain
      (fun _ => some { sample_rate := 44100, bits_per_sample := 16, channels := 6 })
      (fun _ => false) (fun _ => false))
    true ["a.flac", "b.flac"] false "a.flac"
    { sample_rate := 44100, bits_per_sample := 16, channels := 6 } rfl rfl
    (Or.inr ⟨by decide, by decide⟩)

/-- Counterexample to C18 as stated: of two files, analysed with success, the
store fails on the first: the run returns false and no store is attempted on
the second file. -/
theorem replay_gain_store_stops_at_failure :
    (do_shorthand_operation__add_replay_gain
        (sample_replay_gain (fun _ => some cd_streaminfo) (fun _ => false)
          (fun f => f == "a.flac"))
        true ["a.flac", "bb.flac"] false).result = Except.ok false ∧
    (do_shorthand_operation__add_replay_gain
        (sample_replay_gain (fun _ => some cd_streaminfo) (fun _ => false)
          (fun f => f == "a.flac"))
        true ["a.flac", "bb.flac"] false).events =
      [ ReplayGainEvent.get_streaminfo "a.flac", ReplayGainEvent.get_streaminfo "bb.flac",
        ReplayGainEvent.init 44100,
        ReplayGainEvent.analyze_file "a.flac", ReplayGainEvent.analyze_file "bb.flac",
        ReplayGainEvent.get_album,
        ReplayGainEvent.store_to_file "a.flac" 2 99 6 12 false ] :=
  ⟨rfl, by decide⟩

/-- C18, amended. Once validation and the analysis of every file have succeeded,
the stores are made in batch order up to the first one that fails: if the stores
on the files `before` succeed and the store on the next file fails, the run
returns false, the files `before` have been stored and nothing is called on them
afterwards (no roll back), the failing store is the last call of the run, and
no store is attempted on the files after it. -/
theorem replay_gain_store_failure (lib : ReplayGainLibrary) (assert_active : Bool)
    (filenames : List String) (pm : Bool) (si0 : StreamInfo)
    (titles : List (FloatBits × FloatBits))
    (before after : List (String × (FloatBits × FloatBits)))
    (failing : String × (FloatBits × FloatBits)) (err : String) (hne : filenames ≠ [])
    (hall : ∀ f ∈ filenames, lib.get_streaminfo f = some si0)
    (hvalid : lib.is_valid_sample_frequency si0.sample_rate = true)
    (hch : si0.channels = 1 ∨ si0.channels = 2)
    (hbps : assert_active = true →
      lib.min_bits_per_sample ≤ si0.bits_per_sample ∧
        si0.bits_per_sample ≤ lib.max_bits_per_sample)
    (hinit : lib.init si0.sample_rate = true)
    (hanalysis : List.Forall₂ (fun f t => lib.analyze_file f = Except.ok t) filenames titles)
    (hsplit : filenames.zip titles = before ++ failing :: after)
    (hbefore : ∀ p ∈ before,
      lib.store_to_file p.1 (lib.get_album filenames).1 (lib.get_album filenames).2 p.2.1 p.2.2
        pm = none)
    (hfail : lib.store_to_file failing.1 (lib.get_album filenames).1
      (lib.get_album filenames).2 failing.2.1 failing.2.2 pm = some err) :
    (do_shorthand_operation__add_replay_gain lib assert_active filenames pm).result =
        Except.ok false ∧
      (do_shorthand_operation__add_replay_gain lib assert_active filenames pm).events =
        filenames.map ReplayGainEvent.get_streaminfo ++
          [ReplayGainEvent.init si0.sample_rate] ++
          filenames.map ReplayGainEvent.analyze_file ++
          [ReplayGainEvent.get_album] ++
          (before ++ [failing]).map (store_call (lib.get_album filenames) pm) := by
  cases filenames with
  | nil => exact absurd rfl hne
  | cons f0 rest =>
      rw [run_of_validated lib assert_active (f0 :: rest) pm _ _ hne
        (validate_of_agree_first lib si0 hvalid hch f0 rest hall) hbps hinit]
      rw [analyze_some_of_all lib (f0 :: rest) titles hanalysis]
      simp only [List.nil_append]
      rw [hsplit, store_until_failure lib (lib.get_album (f0 :: rest)) pm failing after err hfail
        before _ hbefore]
      exact ⟨rfl, rfl⟩

/-- Witness of the amended C18: of three files the store fails on the second;
the first is stored, the third is not attempted. -/
theorem replay_gain_store_failure_witness :
    (do_shorthand_operation__add_replay_gain
        (sample_replay_gain (fun _ => some cd_streaminfo) (fun _ => false)
          (fun f => f == "bb.flac"))
        true ["a.flac", "bb.flac", "ccc.flac"] false).result = Except.ok false ∧
    (do_shorthand_operation__add_replay_gain
        (sample_replay_gain (fun _ => some cd_streaminfo) (fun _ => false)
          (fun f => f == "bb.flac"))
        true ["a.flac", "bb.flac", "ccc.flac"] false).events =
      [ ReplayGainEvent.get_streaminfo "a.flac", ReplayGainEvent.get_streaminfo "bb.flac",
        ReplayGainEvent.get_streaminfo "ccc.flac",
        ReplayGainEvent.init 44100,
        ReplayGainEvent.analyze_file "a.flac", ReplayGainEvent.analyze_file "bb.flac",
        ReplayGainEvent.analyze_file "ccc.flac",
        ReplayGainEvent.get_album,
        ReplayGainEvent.store_to_file "a.flac" 3 99 6 12 false,
        ReplayGainEvent.store_to_file "bb.flac" 3 99 7 14 false ] :=
  (replay_gain_store_failure
    (sample_replay_gain (fun _ => some cd_streaminfo) (fun _ => false)
      (fun f => f == "bb.flac"))
    true ["a.flac", "bb.flac", "ccc.flac"] false cd_streaminfo [(6, 12), (7, 14), (8, 16)]
    [("a.flac", (6, 12))] [("ccc.flac", (8, 16))] ("bb.flac", (7, 14)) "store failed"
    (by decide) (fun _ _ => rfl) rfl (Or.inr rfl) (fun _ => by decide) rfl
    (List.Forall₂.cons rfl (List.Forall₂.cons rfl (List.Forall₂.cons rfl List.Forall₂.nil)))
    rfl (by decide) rfl).imp id (fun h => h.trans (by decide))

/-! ### The aggregator within a batch -/

/-- The replay gain loop of `do_shorthand_operations`, when a run of the
aggregator returns `r`: it runs the aggregator once for every add-replay-gain
operation and leaves in `ok` the value of the last run. -/
theorem replay_gain_loop_eq (rg : ReplayGainLibrary) (assert_active : Bool)
    (options : CommandLineOptions) (r : Bool)
    (hrun : (do_shorthand_operation__add_replay_gain rg assert_active options.filenames
      options.preserve_modtime).result = Except.ok r) :
    ∀ (operations : List Operation) (s : ShorthandBatchOutcome),
      do_shorthand_operations_replay_gain rg assert_active options operations s =
        Except.ok
          { ok := if operations.countP
                (fun o => decide (o.type = OperationType.ADD_REPLAY_GAIN)) = 0 then s.ok else r
            log := s.log ++ List.replicate
              (operations.countP (fun o => decide (o.type = OperationType.ADD_REPLAY_GAIN)))
              (ShorthandBatchEvent.add_replay_gain
                (do_shorthand_operation__add_replay_gain rg assert_active options.filenames
                  options.preserve_modtime)) } := by
  intro operations
  induction operations with
  | nil => intro s; simp [do_shorthand_operations_replay_gain]
  | cons operation rest ih =>
      intro s
      rw [do_shorthand_operations_replay_gain]
      by_cases ht : operation.type = OperationType.ADD_REPLAY_GAIN
      · have hc : (operation :: rest).countP
            (fun o => decide (o.type = OperationType.ADD_REPLAY_GAIN)) =
            rest.countP (fun o => decide (o.type = OperationType.ADD_REPLAY_GAIN)) + 1 :=
          List.countP_cons_of_pos _ _ (by simpa using ht)
        rw [hc]
        simp only [ht, if_true, hrun, ih, Nat.add_one_ne_zero, if_false, List.replicate_succ,
          List.append_assoc, List.singleton_append, ite_self]
      · simp only [ht, if_false, ih]
        rw [List.countP_cons_of_neg]
        simpa using ht

/-- Counterexample to C19 as stated: with replay gain requested twice, on a
batch of one file whose pass succeeds, the aggregator runs twice; and on an
empty batch, with replay gain requested, it does not run at all. -/
theorem replay_gain_requested_twice_runs_twice :
    (∃ out, do_shorthand_operations sample_handlers
        (sample_library [sample_block MetadataType.STREAMINFO 34 true id_zero])
        (sample_replay_gain (fun _ => some cd_streaminfo) (fun _ => false) (fun _ => false))
        true
        { sample_options [] false false false
            [ sample_operation OperationType.ADD_REPLAY_GAIN,
              sample_operation OperationType.ADD_REPLAY_GAIN ] with
          filenames := ["a.flac"] } = Except.ok out ∧
      out.ok = true ∧
      (out.log.filter ShorthandBatchEvent.is_replay_gain).length = 2) ∧
    (∃ out, do_shorthand_operations sample_handlers
        (sample_library [sample_block MetadataType.STREAMINFO 34 true id_zero])
        (sample_replay_gain (fun _ => some cd_streaminfo) (fun _ => false) (fun _ => false))
        true
        { sample_options [] false false false
            [sample_operation OperationType.ADD_REPLAY_GAIN] with
          filenames := [] } = Except.ok out ∧
      out.ok = true ∧
      (out.log.filter ShorthandBatchEvent.is_replay_gain).length = 0) :=
  ⟨⟨_, rfl, rfl, rfl⟩, ⟨_, rfl, rfl, rfl⟩⟩

/-- C19, amended. For every non-empty batch whose per-file passes all return
true, and whenever a run of the aggregator returns: `do_shorthand_operations`
first makes the pass over every file, in batch order, and only then runs the
aggregator, once for each add-replay-gain operation of the list (exactly once
when replay gain is requested once); its result is the value of the last run
(true when replay gain is not requested). -/
theorem replay_gain_runs_after_file_passes (lib : ShorthandLibrary) (mlib : MetadataLibrary)
    (rg : ReplayGainLibrary) (assert_active : Bool) (options : CommandLineOptions)
    (outs : List ShorthandFileOutcome) (r : Bool)
    (hne : options.filenames ≠ [])
    (hfiles : List.Forall₂
      (fun filename out =>
        do_shorthand_operations_on_file lib mlib assert_active filename options = Except.ok out)
      options.filenames outs)
    (hok : ∀ out ∈ outs, out.ok = true)
    (hrun : (do_shorthand_operation__add_replay_gain rg assert_active options.filenames
      options.preserve_modtime).result = Except.ok r) :
    do_shorthand_operations lib mlib rg assert_active options =
      Except.ok
        { ok := if options.operations.countP
              (fun o => decide (o.type = OperationType.ADD_REPLAY_GAIN)) = 0 then true else r
          log := List.zipWith ShorthandBatchEvent.file_pass options.filenames outs ++
            List.replicate
              (options.operations.countP
                (fun o => decide (o.type = OperationType.ADD_REPLAY_GAIN)))
              (ShorthandBatchEvent.add_replay_gain
                (do_shorthand_operation__add_replay_gain rg assert_active options.filenames
                  options.preserve_modtime)) } := by
  unfold do_shorthand_operations
  rw [do_shorthand_operations_files_eq lib mlib assert_active options _ outs hfiles]
  have hall : outs.all (fun out => out.ok) = true := by simpa using hok
  have hpos : decide (0 < options.filenames.length) = true := by
    simpa using List.length_pos.mpr hne
  simp only [Bool.true_and, hall, hpos, Bool.and_self, if_true, List.nil_append]
  rw [replay_gain_loop_eq rg assert_active options r hrun]

/-- Witness of the amended C19: two files, replay gain requested once after a
set-tag operation: two file passes, then one run of the aggregator. -/
theorem replay_gain_runs_after_file_passes_witness :
    ∃ out, do_shorthand_operations sample_handlers
        (sample_library [sample_block MetadataType.STREAMINFO 34 true id_zero])
        (sample_replay_gain (fun _ => some cd_streaminfo) (fun _ => false) (fun _ => false))
        true
        { sample_options [] false false false
            [ sample_operation OperationType.ADD_REPLAY_GAIN,
              sample_operation OperationType.SET_VC_FIELD ] with
          filenames := ["a.flac", "b.flac"] } = Except.ok out ∧
      out.ok = true ∧
      out.log.map ShorthandBatchEvent.is_replay_gain = [false, false, true] :=
  ⟨_,
   replay_gain_runs_after_file_passes sample_handlers
     (sample_library [sample_block MetadataType.STREAMINFO 34 true id_zero])
     (sample_replay_gain (fun _ => some cd_streaminfo) (fun _ => false) (fun _ => false))
     true
     { sample_options [] false false false
         [ sample_operation OperationType.ADD_REPLAY_GAIN,
           sample_operation OperationType.SET_VC_FIELD ] with
       filenames := ["a.flac", "b.flac"] }
     [ { ok := true, needs_write := true, use_padding := false
         chain := some [sample_block MetadataType.STREAMINFO 34 true id_zero]
         dispatched := [ sample_operation OperationType.ADD_REPLAY_GAIN,
                         sample_operation OperationType.SET_VC_FIELD ]
         events := [ChainEvent.write [sample_block MetadataType.STREAMINFO 34 true id_zero]
           false false] },
       { ok := true, needs_write := true, use_padding := false
         chain := some [sample_block MetadataType.STREAMINFO 34 true id_zero]
         dispatched := [ sample_operation OperationType.ADD_REPLAY_GAIN,
                         sample_operation OperationType.SET_VC_FIELD ]
         events := [ChainEvent.write [sample_block MetadataType.STREAMINFO 34 true id_zero]
           false false] } ]
     true (by decide)
     (List.Forall₂.cons rfl (List.Forall₂.cons rfl List.Forall₂.nil))
     (by decide) rfl,
   rfl, rfl⟩

/-! ### The single `is_last` invariant -/

theorem no_early_of_single (l : Chain) (h : single_is_last l = true) :
    no_early_is_last l = true := by
  induction l with
  | nil => rfl
  | cons a l ih =>
      cases l with
      | nil => rfl
      | cons c rest =>
          simp only [single_is_last, Bool.and_eq_true] at h
          simp only [no_early_is_last, Bool.and_eq_true]
          exact ⟨h.1, ih h.2⟩

theorem single_of_no_early (l : Chain) (h : no_early_is_last l = true) (hne : l ≠ []) :
    single_is_last (set_tail_is_last l) = true := by
  induction l with
  | nil => exact absurd rfl hne
  | cons a l ih =>
      cases l with
      | nil => rfl
      | cons c rest =>
          simp only [no_early_is_last, Bool.and_eq_true] at h
          have e : set_tail_is_last (a :: c :: rest) = a :: set_tail_is_last (c :: rest) := rfl
          rw [e]
          have hih := ih h.2 (by simp)
          cases hs : set_tail_is_last (c :: rest) with
          | nil => exact absurd hs (set_tail_is_last_ne_nil _ (by simp))
          | cons d rest2 =>
              rw [hs] at hih
              simp only [single_is_last, Bool.and_eq_true]
              exact ⟨h.1, hih⟩

theorem no_early_tail (a : StreamMetadata) (l : Chain) (h : no_early_is_last (a :: l) = true) :
    no_early_is_last l = true := by
  cases l with
  | nil => rfl
  | cons c rest =>
      simp only [no_early_is_last, Bool.and_eq_true] at h
      exact h.2

theorem no_early_cons (a : StreamMetadata) (l : Chain) (ha : a.is_last = false)
    (h : no_early_is_last l = true) : no_early_is_last (a :: l) = true := by
  cases l with
  | nil => rfl
  | cons c rest => simp [no_early_is_last, ha, h]

theorem no_early_sublist {l1 l2 : Chain} (hsub : l1.Sublist l2)
    (h : no_early_is_last l2 = true) : no_early_is_last l1 = true := by
  induction hsub with
  | slnil => rfl
  | cons a _ ih => exact ih (no_early_tail a _ h)
  | cons₂ a hsub2 ih =>
      rename_i k1 k2
      cases k2 with
      | nil =>
          have : k1 = [] := List.eq_nil_of_sublist_nil hsub2
          subst this
          rfl
      | cons c rest =>
          simp only [no_early_is_last, Bool.and_eq_true, Bool.not_eq_true'] at h
          exact no_early_cons a k1 h.1 (ih h.2)

theorem no_early_append (l1 l2 : Chain) (h1 : ∀ a ∈ l1, a.is_last = false)
    (h2 : no_early_is_last l2 = true) : no_early_is_last (l1 ++ l2) = true := by
  induction l1 with
  | nil => exact h2
  | cons a l ih =>
      exact no_early_cons a (l ++ l2) (h1 a (List.mem_cons_self _ _))
        (ih (fun b hb => h1 b (List.mem_cons_of_mem _ hb)))

theorem no_early_take (l : Chain) (h : no_early_is_last l = true) (i : Nat)
    (hi : i < l.length) : ∀ a ∈ l.take i, a.is_last = false := by
  induction l generalizing i with
  | nil => simp at hi
  | cons b l ih =>
      cases i with
      | zero => simp
      | succ i =>
          cases l with
          | nil => simp at hi
          | cons c rest =>
              simp only [no_early_is_last, Bool.and_eq_true, Bool.not_eq_true'] at h
              intro a ha
              simp only [List.take_succ_cons, List.mem_cons] at ha
              rcases ha with rfl | ha
              · exact h.1
              · exact ih h.2 i (by simpa using hi) a ha

theorem single_congr_flags :
    ∀ (l1 l2 : Chain), l1.map (fun b => b.is_last) = l2.map (fun b => b.is_last) →
      single_is_last l1 = single_is_last l2 := by
  intro l1
  induction l1 with
  | nil => intro l2 h; cases l2 with
    | nil => rfl
    | cons _ _ => simp at h
  | cons a t ih =>
      intro l2 h
      cases l2 with
      | nil => simp at h
      | cons a2 t2 =>
          simp only [List.map_cons, List.cons.injEq] at h
          cases t with
          | nil =>
              cases t2 with
              | nil => simpa [single_is_last] using h.1
              | cons _ _ => simp at h
          | cons c r =>
              cases t2 with
              | nil => simp at h
              | cons c2 r2 =>
                  simp only [single_is_last]
                  rw [h.1, ih (c2 :: r2) h.2]

theorem map_is_last_set_padding :
    ∀ (l : Chain) (i : Nat) (b : StreamMetadata), l[i]? = some b →
      (l.set i (replacement_padding b)).map (fun x => x.is_last) =
        l.map (fun x => x.is_last) := by
  intro l
  induction l with
  | nil => intro i b h; simp at h
  | cons a l ih =>
      intro i b h
      cases i with
      | zero =>
          simp only [List.getElem?_cons_zero, Option.some.injEq] at h
          subst h
          simp [replacement_padding]
      | succ i =>
          simp only [List.getElem?_cons_succ] at h
          simp only [List.set_cons_succ, List.map_cons, List.cons.injEq, true_and]
          exact ih i b h

/-- Deleting through the iterator, with or without padding, keeps the
invariant. -/
theorem delete_block_single (it : Iterator) (use_padding : Bool)
    (h : single_is_last it.chain = true) :
    single_is_last (FLAC__metadata_iterator_delete_block it use_padding).2.chain = true := by
  unfold FLAC__metadata_iterator_delete_block
  split
  · exact h
  · exact h
  · rename_i k block hcur hget
    cases use_padding with
    | true =>
        simp only [if_true]
        rw [single_congr_flags _ it.chain, h]
        have := map_is_last_set_padding it.chain it.current block hget
        rw [hcur] at this
        exact this
    | false =>
        simp only [Bool.false_eq_true, if_false]
        apply single_of_no_early
        · exact no_early_sublist (List.eraseIdx_sublist _ _) (no_early_of_single _ h)
        · intro hnil
          have hlen : (it.chain.eraseIdx (k + 1)).length = 0 := by rw [hnil]; rfl
          have hlt : it.current < it.chain.length := by
            by_contra hge
            rw [List.getElem?_eq_none (by omega)] at hget
            exact absurd hget (by simp)
          rw [List.length_eraseIdx] at hlen
          split at hlen <;> omega

/-- Inserting through the iterator, accepted or refused, keeps the invariant. -/
theorem insert_block_after_single (accepted : Bool) (it : Iterator) (block : StreamMetadata)
    (h : single_is_last it.chain = true) :
    single_is_last (FLAC__metadata_iterator_insert_block_after accepted it block).2.chain =
      true := by
  unfold FLAC__metadata_iterator_insert_block_after
  cases hget : it.chain[it.current]? with
  | none => exact h
  | some current =>
      cases accepted with
      | false => exact h
      | true =>
          simp only [if_true]
          have hlt : it.current < it.chain.length := by
            by_contra hge
            rw [List.getElem?_eq_none (by omega)] at hget
            exact absurd hget (by simp)
          have hno := no_early_of_single _ h
          apply single_of_no_early
          · apply no_early_append
            · exact no_early_take _ hno _ hlt
            · apply no_early_cons _ _ rfl
              apply no_early_cons _ _ rfl
              exact no_early_sublist (List.drop_sublist _ _) hno
          · simp

/-- The loop of Remove keeps the invariant, whatever the filter does. -/
theorem remove_loop_single (assert_active : Bool) (options : CommandLineOptions) :
    ∀ (fuel : Nat) (s r : RemoveLocals),
      remove_loop assert_active options fuel s = Except.ok r →
      single_is_last s.iterator.chain = true → single_is_last r.iterator.chain = true := by
  intro fuel
  induction fuel with
  | zero => intro s r h; simp [remove_loop] at h
  | succ fuel ih =>
      intro s r h hinv
      rw [remove_loop] at h
      cases hok : s.ok with
      | false =>
          simp only [hok, Bool.not_false, if_true, Except.ok.injEq] at h
          subst h; exact hinv
      | true =>
          simp only [hok, Bool.not_true, Bool.false_eq_true, if_false] at h
          have hc := next_chain s.iterator
          cases hn : FLAC__metadata_iterator_next s.iterator with
          | mk flag it =>
              rw [hn] at hc
              simp only at hc
              simp only [hn] at h
              cases flag with
              | false =>
                  simp only [Except.ok.injEq] at h
                  subst h
                  simp only
                  rw [hc]; exact hinv
              | true =>
                  simp only at h
                  cases hg : FLAC__metadata_iterator_get_block it with
                  | none => simp [hg] at h
                  | some block =>
                      simp only [hg] at h
                      cases hp : passes_filter assert_active options block
                          (s.block_number + 1) with
                      | error e => simp [hp] at h
                      | ok selected =>
                          simp only [hp] at h
                          have hit : single_is_last it.chain = true := by rw [hc]; exact hinv
                          have hdel := delete_block_single it options.use_padding hit
                          cases selected with
                          | false =>
                              simp only [Bool.false_eq_true, if_false] at h
                              exact ih _ r h hit
                          | true =>
                              simp only [if_true] at h
                              cases hup : options.use_padding with
                              | false =>
                                  simp only [hup, Bool.false_eq_true, if_false] at h
                                  rw [hup] at hdel
                                  exact ih _ r h hdel
                              | true =>
                                  simp only [hup, if_true] at h
                                  rw [hup] at hdel
                                  refine ih _ r h ?_
                                  simp only
                                  rw [next_chain]
                                  exact hdel

/-- The loop of RemoveAll keeps the invariant. -/
theorem remove_all_loop_single (options : CommandLineOptions) :
    ∀ (fuel : Nat) (s r : RemoveAllLocals),
      remove_all_loop options fuel s = Except.ok r →
      single_is_last s.iterator.chain = true → single_is_last r.iterator.chain = true := by
  intro fuel
  induction fuel with
  | zero => intro s r h; simp [remove_all_loop] at h
  | succ fuel ih =>
      intro s r h hinv
      rw [remove_all_loop] at h
      cases hok : s.ok with
      | false =>
          simp only [hok, Bool.not_false, if_true, Except.ok.injEq] at h
          subst h; exact hinv
      | true =>
          simp only [hok, Bool.not_true, Bool.false_eq_true, if_false] at h
          have hc := next_chain s.iterator
          cases hn : FLAC__metadata_iterator_next s.iterator with
          | mk flag it =>
              rw [hn] at hc
              simp only at hc
              simp only [hn] at h
              cases flag with
              | false =>
                  simp only [Except.ok.injEq] at h
                  subst h
                  simp only
                  rw [hc]; exact hinv
              | true =>
                  simp only at h
                  have hit : single_is_last it.chain = true := by rw [hc]; exact hinv
                  have hdel := delete_block_single it options.use_padding hit
                  cases hup : options.use_padding with
                  | false =>
                      simp only [hup, Bool.false_eq_true, if_false] at h
                      rw [hup] at hdel
                      exact ih _ r h hdel
                  | true =>
                      simp only [hup, if_true] at h
                      rw [hup] at hdel
                      refine ih _ r h ?_
                      simp only
                      rw [next_chain]
                      exact hdel

/-- The loop of RemoveAll with padding, started with the cursor on the last
block of `x :: q` and the blocks `todo` still ahead, returns. -/
theorem remove_all_loop_padding_returns (options : CommandLineOptions)
    (hup : options.use_padding = true) :
    ∀ (fuel : Nat) (todo : List StreamMetadata) (x : StreamMetadata) (q : List StreamMetadata)
      (chain : Chain) (cur : Nat),
      chain = x :: (q ++ todo) → cur = q.length → todo.length < fuel →
      ∃ r, remove_all_loop options fuel
        { iterator := { chain := chain, current := cur }, ok := true } = Except.ok r := by
  intro fuel
  induction fuel with
  | zero => intro todo x q chain cur _ _ h; exact absurd h (Nat.not_lt_zero _)
  | succ fuel ih =>
      intro todo x q chain cur hchain hcur hfuel
      subst hchain hcur
      cases todo with
      | nil =>
          exact ⟨_, by simp only [remove_all_loop, List.append_nil, next_at_end]; rfl⟩
      | cons b t =>
          simp only [remove_all_loop, next_at_inner, Bool.not_true, Bool.false_eq_true, if_false,
            hup, if_true, delete_block_padding, Bool.and_true]
          exact ih t x (q ++ [replacement_padding b]) _ _ (by simp) (by simp)
            (by simpa using hfuel)

/-- The loop `while(next);` of the padding addition returns the iterator on the
same chain. -/
theorem add_padding_advance_returns :
    ∀ (fuel : Nat) (it : Iterator), it.chain.length - it.current < fuel →
      ∃ it2, add_padding_advance fuel it = Except.ok it2 ∧ it2.chain = it.chain := by
  intro fuel
  induction fuel with
  | zero => intro it h; exact absurd h (Nat.not_lt_zero _)
  | succ fuel ih =>
      intro it hfuel
      rw [add_padding_advance]
      cases hn : FLAC__metadata_iterator_next it with
      | mk flag it1 =>
          cases flag with
          | false =>
              have hc := next_chain it
              rw [hn] at hc
              exact ⟨it1, rfl, hc⟩
          | true =>
              obtain ⟨hc, hcur, hlt⟩ := next_true_current _ _ hn
              obtain ⟨it2, h2, hc2⟩ := ih it1 (by rw [hc, hcur]; omega)
              exact ⟨it2, h2, hc2.trans hc⟩

/-- C20. For every chain in which exactly one block has `is_last` set and it is
the final block: every chain that Remove returns (with either `use_padding`
value and any filter configuration), that RemoveAll returns (with either
`use_padding` value) and that a shorthand padding addition returns (accepted or
refused) again has exactly one block with `is_last` set, and it is the final
block. RemoveAll and the padding addition always return; Remove returns
whenever `passes_filter` cannot fail its assertion. -/
theorem single_is_last_preserved (chain : Chain) (hinv : single_is_last chain = true) :
    (∀ (assert_active : Bool) (options : CommandLineOptions),
      (∀ r, do_major_operation__remove assert_active chain options = Except.ok r →
        single_is_last r.iterator.chain = true) ∧
      (¬ (assert_active = true ∧ options.checks.has_block_type = true ∧
          options.checks.has_except_block_type = true) →
        ∃ r, do_major_operation__remove assert_active chain options = Except.ok r)) ∧
    (∀ options : CommandLineOptions,
      ∃ r, do_major_operation__remove_all chain options = Except.ok r ∧
        single_is_last r.iterator.chain = true) ∧
    (∀ (lib : ShorthandLibrary) (filename : String) (length : Nat) (needs_write : Bool),
      ∃ r, do_shorthand_operation__add_padding lib filename chain length needs_write =
          Except.ok r ∧
        single_is_last r.chain = true) := by
  cases chain with
  | nil => simp [single_is_last] at hinv
  | cons first rest =>
      refine ⟨?_, ?_, ?_⟩
      · intro assert_active options
        constructor
        · intro r hr
          exact remove_loop_single assert_active options _ _ r hr hinv
        · intro hcfg
          cases hup : options.use_padding with
          | false =>
              obtain ⟨r, hr, -⟩ := remove_loop_collapse assert_active options hup hcfg
                ((first :: rest).length + 1) rest first [] 0 [] (first :: rest) 0 rfl rfl
                (by simp; omega)
              exact ⟨r, hr⟩
          | true =>
              obtain ⟨r, hr, -⟩ := remove_loop_padding assert_active options hup hcfg
                ((first :: rest).length + 1) rest first [] 0 [] (first :: rest) 0 rfl rfl
                (by simp; omega)
              exact ⟨r, hr⟩
      · intro options
        have hret : ∃ r, do_major_operation__remove_all (first :: rest) options =
            Except.ok r := by
          cases hup : options.use_padding with
          | false =>
              exact ⟨_, remove_all_loop_collapse options hup ((first :: rest).length + 1) rest
                first [] (first :: rest) 0 rfl rfl (by simp; omega)⟩
          | true =>
              exact remove_all_loop_padding_returns options hup ((first :: rest).length + 1)
                rest first [] (first :: rest) 0 rfl rfl (by simp; omega)
        obtain ⟨r, hr⟩ := hret
        exact ⟨r, hr, remove_all_loop_single options _ _ r hr hinv⟩
      · intro lib filename length needs_write
        obtain ⟨it2, h2, hc2⟩ := add_padding_advance_returns ((first :: rest).length + 1)
          (FLAC__metadata_iterator_init (first :: rest))
          (by simp [FLAC__metadata_iterator_init])
        have hit2 : single_is_last it2.chain = true := by
          rw [hc2]; exact hinv
        simp only [do_shorthand_operation__add_padding, h2]
        have hins := insert_block_after_single
          (lib.insert_accepted (first :: rest)
            { FLAC__metadata_object_new MetadataType.PADDING with length := length })
          it2 { FLAC__metadata_object_new MetadataType.PADDING with length := length } hit2
        cases hres : FLAC__metadata_iterator_insert_block_after
            (lib.insert_accepted (first :: rest)
              { FLAC__metadata_object_new MetadataType.PADDING with length := length })
            it2 { FLAC__metadata_object_new MetadataType.PADDING with length := length } with
        | mk flag it3 =>
            rw [hres] at hins
            cases flag <;> exact ⟨_, rfl, hins⟩

/-- Witness of C20: a well-formed chain of three blocks under Remove of its final
block, RemoveAll, and the addition of 8 bytes of padding. -/
theorem single_is_last_preserved_witness :
    single_is_last
        [ sample_block MetadataType.STREAMINFO 34 false id_zero,
          sample_block MetadataType.VORBIS_COMMENT 40 false id_zero,
          sample_block MetadataType.PADDING 50 true id_zero ] = true ∧
    (∃ r, do_major_operation__remove true
        [ sample_block MetadataType.STREAMINFO 34 false id_zero,
          sample_block MetadataType.VORBIS_COMMENT 40 false id_zero,
          sample_block MetadataType.PADDING 50 true id_zero ]
        (sample_options [Argument.BLOCK_TYPE [entry_any MetadataType.PADDING]] true false false
          []) = Except.ok r ∧
      single_is_last r.iterator.chain = true) ∧
    (∃ r, do_major_operation__remove_all
        [ sample_block MetadataType.STREAMINFO 34 false id_zero,
          sample_block MetadataType.VORBIS_COMMENT 40 false id_zero,
          sample_block MetadataType.PADDING 50 true id_zero ]
        (sample_options [] false false true []) = Except.ok r ∧
      single_is_last r.iterator.chain = true) ∧
    (∃ r, do_shorthand_operation__add_padding sample_handlers "a.flac"
        [ sample_block MetadataType.STREAMINFO 34 false id_zero,
          sample_block MetadataType.VORBIS_COMMENT 40 false id_zero,
          sample_block MetadataType.PADDING 50 true id_zero ] 8 false = Except.ok r ∧
      single_is_last r.chain = true) := by
  have h := single_is_last_preserved
    [ sample_block MetadataType.STREAMINFO 34 false id_zero,
      sample_block MetadataType.VORBIS_COMMENT 40 false id_zero,
      sample_block MetadataType.PADDING 50 true id_zero ] rfl
  refine ⟨rfl, ?_, h.2.1 _, h.2.2 _ _ _ _⟩
  obtain ⟨r, hr⟩ := (h.1 true
    (sample_options [Argument.BLOCK_TYPE [entry_any MetadataType.PADDING]] true false false
      [])).2 (by decide)
  exact ⟨r, hr, (h.1 _ _).1 r hr⟩

/-! ### Invariants of the Remove and RemoveAll loops in general -/

/-- A property of chains that deleting through the iterator keeps is kept by the
loop of Remove. -/
theorem remove_loop_invariant (P : Chain → Prop)
    (hdel : ∀ (it : Iterator) (use_padding : Bool), P it.chain →
      P (FLAC__metadata_iterator_delete_block it use_padding).2.chain)
    (assert_active : Bool) (options : CommandLineOptions) :
    ∀ (fuel : Nat) (s r : RemoveLocals),
      remove_loop assert_active options fuel s = Except.ok r →
      P s.iterator.chain → P r.iterator.chain := by
  intro fuel
  induction fuel with
  | zero => intro s r h; simp [remove_loop] at h
  | succ fuel ih =>
      intro s r h hinv
      rw [remove_loop] at h
      cases hok : s.ok with
      | false =>
          simp only [hok, Bool.not_false, if_true, Except.ok.injEq] at h
          subst h; exact hinv
      | true =>
          simp only [hok, Bool.not_true, Bool.false_eq_true, if_false] at h
          have hc := next_chain s.iterator
          cases hn : FLAC__metadata_iterator_next s.iterator with
          | mk flag it =>
              rw [hn] at hc
              simp only at hc
              simp only [hn] at h
              cases flag with
              | false =>
                  simp only [Except.ok.injEq] at h
                  subst h
                  simp only
                  rw [hc]; exact hinv
              | true =>
                  simp only at h
                  cases hg : FLAC__metadata_iterator_get_block it with
                  | none => simp [hg] at h
                  | some block =>
                      simp only [hg] at h
                      cases hp : passes_filter assert_active options block
                          (s.block_number + 1) with
                      | error e => simp [hp] at h
                      | ok selected =>
                          simp only [hp] at h
                          have hit : P it.chain := by rw [hc]; exact hinv
                          have hd := hdel it options.use_padding hit
                          cases selected with
                          | false =>
                              simp only [Bool.false_eq_true, if_false] at h
                              exact ih _ r h hit
                          | true =>
                              simp only [if_true] at h
                              cases hup : options.use_padding with
                              | false =>
                                  simp only [hup, Bool.false_eq_true, if_false] at h
                                  rw [hup] at hd
                                  exact ih _ r h hd
                              | true =>
                                  simp only [hup, if_true] at h
                                  rw [hup] at hd
                                  refine ih _ r h ?_
                                  simp only
                                  rw [next_chain]
                                  exact hd

/-- A property of chains that deleting through the iterator keeps is kept by the
loop of RemoveAll. -/
theorem remove_all_loop_invariant (P : Chain → Prop)
    (hdel : ∀ (it : Iterator) (use_padding : Bool), P it.chain →
      P (FLAC__metadata_iterator_delete_block it use_padding).2.chain)
    (options : CommandLineOptions) :
    ∀ (fuel : Nat) (s r : RemoveAllLocals),
      remove_all_loop options fuel s = Except.ok r →
      P s.iterator.chain → P r.iterator.chain := by
  intro fuel
  induction fuel with
  | zero => intro s r h; simp [remove_all_loop] at h
  | succ fuel ih =>
      intro s r h hinv
      rw [remove_all_loop] at h
      cases hok : s.ok with
      | false =>
          simp only [hok, Bool.not_false, if_true, Except.ok.injEq] at h
          subst h; exact hinv
      | true =>
          simp only [hok, Bool.not_true, Bool.false_eq_true, if_false] at h
          have hc := next_chain s.iterator
          cases hn : FLAC__metadata_iterator_next s.iterator with
          | mk flag it =>
              rw [hn] at hc
              simp only at hc
              simp only [hn] at h
              cases flag with
              | false =>
                  simp only [Except.ok.injEq] at h
                  subst h
                  simp only
                  rw [hc]; exact hinv
              | true =>
                  simp only at h
                  have hit : P it.chain := by rw [hc]; exact hinv
                  have hd := hdel it options.use_padding hit
                  cases hup : options.use_padding with
                  | false =>
                      simp only [hup, Bool.false_eq_true, if_false] at h
                      rw [hup] at hd
                      exact ih _ r h hd
                  | true =>
                      simp only [hup, if_true] at h
                      rw [hup] at hd
                      refine ih _ r h ?_
                      simp only
                      rw [next_chain]
                      exact hd

/-- Remove returns whenever `passes_filter` cannot fail its assertion. -/
theorem remove_returns (assert_active : Bool) (options : CommandLineOptions)
    (first : StreamMetadata) (rest : List StreamMetadata)
    (hcfg : ¬ (assert_active = true ∧ options.checks.has_block_type = true ∧
      options.checks.has_except_block_type = true)) :
    ∃ r, do_major_operation__remove assert_active (first :: rest) options = Except.ok r := by
  cases hup : options.use_padding with
  | false =>
      obtain ⟨r, hr, -⟩ := remove_loop_collapse assert_active options hup hcfg
        ((first :: rest).length + 1) rest first [] 0 [] (first :: rest) 0 rfl rfl
        (by simp; omega)
      exact ⟨r, hr⟩
  | true =>
      obtain ⟨r, hr, -⟩ := remove_loop_padding assert_active options hup hcfg
        ((first :: rest).length + 1) rest first [] 0 [] (first :: rest) 0 rfl rfl
        (by simp; omega)
      exact ⟨r, hr⟩

/-- RemoveAll returns. -/
theorem remove_all_returns (options : CommandLineOptions) (first : StreamMetadata)
    (rest : List StreamMetadata) :
    ∃ r, do_major_operation__remove_all (first :: rest) options = Except.ok r := by
  cases hup : options.use_padding with
  | false =>
      exact ⟨_, remove_all_loop_collapse options hup ((first :: rest).length + 1) rest
        first [] (first :: rest) 0 rfl rfl (by simp; omega)⟩
  | true =>
      exact remove_all_loop_padding_returns options hup ((first :: rest).length + 1)
        rest first [] (first :: rest) 0 rfl rfl (by simp; omega)

/-! ### At most one stream info block -/

theorem streaminfo_count_set_tail (l : Chain) :
    streaminfo_count (set_tail_is_last l) = streaminfo_count l := by
  induction l with
  | nil => rfl
  | cons a l ih =>
      cases l with
      | nil => simp [set_tail_is_last, streaminfo_count, List.countP_cons]
      | cons c rest =>
          have e : set_tail_is_last (a :: c :: rest) = a :: set_tail_is_last (c :: rest) := rfl
          rw [e]
          unfold streaminfo_count at ih ⊢
          rw [List.countP_cons, ih]
          simp only [List.countP_cons]

theorem streaminfo_count_set_padding :
    ∀ (l : Chain) (i : Nat) (b : StreamMetadata), l[i]? = some b →
      streaminfo_count (l.set i (replacement_padding b)) ≤ streaminfo_count l := by
  intro l
  induction l with
  | nil => intro i b h; simp at h
  | cons a l ih =>
      intro i b h
      cases i with
      | zero =>
          simp only [List.set_cons_zero]
          unfold streaminfo_count
          simp only [List.countP_cons]
          simp [replacement_padding]
      | succ i =>
          simp only [List.getElem?_cons_succ] at h
          have := ih i b h
          unfold streaminfo_count at this ⊢
          simp only [List.set_cons_succ, List.countP_cons]
          omega

/-- Deleting through the iterator does not add a stream info block. -/
theorem delete_block_streaminfo_count (n : Nat) (it : Iterator) (use_padding : Bool)
    (h : streaminfo_count it.chain ≤ n) :
    streaminfo_count (FLAC__metadata_iterator_delete_block it use_padding).2.chain ≤ n := by
  unfold FLAC__metadata_iterator_delete_block
  split
  · exact h
  · exact h
  · rename_i k block hcur hget
    cases use_padding with
    | true =>
        simp only [if_true]
        have := streaminfo_count_set_padding it.chain it.current block hget
        rw [hcur] at this
        exact Nat.le_trans this h
    | false =>
        simp only [Bool.false_eq_true, if_false]
        rw [streaminfo_count_set_tail]
        exact Nat.le_trans (List.Sublist.countP_le _ (List.eraseIdx_sublist _ _)) h

/-! ### The padding addition, exactly -/

/-- The loop `while(next);` leaves the cursor on the final block. -/
theorem add_padding_advance_last :
    ∀ (fuel : Nat) (chain : Chain) (cur : Nat), cur < chain.length →
      chain.length - cur ≤ fuel →
      add_padding_advance fuel { chain := chain, current := cur } =
        Except.ok { chain := chain, current := chain.length - 1 } := by
  intro fuel
  induction fuel with
  | zero => intro chain cur h1 h2; omega
  | succ fuel ih =>
      intro chain cur hlt hfuel
      rw [add_padding_advance]
      by_cases hnext : cur + 1 < chain.length
      · have hn : FLAC__metadata_iterator_next { chain := chain, current := cur } =
            (true, { chain := chain, current := cur + 1 }) := by
          simp [FLAC__metadata_iterator_next, hnext]
        rw [hn]
        exact ih chain (cur + 1) hnext (by omega)
      · have hn : FLAC__metadata_iterator_next { chain := chain, current := cur } =
            (false, { chain := chain, current := cur }) := by
          simp [FLAC__metadata_iterator_next, hnext]
        rw [hn]
        have : cur = chain.length - 1 := by omega
        rw [this]

/-- The insertion after the final block of a chain. -/
theorem insert_block_after_last (accepted : Bool) (front : List StreamMetadata)
    (last block : StreamMetadata) :
    FLAC__metadata_iterator_insert_block_after accepted
        { chain := front ++ [last], current := (front ++ [last]).length - 1 } block =
      if accepted = true then
        (true,
          { chain := front ++ [{ last with is_last := false }, { block with is_last := true }]
            current := (front ++ [last]).length - 1 + 1 })
      else (false, { chain := front ++ [last], current := (front ++ [last]).length - 1 }) := by
  have hlen : (front ++ [last]).length - 1 = front.length := by simp
  have hget : (front ++ [last])[front.length]? = some last := by simp
  unfold FLAC__metadata_iterator_insert_block_after
  simp only [hlen, hget]
  cases accepted with
  | false => rfl
  | true =>
      simp only [if_true, Prod.mk.injEq, true_and, Iterator.mk.injEq, and_true]
      have h1 : (front ++ [last]).take front.length = front := by simp
      have h2 : (front ++ [last]).drop (front.length + 1) = [] := by simp
      rw [h1, h2]
      have h3 : front ++ [{ last with is_last := false }, { block with is_last := false }] =
          (front ++ [{ last with is_last := false }]) ++ [{ block with is_last := false }] := by
        simp
      rw [h3, set_tail_is_last_concat]
      simp

/-- The padding addition on a non-empty chain: an accepted insertion leaves the
chain followed by a new final Padding block of the given length (the former
final block loses `is_last`, the new block gets it) and sets `needs_write`; a
refused one returns false and changes nothing. -/
theorem add_padding_eq (lib : ShorthandLibrary) (filename : String)
    (front : List StreamMetadata) (last : StreamMetadata) (length : Nat) (needs_write : Bool) :
    do_shorthand_operation__add_padding lib filename (front ++ [last]) length needs_write =
      Except.ok
        (if lib.insert_accepted (front ++ [last])
            { FLAC__metadata_object_new MetadataType.PADDING with length := length } = true then
          { ok := true
            chain := front ++
              [ { last with is_last := false },
                { FLAC__metadata_object_new MetadataType.PADDING with
                  length := length, is_last := true } ]
            needs_write := true }
        else { ok := false, chain := front ++ [last], needs_write := needs_write }) := by
  unfold do_shorthand_operation__add_padding FLAC__metadata_iterator_init
  rw [add_padding_advance_last _ (front ++ [last]) 0 (by simp) (by simp)]
  simp only [insert_block_after_last]
  cases lib.insert_accepted (front ++ [last])
      { FLAC__metadata_object_new MetadataType.PADDING with length := length } <;> rfl

/-- The padding addition on an empty chain fails and changes nothing. -/
theorem add_padding_nil (lib : ShorthandLibrary) (filename : String) (length : Nat)
    (needs_write : Bool) :
    do_shorthand_operation__add_padding lib filename [] length needs_write =
      Except.ok { ok := false, chain := [], needs_write := needs_write } := by
  rfl

/-- C21. For every chain containing at most one stream info block: every chain
that Remove returns (either `use_padding` value, any filter configuration), that
RemoveAll returns (either `use_padding` value) and that a shorthand padding
addition returns (accepted or refused) contains at most one stream info block.
RemoveAll and the padding addition always return; Remove returns whenever
`passes_filter` cannot fail its assertion. -/
theorem streaminfo_uniqueness_preserved (chain : Chain) (hinv : streaminfo_count chain ≤ 1) :
    (∀ (assert_active : Bool) (options : CommandLineOptions),
      (∀ r, do_major_operation__remove assert_active chain options = Except.ok r →
        streaminfo_count r.iterator.chain ≤ 1) ∧
      (¬ (assert_active = true ∧ options.checks.has_block_type = true ∧
          options.checks.has_except_block_type = true) →
        ∃ r, do_major_operation__remove assert_active chain options = Except.ok r)) ∧
    (∀ options : CommandLineOptions,
      ∃ r, do_major_operation__remove_all chain options = Except.ok r ∧
        streaminfo_count r.iterator.chain ≤ 1) ∧
    (∀ (lib : ShorthandLibrary) (filename : String) (length : Nat) (needs_write : Bool),
      ∃ r, do_shorthand_operation__add_padding lib filename chain length needs_write =
          Except.ok r ∧
        streaminfo_count r.chain ≤ 1) := by
  refine ⟨?_, ?_, ?_⟩
  · intro assert_active options
    constructor
    · intro r hr
      exact remove_loop_invariant (fun c => streaminfo_count c ≤ 1)
        (delete_block_streaminfo_count 1) assert_active options _ _ r hr hinv
    · intro hcfg
      cases chain with
      | nil => exact ⟨_, rfl⟩
      | cons first rest => exact remove_returns assert_active options first rest hcfg
  · intro options
    have hret : ∃ r, do_major_operation__remove_all chain options = Except.ok r := by
      cases chain with
      | nil => exact ⟨_, rfl⟩
      | cons first rest => exact remove_all_returns options first rest
    obtain ⟨r, hr⟩ := hret
    exact ⟨r, hr, remove_all_loop_invariant (fun c => streaminfo_count c ≤ 1)
      (delete_block_streaminfo_count 1) options _ _ r hr hinv⟩
  · intro lib filename length needs_write
    rcases List.eq_nil_or_concat chain with rfl | ⟨front, last, rfl⟩
    · exact ⟨_, add_padding_nil lib filename length needs_write, hinv⟩
    · rw [List.concat_eq_append] at hinv ⊢
      refine ⟨_, add_padding_eq lib filename front last length needs_write, ?_⟩
      split
      · have hc : streaminfo_count
            (front ++
              [ { last with is_last := false },
                { FLAC__metadata_object_new MetadataType.PADDING with
                  length := length, is_last := true } ]) =
            streaminfo_count (front ++ [last]) := by
          simp [streaminfo_count, List.countP_append, List.countP_cons,
            FLAC__metadata_object_new]
        simp only
        rw [hc]
        exact hinv
      · exact hinv

/-- Witness of C21: a chain with one stream info block under Remove of the
stream info type with padding, RemoveAll, and the addition of 8 bytes of
padding. -/
theorem streaminfo_uniqueness_preserved_witness :
    streaminfo_count
        [ sample_block MetadataType.STREAMINFO 34 false id_zero,
          sample_block MetadataType.VORBIS_COMMENT 40 false id_zero,
          sample_block MetadataType.PADDING 50 true id_zero ] ≤ 1 ∧
    (∃ r, do_major_operation__remove true
        [ sample_block MetadataType.STREAMINFO 34 false id_zero,
          sample_block MetadataType.VORBIS_COMMENT 40 false id_zero,
          sample_block MetadataType.PADDING 50 true id_zero ]
        (sample_options [Argument.BLOCK_TYPE [entry_any MetadataType.STREAMINFO]] true false true
          []) = Except.ok r ∧
      streaminfo_count r.iterator.chain ≤ 1) ∧
    (∃ r, do_major_operation__remove_all
        [ sample_block MetadataType.STREAMINFO 34 false id_zero,
          sample_block MetadataType.VORBIS_COMMENT 40 false id_zero,
          sample_block MetadataType.PADDING 50 true id_zero ]
        (sample_options [] false false true []) = Except.ok r ∧
      streaminfo_count r.iterator.chain ≤ 1) ∧
    (∃ r, do_shorthand_operation__add_padding sample_handlers "a.flac"
        [ sample_block MetadataType.STREAMINFO 34 false id_zero,
          sample_block MetadataType.VORBIS_COMMENT 40 false id_zero,
          sample_block MetadataType.PADDING 50 true id_zero ] 8 false = Except.ok r ∧
      streaminfo_count r.chain ≤ 1) := by
  have h := streaminfo_uniqueness_preserved
    [ sample_block MetadataType.STREAMINFO 34 false id_zero,
      sample_block MetadataType.VORBIS_COMMENT 40 false id_zero,
      sample_block MetadataType.PADDING 50 true id_zero ] (by decide)
  refine ⟨by decide, ?_, h.2.1 _, h.2.2 _ _ _ _⟩
  obtain ⟨r, hr⟩ := (h.1 true
    (sample_options [Argument.BLOCK_TYPE [entry_any MetadataType.STREAMINFO]] true false true
      [])).2 (by decide)
  exact ⟨r, hr, (h.1 _ _).1 r hr⟩

/-! ### Remove keeps the first block -/

/-- Deleting through the iterator leaves the first block of the chain where it
is; at most its `is_last` flag is set, when it has become the only block. -/
theorem delete_block_keeps_head (first : StreamMetadata) (it : Iterator) (use_padding : Bool)
    (h : (∃ tail, it.chain = first :: tail) ∨ it.chain = [{ first with is_last := true }]) :
    (∃ tail, (FLAC__metadata_iterator_delete_block it use_padding).2.chain = first :: tail) ∨
      (FLAC__metadata_iterator_delete_block it use_padding).2.chain =
        [{ first with is_last := true }] := by
  unfold FLAC__metadata_iterator_delete_block
  split
  · exact h
  · exact h
  · rename_i k block hcur hget
    rcases h with ⟨tail, htail⟩ | hsingle
    · cases use_padding with
      | true =>
          simp only [if_true, htail, List.set_cons_succ]
          exact Or.inl ⟨_, rfl⟩
      | false =>
          simp only [Bool.false_eq_true, if_false, htail, List.eraseIdx_cons_succ]
          cases hrest : tail.eraseIdx k with
          | nil => exact Or.inr rfl
          | cons c rest => exact Or.inl ⟨set_tail_is_last (c :: rest), rfl⟩
    · rw [hsingle, hcur] at hget
      simp at hget

/-- C22. Remove never deletes the first block: for every non-empty chain and
every filter configuration (also one that selects position 0 or the type of the
first block), every chain that Remove returns begins with the first block of the
input; the block is unchanged, except that its `is_last` flag is set when all
other blocks have been deleted and it is the only block left. Remove returns
whenever `passes_filter` cannot fail its assertion. -/
theorem remove_keeps_first_block (assert_active : Bool) (options : CommandLineOptions)
    (first : StreamMetadata) (rest : List StreamMetadata) :
    (∀ r, do_major_operation__remove assert_active (first :: rest) options = Except.ok r →
      (∃ tail, r.iterator.chain = first :: tail) ∨
        r.iterator.chain = [{ first with is_last := true }]) ∧
    (¬ (assert_active = true ∧ options.checks.has_block_type = true ∧
        options.checks.has_except_block_type = true) →
      ∃ r, do_major_operation__remove assert_active (first :: rest) options = Except.ok r) := by
  constructor
  · intro r hr
    exact remove_loop_invariant
      (fun c => (∃ tail, c = first :: tail) ∨ c = [{ first with is_last := true }])
      (delete_block_keeps_head first) assert_active options _ _ r hr (Or.inl ⟨rest, rfl⟩)
  · exact remove_returns assert_active options first rest

/-- Witness of C22: a filter selecting position 0 and the stream info type,
without padding: the first block stays, the other blocks stay too. -/
theorem remove_keeps_first_block_witness :
    ∃ r, do_major_operation__remove true
        [ sample_block MetadataType.STREAMINFO 34 false id_zero,
          sample_block MetadataType.VORBIS_COMMENT 40 false id_zero,
          sample_block MetadataType.PADDING 50 true id_zero ]
        (sample_options
          [Argument.BLOCK_NUMBER [0], Argument.BLOCK_TYPE [entry_any MetadataType.STREAMINFO]]
          true false false []) = Except.ok r ∧
      r.iterator.chain =
        [ sample_block MetadataType.STREAMINFO 34 false id_zero,
          sample_block MetadataType.VORBIS_COMMENT 40 false id_zero,
          sample_block MetadataType.PADDING 50 true id_zero ] :=
  ((remove_keeps_first_block true
      (sample_options
        [Argument.BLOCK_NUMBER [0], Argument.BLOCK_TYPE [entry_any MetadataType.STREAMINFO]]
        true false false [])
      (sample_block MetadataType.STREAMINFO 34 false id_zero)
      [ sample_block MetadataType.VORBIS_COMMENT 40 false id_zero,
        sample_block MetadataType.PADDING 50 true id_zero ]).2 (by decide)).elim
    fun r hr => ⟨r, hr, by
      have e : do_major_operation__remove true
          [ sample_block MetadataType.STREAMINFO 34 false id_zero,
            sample_block MetadataType.VORBIS_COMMENT 40 false id_zero,
            sample_block MetadataType.PADDING 50 true id_zero ]
          (sample_options
            [Argument.BLOCK_NUMBER [0],
              Argument.BLOCK_TYPE [entry_any MetadataType.STREAMINFO]]
            true false false []) = Except.ok
          { iterator :=
              { chain :=
                  [ sample_block MetadataType.STREAMINFO 34 false id_zero,
                    sample_block MetadataType.VORBIS_COMMENT 40 false id_zero,
                    sample_block MetadataType.PADDING 50 true id_zero ]
                current := 2 }
            ok := true, block_number := 2
            tested :=
              [ (sample_block MetadataType.VORBIS_COMMENT 40 false id_zero, 1),
                (sample_block MetadataType.PADDING 50 true id_zero, 2) ] } := rfl
      rw [e] at hr
      rw [← Except.ok.inj hr]⟩

/-! ### List reports the selected blocks -/

theorem get_block_split (q t : List StreamMetadata) (b : StreamMetadata) :
    FLAC__metadata_iterator_get_block { chain := q ++ b :: t, current := q.length } = some b := by
  simp [FLAC__metadata_iterator_get_block, getElem_split]

theorem next_split_cons (q t : List StreamMetadata) (b c : StreamMetadata) :
    FLAC__metadata_iterator_next { chain := q ++ b :: c :: t, current := q.length } =
      (true, { chain := q ++ b :: c :: t, current := q.length + 1 }) := by
  simp [FLAC__metadata_iterator_next]

theorem next_split_last (q : List StreamMetadata) (b : StreamMetadata) :
    FLAC__metadata_iterator_next { chain := q ++ [b], current := q.length } =
      (false, { chain := q ++ [b], current := q.length }) := by
  simp [FLAC__metadata_iterator_next]

/-- The loop of List, started with the cursor on the block `b` that follows the
blocks `q`, with the blocks `t` still ahead and `b` numbered `p`: it ends with
`ok` true and has added a report for exactly the blocks of `b :: t` that
`passes_filter` selects under their numbers `p, p + 1, ...`, in order. -/
theorem list_loop_reports (assert_active : Bool) (options : CommandLineOptions)
    (hcfg : ¬ (assert_active = true ∧ options.checks.has_block_type = true ∧
      options.checks.has_except_block_type = true)) :
    ∀ (fuel : Nat) (t q : List StreamMetadata) (b : StreamMetadata) (p : Nat)
      (reports : List (Nat × StreamMetadata)) (chain : Chain) (cur : Nat),
      chain = q ++ b :: t → cur = q.length → t.length < fuel →
      ∃ r, list_loop assert_active options fuel
          { iterator := { chain := chain, current := cur }, ok := true, block_number := p
            reports := reports } = Except.ok r ∧
        r.ok = true ∧
        r.reports = reports ++
          (List.enumFrom p (b :: t)).filter
            (fun pb => selects assert_active options pb.2 pb.1) := by
  intro fuel
  induction fuel with
  | zero => intro t q b p reports chain cur _ _ h; exact absurd h (Nat.not_lt_zero _)
  | succ fuel ih =>
      intro t q b p reports chain cur hchain hcur hfuel
      subst hchain hcur
      rw [list_loop]
      simp only [get_block_split, Bool.not_true, Bool.false_eq_true, if_false,
        passes_filter_eq_selects assert_active options hcfg]
      cases t with
      | nil =>
          simp only [next_split_last]
          refine ⟨_, rfl, rfl, ?_⟩
          simp only [List.enumFrom_cons, List.enumFrom_nil, List.filter_cons, List.filter_nil]
          cases selects assert_active options b p <;> simp
      | cons c t2 =>
          simp only [next_split_cons]
          obtain ⟨r, hr, hok, hrep⟩ := ih t2 (q ++ [b]) c (p + 1)
            (if selects assert_active options b p = true then reports ++ [(p, b)] else reports)
            (q ++ b :: c :: t2) (q.length + 1) (by simp) (by simp) (by simpa using hfuel)
          refine ⟨r, hr, hok, ?_⟩
          rw [hrep]
          simp only [List.enumFrom_cons, List.filter_cons]
          cases selects assert_active options b p <;> simp

/-- C23. For every chain and every filter configuration on which `passes_filter`
cannot fail its assertion, List returns, and the reports it emits are, in chain
order, exactly the pairs (p, block at p) for which `passes_filter(block, p)` is
true, p being the zero-based position of the block in the chain. -/
theorem list_reports_selected (assert_active : Bool) (options : CommandLineOptions)
    (chain : Chain)
    (hcfg : ¬ (assert_active = true ∧ options.checks.has_block_type = true ∧
      options.checks.has_except_block_type = true)) :
    ∃ r, do_major_operation__list assert_active chain options = Except.ok r ∧
      r.reports = chain.enum.filter (fun pb => selects assert_active options pb.2 pb.1) ∧
      (r.ok = true ↔ chain ≠ []) := by
  cases chain with
  | nil => exact ⟨_, rfl, rfl, by simp⟩
  | cons b t =>
      obtain ⟨r, hr, hok, hrep⟩ := list_loop_reports assert_active options hcfg
        ((b :: t).length + 1) t [] b 0 [] (b :: t) 0 rfl rfl (by simp; omega)
      refine ⟨r, hr, ?_, by simp [hok]⟩
      rw [hrep]
      simp [List.enum]

/-- Witness of C23: listing a three-block chain except its comment block
reports blocks 0 and 2. -/
theorem list_reports_selected_witness :
    ∃ r, do_major_operation__list true
        [ sample_block MetadataType.STREAMINFO 34 false id_zero,
          sample_block MetadataType.VORBIS_COMMENT 40 false id_zero,
          sample_block MetadataType.PADDING 50 true id_zero ]
        (sample_options [Argument.EXCEPT_BLOCK_TYPE [entry_any MetadataType.VORBIS_COMMENT]]
          false true false []) = Except.ok r ∧
      r.reports =
        [ (0, sample_block MetadataType.STREAMINFO 34 false id_zero),
          (2, sample_block MetadataType.PADDING 50 true id_zero) ] :=
  (list_reports_selected true
      (sample_options [Argument.EXCEPT_BLOCK_TYPE [entry_any MetadataType.VORBIS_COMMENT]]
        false true false [])
      [ sample_block MetadataType.STREAMINFO 34 false id_zero,
        sample_block MetadataType.VORBIS_COMMENT 40 false id_zero,
        sample_block MetadataType.PADDING 50 true id_zero ] (by decide)).elim
    fun r h => ⟨r, h.1, h.2.1.trans (by decide)⟩

/-! ### The write after a major operation -/

theorem remove_returns_any (assert_active : Bool) (options : CommandLineOptions) (chain : Chain)
    (hcfg : ¬ (assert_active = true ∧ options.checks.has_block_type = true ∧
      options.checks.has_except_block_type = true)) :
    ∃ r, do_major_operation__remove assert_active chain options = Except.ok r := by
  cases chain with
  | nil => exact ⟨_, rfl⟩
  | cons first rest => exact remove_returns assert_active options first rest hcfg

theorem remove_all_returns_any (options : CommandLineOptions) (chain : Chain) :
    ∃ r, do_major_operation__remove_all chain options = Except.ok r := by
  cases chain with
  | nil => exact ⟨_, rfl⟩
  | cons first rest => exact remove_all_returns options first rest

theorem write_if_needed_events_after (lib : MetadataLibrary) (ok use_padding pm : Bool)
    (chain : Chain) (own : List ChainEvent) :
    (write_if_needed lib ok true use_padding pm chain own []).events =
      (if ok = true then
        own ++
          (if use_padding = true then
            [ChainEvent.sort_padding,
              ChainEvent.write (lib.chain_sort_padding chain) use_padding pm]
          else [ChainEvent.write chain use_padding pm])
      else own) := by
  unfold write_if_needed
  cases ok <;> cases use_padding <;> simp

/-- C24, where the claim fails: the SortPadding operation on a file processed
with use_padding off. The chain-level sort_padding transform is applied (as the
operation itself) and the write follows it directly, although use_padding is
not set. -/
theorem sort_padding_precedes_write_without_use_padding :
    (sample_options [] false false false
        [sample_operation OperationType.SORT_PADDING]).use_padding = false ∧
    ∃ out, do_major_operation_on_file
        (sample_library
          [ sample_block MetadataType.STREAMINFO 34 false id_zero,
            sample_block MetadataType.PADDING 50 true id_zero ])
        true "a.flac"
        (sample_options [] false false false [sample_operation OperationType.SORT_PADDING]) =
          Except.ok out ∧
      out.events =
        [ ChainEvent.sort_padding,
          ChainEvent.write
            [ sample_block MetadataType.STREAMINFO 34 false id_zero,
              sample_block MetadataType.PADDING 50 true id_zero ] false false ] :=
  ⟨rfl, _, rfl, rfl⟩

/-- C24, amended. For a file whose chain is read and whose major operation is
Remove, RemoveAll, MergePadding or SortPadding: the operation returns (Remove
whenever `passes_filter` cannot fail its assertion) and so does the pass over
the file. If the operation succeeded, the chain-level calls are the
operation's own one (merge_padding for MergePadding, sort_padding for
SortPadding, none for the removals), then sort_padding if and only if the
global use_padding is set, then exactly one write, of the chain as it then is,
with the global use_padding and preserve_modtime. If the operation failed there
is no chain-level call at all. -/
theorem major_operation_write (lib : MetadataLibrary) (assert_active : Bool) (filename : String)
    (options : CommandLineOptions) (chain : Chain) (operation : Operation)
    (hread : (if is_ogg_filename filename = true then lib.chain_read_ogg filename
      else lib.chain_read filename) = some chain)
    (hop : options.operations.head? = some operation)
    (hcfg : ¬ (assert_active = true ∧ options.checks.has_block_type = true ∧
      options.checks.has_except_block_type = true)) :
    (operation.type = OperationType.REMOVE →
      ∃ r out, do_major_operation__remove assert_active chain options = Except.ok r ∧
        do_major_operation_on_file lib assert_active filename options = Except.ok out ∧
        out.events =
          (if r.ok = true then
            (if options.use_padding = true then
              [ChainEvent.sort_padding,
                ChainEvent.write (lib.chain_sort_padding r.iterator.chain) options.use_padding
                  options.preserve_modtime]
            else
              [ChainEvent.write r.iterator.chain options.use_padding options.preserve_modtime])
          else [])) ∧
    (operation.type = OperationType.REMOVE_ALL →
      ∃ r out, do_major_operation__remove_all chain options = Except.ok r ∧
        do_major_operation_on_file lib assert_active filename options = Except.ok out ∧
        out.events =
          (if r.ok = true then
            (if options.use_padding = true then
              [ChainEvent.sort_padding,
                ChainEvent.write (lib.chain_sort_padding r.iterator.chain) options.use_padding
                  options.preserve_modtime]
            else
              [ChainEvent.write r.iterator.chain options.use_padding options.preserve_modtime])
          else [])) ∧
    (operation.type = OperationType.MERGE_PADDING →
      ∃ out, do_major_operation_on_file lib assert_active filename options = Except.ok out ∧
        out.events =
          ChainEvent.merge_padding ::
            (if options.use_padding = true then
              [ChainEvent.sort_padding,
                ChainEvent.write (lib.chain_sort_padding (lib.chain_merge_padding chain))
                  options.use_padding options.preserve_modtime]
            else
              [ChainEvent.write (lib.chain_merge_padding chain) options.use_padding
                options.preserve_modtime])) ∧
    (operation.type = OperationType.SORT_PADDING →
      ∃ out, do_major_operation_on_file lib assert_active filename options = Except.ok out ∧
        out.events =
          ChainEvent.sort_padding ::
            (if options.use_padding = true then
              [ChainEvent.sort_padding,
                ChainEvent.write (lib.chain_sort_padding (lib.chain_sort_padding chain))
                  options.use_padding options.preserve_modtime]
            else
              [ChainEvent.write (lib.chain_sort_padding chain) options.use_padding
                options.preserve_modtime])) := by
  refine ⟨?_, ?_, ?_, ?_⟩
  · intro ht
    obtain ⟨r, hr⟩ := remove_returns_any assert_active options chain hcfg
    have hfile : do_major_operation_on_file lib assert_active filename options =
        Except.ok (write_if_needed lib r.ok true options.use_padding options.preserve_modtime
          r.iterator.chain [] []) := by
      simp only [do_major_operation_on_file, hread, hop, ht, hr]
    exact ⟨r, _, hr, hfile, by rw [write_if_needed_events_after]; simp⟩
  · intro ht
    obtain ⟨r, hr⟩ := remove_all_returns_any options chain
    have hfile : do_major_operation_on_file lib assert_active filename options =
        Except.ok (write_if_needed lib r.ok true options.use_padding options.preserve_modtime
          r.iterator.chain [] []) := by
      simp only [do_major_operation_on_file, hread, hop, ht, hr]
    exact ⟨r, _, hr, hfile, by rw [write_if_needed_events_after]; simp⟩
  · intro ht
    have hfile : do_major_operation_on_file lib assert_active filename options =
        Except.ok (write_if_needed lib true true options.use_padding options.preserve_modtime
          (lib.chain_merge_padding chain) [ChainEvent.merge_padding] []) := by
      simp only [do_major_operation_on_file, hread, hop, ht]
    exact ⟨_, hfile, by rw [write_if_needed_events_after]; simp⟩
  · intro ht
    have hfile : do_major_operation_on_file lib assert_active filename options =
        Except.ok (write_if_needed lib true true options.use_padding options.preserve_modtime
          (lib.chain_sort_padding chain) [ChainEvent.sort_padding] []) := by
      simp only [do_major_operation_on_file, hread, hop, ht]
    exact ⟨_, hfile, by rw [write_if_needed_events_after]; simp⟩

/-- Witness of C24: MergePadding on a two-block chain with use_padding set is
followed by sort_padding and one write. -/
theorem major_operation_write_witness :
    ∃ out, do_major_operation_on_file
        (sample_library
          [ sample_block MetadataType.STREAMINFO 34 false id_zero,
            sample_block MetadataType.PADDING 50 true id_zero ])
        true "a.flac"
        (sample_options [] false false true [sample_operation OperationType.MERGE_PADDING]) =
          Except.ok out ∧
      out.events =
        [ ChainEvent.merge_padding, ChainEvent.sort_padding,
          ChainEvent.write
            [ sample_block MetadataType.STREAMINFO 34 false id_zero,
              sample_block MetadataType.PADDING 50 true id_zero ] true false ] :=
  ((major_operation_write
      (sample_library
        [ sample_block MetadataType.STREAMINFO 34 false id_zero,
          sample_block MetadataType.PADDING 50 true id_zero ])
      true "a.flac"
      (sample_options [] false false true [sample_operation OperationType.MERGE_PADDING])
      [ sample_block MetadataType.STREAMINFO 34 false id_zero,
        sample_block MetadataType.PADDING 50 true id_zero ]
      (sample_operation OperationType.MERGE_PADDING) rfl rfl (by decide)).2.2.1 rfl).elim
    fun out h => ⟨out, h.1, h.2.trans rfl⟩

/-! ### Adding a padding block -/

/-- C26. For every chain, length L and value of the flag behind `needs_write`,
the add-padding handler returns. If it returns true, the chain it leaves is the
blocks of the original chain in their order (the flag `is_last` of the former
final block cleared) followed by one new PADDING block of declared length L,
and the flag behind `needs_write` is true. If it returns false (the insertion
failed), the flag and the chain are as they were. It returns true exactly when
the chain is not empty and libFLAC accepts the insertion. -/
theorem add_padding_appends (lib : ShorthandLibrary) (filename : String) (chain : Chain)
    (length : Nat) (needs_write : Bool) :
    ∃ r, do_shorthand_operation__add_padding lib filename chain length needs_write =
        Except.ok r ∧
      (r.ok = true →
        r.needs_write = true ∧
        ∃ front last padding, chain = front ++ [last] ∧
          r.chain = front ++ [{ last with is_last := false }, padding] ∧
          padding.type = MetadataType.PADDING ∧ padding.length = length ∧
          r.chain.map (fun b => (b.type, b.length, b.application_id, b.data)) =
            chain.map (fun b => (b.type, b.length, b.application_id, b.data)) ++
              [(padding.type, padding.length, padding.application_id, padding.data)]) ∧
      (r.ok = false → r.needs_write = needs_write ∧ r.chain = chain) ∧
      (r.ok = true ↔
        chain ≠ [] ∧
          lib.insert_accepted chain
            { FLAC__metadata_object_new MetadataType.PADDING with length := length } = true) := by
  rcases List.eq_nil_or_concat chain with h | ⟨front, last, h⟩
  · subst h
    exact ⟨_, add_padding_nil lib filename length needs_write, by simp, by simp, by simp⟩
  · rw [List.concat_eq_append] at h
    subst h
    refine ⟨_, add_padding_eq lib filename front last length needs_write, ?_, ?_, ?_⟩
    · intro hok
      split at hok
      · rename_i hacc
        rw [if_pos hacc]
        exact ⟨rfl, front, last, _, rfl, rfl, rfl, rfl, by simp⟩
      · simp at hok
    · intro hok
      split at hok
      · simp at hok
      · rename_i hacc
        rw [if_neg hacc]
        exact ⟨rfl, rfl⟩
    · split
      · rename_i hacc
        simp [hacc]
      · rename_i hacc
        simp [hacc]

/-- Witness of C26: a 16-byte padding added to a one-block chain, the insertion
accepted. -/
theorem add_padding_appends_witness :
    ∃ r, do_shorthand_operation__add_padding sample_handlers "a.flac"
        [sample_block MetadataType.STREAMINFO 34 true id_zero] 16 false = Except.ok r ∧
      r.ok = true :=
  (add_padding_appends sample_handlers "a.flac"
      [sample_block MetadataType.STREAMINFO 34 true id_zero] 16 false).elim
    fun r h => ⟨r, h.1, h.2.2.2.mpr ⟨by decide, rfl⟩⟩

/-! ### Abort on a failed dispatch -/

theorem shorthand_first_loop_of_not_ok (lib : ShorthandLibrary) (assert_active : Bool)
    (filename : String) (options : CommandLineOptions) (operations : List Operation)
    (s : ShorthandLocals) (h : s.ok = false) :
    shorthand_first_loop lib assert_active filename options operations s = Except.ok s := by
  cases operations with
  | nil => rfl
  | cons operation rest => rw [shorthand_first_loop]; simp [h]

theorem shorthand_second_loop_of_not_ok (lib : ShorthandLibrary) (assert_active : Bool)
    (filename : String) (options : CommandLineOptions) (operations : List Operation)
    (s : ShorthandLocals) (h : s.ok = false) :
    shorthand_second_loop lib assert_active filename options operations s = Except.ok s := by
  cases operations with
  | nil => rfl
  | cons operation rest => rw [shorthand_second_loop]; simp [h]

theorem shorthand_first_loop_append (lib : ShorthandLibrary) (assert_active : Bool)
    (filename : String) (options : CommandLineOptions) :
    ∀ (before after : List Operation) (s s1 : ShorthandLocals),
      shorthand_first_loop lib assert_active filename options before s = Except.ok s1 →
      shorthand_first_loop lib assert_active filename options (before ++ after) s =
        shorthand_first_loop lib assert_active filename options after s1 := by
  intro before
  induction before with
  | nil =>
      intro after s s1 h
      simp only [shorthand_first_loop, Except.ok.injEq] at h
      subst h
      rfl
  | cons operation rest ih =>
      intro after s s1 h
      rw [List.cons_append, shorthand_first_loop]
      rw [shorthand_first_loop] at h
      cases hok : s.ok with
      | false =>
          simp only [hok, Bool.not_false, if_true, Except.ok.injEq] at h ⊢
          subst h
          exact (shorthand_first_loop_of_not_ok lib assert_active filename options after s hok).symm
      | true =>
          simp only [hok, Bool.not_true, Bool.false_eq_true, if_false] at h ⊢
          by_cases ht : operation.type = OperationType.ADD_SEEKPOINT
          · simp only [ht, ne_eq, not_true_eq_false, if_false] at h ⊢
            exact ih after _ s1 h
          · simp only [ne_eq, ht, not_false_eq_true, if_true] at h ⊢
            cases hd : do_shorthand_operation lib assert_active filename
                options.prefix_with_filename s.chain operation s.needs_write
                options.utf8_convert with
            | error e => simp [hd] at h
            | ok r =>
                simp only [hd] at h ⊢
                exact ih after _ s1 h

theorem shorthand_second_loop_append (lib : ShorthandLibrary) (assert_active : Bool)
    (filename : String) (options : CommandLineOptions) :
    ∀ (before after : List Operation) (s s1 : ShorthandLocals),
      shorthand_second_loop lib assert_active filename options before s = Except.ok s1 →
      shorthand_second_loop lib assert_active filename options (before ++ after) s =
        shorthand_second_loop lib assert_active filename options after s1 := by
  intro before
  induction before with
  | nil =>
      intro after s s1 h
      simp only [shorthand_second_loop, Except.ok.injEq] at h
      subst h
      rfl
  | cons operation rest ih =>
      intro after s s1 h
      rw [List.cons_append, shorthand_second_loop]
      rw [shorthand_second_loop] at h
      cases hok : s.ok with
      | false =>
          simp only [hok, Bool.not_false, if_true, Except.ok.injEq] at h ⊢
          subst h
          exact (shorthand_second_loop_of_not_ok lib assert_active filename options after s
            hok).symm
      | true =>
          simp only [hok, Bool.not_true, Bool.false_eq_true, if_false] at h ⊢
          by_cases ht : operation.type = OperationType.ADD_SEEKPOINT
          · simp only [ht, if_true] at h ⊢
            cases hd : do_shorthand_operation lib assert_active filename
                options.prefix_with_filename s.chain operation s.needs_write
                options.utf8_convert with
            | error e => simp [hd] at h
            | ok r =>
                simp only [hd] at h ⊢
                exact ih after _ s1 h
          · simp only [ht, if_false] at h ⊢
            exact ih after _ s1 h

theorem shorthand_first_loop_fail (lib : ShorthandLibrary) (assert_active : Bool)
    (filename : String) (options : CommandLineOptions) (operation : Operation)
    (rest : List Operation) (s : ShorthandLocals) (r : HandlerResult) (hs : s.ok = true)
    (ht : operation.type ≠ OperationType.ADD_SEEKPOINT)
    (hd : do_shorthand_operation lib assert_active filename options.prefix_with_filename
      s.chain operation s.needs_write options.utf8_convert = Except.ok r)
    (hf : r.ok = false) :
    shorthand_first_loop lib assert_active filename options (operation :: rest) s =
      Except.ok
        { ok := false, needs_write := r.needs_write
          use_padding :=
            if operation.type = OperationType.ADD_PADDING then false else s.use_padding
          chain := r.chain, dispatched := s.dispatched ++ [operation] } := by
  rw [shorthand_first_loop]
  simp only [hs, Bool.not_true, Bool.false_eq_true, if_false, ne_eq, ht, not_false_eq_true,
    if_true, hd, hf, Bool.and_false]
  exact shorthand_first_loop_of_not_ok lib assert_active filename options rest _ rfl

theorem shorthand_first_loop_fault (lib : ShorthandLibrary) (assert_active : Bool)
    (filename : String) (options : CommandLineOptions) (operation : Operation)
    (rest : List Operation) (s : ShorthandLocals) (e : Fault) (hs : s.ok = true)
    (ht : operation.type ≠ OperationType.ADD_SEEKPOINT)
    (hd : do_shorthand_operation lib assert_active filename options.prefix_with_filename
      s.chain operation s.needs_write options.utf8_convert = Except.error e) :
    shorthand_first_loop lib assert_active filename options (operation :: rest) s =
      Except.error e := by
  rw [shorthand_first_loop]
  simp only [hs, Bool.not_true, Bool.false_eq_true, if_false, ne_eq, ht, not_false_eq_true,
    if_true, hd]

theorem shorthand_second_loop_fail (lib : ShorthandLibrary) (assert_active : Bool)
    (filename : String) (options : CommandLineOptions) (operation : Operation)
    (rest : List Operation) (s : ShorthandLocals) (r : HandlerResult) (hs : s.ok = true)
    (ht : operation.type = OperationType.ADD_SEEKPOINT)
    (hd : do_shorthand_operation lib assert_active filename options.prefix_with_filename
      s.chain operation s.needs_write options.utf8_convert = Except.ok r)
    (hf : r.ok = false) :
    shorthand_second_loop lib assert_active filename options (operation :: rest) s =
      Except.ok
        { ok := false, needs_write := r.needs_write, use_padding := s.use_padding
          chain := r.chain, dispatched := s.dispatched ++ [operation] } := by
  rw [shorthand_second_loop]
  simp only [hs, Bool.not_true, Bool.false_eq_true, if_false, ht, if_true, hd, hf,
    Bool.and_false]
  exact shorthand_second_loop_of_not_ok lib assert_active filename options rest _ rfl

theorem write_if_needed_of_not_ok (lib : MetadataLibrary) (needs_write use_padding pm : Bool)
    (chain : Chain) :
    write_if_needed lib false needs_write use_padding pm chain [] [] =
      { ok := false, needs_write := needs_write, chain := some chain, events := []
        reports := [] } := by
  simp [write_if_needed]

/-- A dispatch of an operation type that `do_shorthand_operation` has no case
for calls no handler: with assertions compiled out it returns false and leaves
the chain and the flag as they are, with assertions compiled in it stops at
`FLAC__ASSERT(0)`. -/
theorem dispatch_unrecognized (lib : ShorthandLibrary) (assert_active : Bool)
    (filename : String) (pwf : Bool) (chain : Chain) (operation : Operation) (nw utf8 : Bool)
    (h : operation.type ∈
      [OperationType.LIST, OperationType.APPEND, OperationType.REMOVE,
        OperationType.REMOVE_ALL, OperationType.MERGE_PADDING, OperationType.SORT_PADDING]) :
    do_shorthand_operation lib assert_active filename pwf chain operation nw utf8 =
      (if assert_active = true then Except.error Fault.assertion_failure
        else Except.ok { ok := false, chain := chain, needs_write := nw }) := by
  simp only [List.mem_cons, List.mem_singleton, List.not_mem_nil, or_false] at h
  rcases h with h | h | h | h | h | h <;>
    cases assert_active <;> simp [do_shorthand_operation, h, FLAC__ASSERT]

/-- The pass over a file whose chain is read, when the loop that handles
`operation` reaches it with `ok` true, in the state `s`, and its dispatch
returns false: the pass returns false, makes no chain-level call, and the
dispatch of `operation` is the last one. -/
theorem shorthand_pass_after_failed_dispatch (lib : ShorthandLibrary) (mlib : MetadataLibrary)
    (assert_active : Bool) (filename : String) (options : CommandLineOptions) (chain : Chain)
    (before after : List Operation) (operation : Operation) (s : ShorthandLocals)
    (r : HandlerResult)
    (hread : mlib.chain_read filename = some chain)
    (hops : options.operations = before ++ operation :: after)
    (hreach :
      (operation.type ≠ OperationType.ADD_SEEKPOINT ∧
        shorthand_first_loop lib assert_active filename options before
          { ok := true, needs_write := false, use_padding := options.use_padding
            chain := chain, dispatched := [] } = Except.ok s) ∨
      (operation.type = OperationType.ADD_SEEKPOINT ∧
        ∃ s1, shorthand_first_loop lib assert_active filename options options.operations
            { ok := true, needs_write := false, use_padding := options.use_padding
              chain := chain, dispatched := [] } = Except.ok s1 ∧
          shorthand_second_loop lib assert_active filename options before s1 = Except.ok s))
    (hs : s.ok = true)
    (hdispatch : do_shorthand_operation lib assert_active filename
      options.prefix_with_filename s.chain operation s.needs_write options.utf8_convert =
        Except.ok r)
    (hfail : r.ok = false) :
    ∃ out, do_shorthand_operations_on_file lib mlib assert_active filename options =
        Except.ok out ∧
      out.ok = false ∧ out.events = [] ∧ out.chain = some r.chain ∧
      out.dispatched = s.dispatched ++ [operation] ∧
      s.dispatched =
        (if operation.type = OperationType.ADD_SEEKPOINT then
          options.operations.filter (fun o => decide (o.type ≠ OperationType.ADD_SEEKPOINT)) ++
            before.filter (fun o => decide (o.type = OperationType.ADD_SEEKPOINT))
        else before.filter (fun o => decide (o.type ≠ OperationType.ADD_SEEKPOINT))) := by
  · rcases hreach with ⟨ht, hfirst⟩ | ⟨ht, s1, hfirst, hsecond⟩
    · have h1 := shorthand_first_loop_append lib assert_active filename options before
        (operation :: after) _ s hfirst
      rw [shorthand_first_loop_fail lib assert_active filename options operation after s r hs
        ht hdispatch hfail, ← hops] at h1
      have hloops : shorthand_dispatch_loops lib assert_active filename options chain =
          Except.ok
            { ok := false, needs_write := r.needs_write
              use_padding :=
                if operation.type = OperationType.ADD_PADDING then false else s.use_padding
              chain := r.chain, dispatched := s.dispatched ++ [operation] } := by
        unfold shorthand_dispatch_loops
        simp only [h1]
        exact shorthand_second_loop_of_not_ok lib assert_active filename options _ _ rfl
      obtain ⟨-, hd, -, -⟩ := shorthand_first_loop_trace lib assert_active filename options
        before _ s hfirst hs
      have hfile : do_shorthand_operations_on_file lib mlib assert_active filename options =
          Except.ok
            { ok := false, needs_write := r.needs_write
              use_padding :=
                if operation.type = OperationType.ADD_PADDING then false else s.use_padding
              chain := some r.chain, dispatched := s.dispatched ++ [operation]
              events := [] } := by
        unfold do_shorthand_operations_on_file
        simp only [hread, hloops, write_if_needed_of_not_ok]
      refine ⟨_, hfile, rfl, rfl, rfl, rfl, ?_⟩
      rw [hd, if_neg ht]
      rfl
    · obtain ⟨hs1, hd2, -, -⟩ := shorthand_second_loop_trace lib assert_active filename
        options before s1 s hsecond hs
      obtain ⟨-, hd1, -, -⟩ := shorthand_first_loop_trace lib assert_active filename options
        options.operations _ s1 hfirst hs1
      have h2 := shorthand_second_loop_append lib assert_active filename options before
        (operation :: after) s1 s hsecond
      rw [shorthand_second_loop_fail lib assert_active filename options operation after s r hs
        ht hdispatch hfail, ← hops] at h2
      have hloops : shorthand_dispatch_loops lib assert_active filename options chain =
          Except.ok
            { ok := false, needs_write := r.needs_write, use_padding := s.use_padding
              chain := r.chain, dispatched := s.dispatched ++ [operation] } := by
        unfold shorthand_dispatch_loops
        simp only [hfirst, h2]
      have hfile : do_shorthand_operations_on_file lib mlib assert_active filename options =
          Except.ok
            { ok := false, needs_write := r.needs_write, use_padding := s.use_padding
              chain := some r.chain, dispatched := s.dispatched ++ [operation]
              events := [] } := by
        unfold do_shorthand_operations_on_file
        simp only [hread, hloops, write_if_needed_of_not_ok]
      refine ⟨_, hfile, rfl, rfl, rfl, rfl, ?_⟩
      rw [hd2, hd1, if_pos ht]
      rfl

theorem shorthand_second_loop_fault (lib : ShorthandLibrary) (assert_active : Bool)
    (filename : String) (options : CommandLineOptions) (operation : Operation)
    (rest : List Operation) (s : ShorthandLocals) (e : Fault) (hs : s.ok = true)
    (ht : operation.type = OperationType.ADD_SEEKPOINT)
    (hd : do_shorthand_operation lib assert_active filename options.prefix_with_filename
      s.chain operation s.needs_write options.utf8_convert = Except.error e) :
    shorthand_second_loop lib assert_active filename options (operation :: rest) s =
      Except.error e := by
  rw [shorthand_second_loop]
  simp only [hs, Bool.not_true, Bool.false_eq_true, if_false, ht, if_true, hd]

/-- The pass over a file whose chain is read, when the loop that handles
`operation` reaches it with `ok` true, in the state `s`, and its dispatch stops
at a failed assertion: the pass stops there too and returns nothing, so nothing
is dispatched after it and nothing is written. -/
theorem shorthand_pass_stops_at_fault (lib : ShorthandLibrary) (mlib : MetadataLibrary)
    (assert_active : Bool) (filename : String) (options : CommandLineOptions) (chain : Chain)
    (before after : List Operation) (operation : Operation) (s : ShorthandLocals) (e : Fault)
    (hread : mlib.chain_read filename = some chain)
    (hops : options.operations = before ++ operation :: after)
    (hreach :
      (operation.type ≠ OperationType.ADD_SEEKPOINT ∧
        shorthand_first_loop lib assert_active filename options before
          { ok := true, needs_write := false, use_padding := options.use_padding
            chain := chain, dispatched := [] } = Except.ok s) ∨
      (operation.type = OperationType.ADD_SEEKPOINT ∧
        ∃ s1, shorthand_first_loop lib assert_active filename options options.operations
            { ok := true, needs_write := false, use_padding := options.use_padding
              chain := chain, dispatched := [] } = Except.ok s1 ∧
          shorthand_second_loop lib assert_active filename options before s1 = Except.ok s))
    (hs : s.ok = true)
    (hdispatch : do_shorthand_operation lib assert_active filename
      options.prefix_with_filename s.chain operation s.needs_write options.utf8_convert =
        Except.error e) :
    do_shorthand_operations_on_file lib mlib assert_active filename options =
      Except.error e := by
  rcases hreach with ⟨ht, hfirst⟩ | ⟨ht, s1, hfirst, hsecond⟩
  · have h1 := shorthand_first_loop_append lib assert_active filename options before
      (operation :: after) _ s hfirst
    rw [shorthand_first_loop_fault lib assert_active filename options operation after s e hs ht
      hdispatch, ← hops] at h1
    unfold do_shorthand_operations_on_file shorthand_dispatch_loops
    simp only [hread, h1]
  · have h2 := shorthand_second_loop_append lib assert_active filename options before
      (operation :: after) s1 s hsecond
    rw [shorthand_second_loop_fault lib assert_active filename options operation after s e hs
      ht hdispatch, ← hops] at h2
    unfold do_shorthand_operations_on_file shorthand_dispatch_loops
    simp only [hread, hfirst, h2]

/-- C25, where the claim fails: a major operation type among shorthand
operations, with assertions compiled in. No handler is called, the dispatch
stops at `FLAC__ASSERT(0)`, and the pass over the file returns no result at
all, so its result is not false. -/
theorem unrecognized_type_asserted_gives_no_result :
    do_shorthand_operation sample_handlers true "a.flac" false
        [sample_block MetadataType.STREAMINFO 34 true id_zero]
        (sample_operation OperationType.LIST) true false =
      Except.error Fault.assertion_failure ∧
    do_shorthand_operations_on_file sample_handlers
        (sample_library [sample_block MetadataType.STREAMINFO 34 true id_zero]) true "a.flac"
        (sample_options [] false false true
          [ sample_operation OperationType.SET_MD5SUM, sample_operation OperationType.LIST,
            sample_operation OperationType.ADD_SEEKPOINT,
            sample_operation OperationType.SET_BPS ]) =
      Except.error Fault.assertion_failure ∧
    ¬ ∃ out, do_shorthand_operations_on_file sample_handlers
        (sample_library [sample_block MetadataType.STREAMINFO 34 true id_zero]) true "a.flac"
        (sample_options [] false false true
          [ sample_operation OperationType.SET_MD5SUM, sample_operation OperationType.LIST,
            sample_operation OperationType.ADD_SEEKPOINT,
            sample_operation OperationType.SET_BPS ]) = Except.ok out :=
  ⟨rfl, rfl, fun h => h.elim fun _ hout => Except.noConfusion hout⟩

/-- C25, amended. For a file whose chain is read and a shorthand operation
sequence `before ++ operation :: after`: suppose the loop that handles
`operation` (the first loop if it is not a seek point addition, the second if
it is) reaches it with `ok` true, in the state `s`. (1) If the dispatch of
`operation` returns false, the pass over the file returns false, makes no
chain-level call (no sort, no write), and the dispatch of `operation` is the
last one: the operations dispatched are those of `before` that the loop handles
(after all that are not seek point additions, for the second loop) and
`operation`, so nothing of `after` and, when `operation` is not a seek point
addition, no seek point addition at all. (2) If the dispatch stops at a failed
assertion, the pass stops there and returns no result. (3) The dispatch of an
operation type without a case in `do_shorthand_operation` calls no handler:
with assertions compiled out it returns false and leaves chain and flag as they
are, so (1) applies; with assertions compiled in it stops at `FLAC__ASSERT(0)`,
so (2) applies. -/
theorem shorthand_abort_on_failure (lib : ShorthandLibrary) (mlib : MetadataLibrary)
    (assert_active : Bool) (filename : String) (options : CommandLineOptions) (chain : Chain)
    (before after : List Operation) (operation : Operation) (s : ShorthandLocals)
    (hread : mlib.chain_read filename = some chain)
    (hops : options.operations = before ++ operation :: after)
    (hreach :
      (operation.type ≠ OperationType.ADD_SEEKPOINT ∧
        shorthand_first_loop lib assert_active filename options before
          { ok := true, needs_write := false, use_padding := options.use_padding
            chain := chain, dispatched := [] } = Except.ok s) ∨
      (operation.type = OperationType.ADD_SEEKPOINT ∧
        ∃ s1, shorthand_first_loop lib assert_active filename options options.operations
            { ok := true, needs_write := false, use_padding := options.use_padding
              chain := chain, dispatched := [] } = Except.ok s1 ∧
          shorthand_second_loop lib assert_active filename options before s1 = Except.ok s))
    (hs : s.ok = true) :
    (∀ r : HandlerResult,
      do_shorthand_operation lib assert_active filename options.prefix_with_filename s.chain
        operation s.needs_write options.utf8_convert = Except.ok r →
      r.ok = false →
      ∃ out, do_shorthand_operations_on_file lib mlib assert_active filename options =
          Except.ok out ∧
        out.ok = false ∧ out.events = [] ∧ out.chain = some r.chain ∧
        out.dispatched = s.dispatched ++ [operation] ∧
        s.dispatched =
          (if operation.type = OperationType.ADD_SEEKPOINT then
            options.operations.filter
                (fun o => decide (o.type ≠ OperationType.ADD_SEEKPOINT)) ++
              before.filter (fun o => decide (o.type = OperationType.ADD_SEEKPOINT))
          else before.filter (fun o => decide (o.type ≠ OperationType.ADD_SEEKPOINT)))) ∧
    (∀ e : Fault,
      do_shorthand_operation lib assert_active filename options.prefix_with_filename s.chain
        operation s.needs_write options.utf8_convert = Except.error e →
      do_shorthand_operations_on_file lib mlib assert_active filename options =
        Except.error e) ∧
    (∀ (lib2 : ShorthandLibrary) (c : Chain) (nw : Bool) (o : Operation),
      o.type ∈
        [OperationType.LIST, OperationType.APPEND, OperationType.REMOVE,
          OperationType.REMOVE_ALL, OperationType.MERGE_PADDING, OperationType.SORT_PADDING] →
      do_shorthand_operation lib2 assert_active filename options.prefix_with_filename c o nw
        options.utf8_convert =
          (if assert_active = true then Except.error Fault.assertion_failure
            else Except.ok { ok := false, chain := c, needs_write := nw })) := by
  refine ⟨?_, ?_, ?_⟩
  · intro r hdispatch hfail
    exact shorthand_pass_after_failed_dispatch lib mlib assert_active filename options chain
      before after operation s r hread hops hreach hs hdispatch hfail
  · intro e hdispatch
    exact shorthand_pass_stops_at_fault lib mlib assert_active filename options chain before
      after operation s e hread hops hreach hs hdispatch
  · intro lib2 c nw o ho
    exact dispatch_unrecognized lib2 assert_active filename _ c o nw _ ho

/-- Witness of the amended C25: a major operation type among shorthand
operations. With assertions compiled out its dispatch returns false; the seek
point addition and the operation after it are not dispatched, nothing is
written and the pass returns false. With assertions compiled in the pass stops
at the assertion. -/
theorem shorthand_abort_on_failure_witness :
    (∃ out, do_shorthand_operations_on_file sample_handlers
        (sample_library [sample_block MetadataType.STREAMINFO 34 true id_zero]) false "a.flac"
        (sample_options [] false false true
          [ sample_operation OperationType.SET_MD5SUM, sample_operation OperationType.LIST,
            sample_operation OperationType.ADD_SEEKPOINT,
            sample_operation OperationType.SET_BPS ]) = Except.ok out ∧
      out.ok = false ∧ out.events = [] ∧
      out.dispatched =
        [sample_operation OperationType.SET_MD5SUM, sample_operation OperationType.LIST]) ∧
    do_shorthand_operations_on_file sample_handlers
        (sample_library [sample_block MetadataType.STREAMINFO 34 true id_zero]) true "a.flac"
        (sample_options [] false false true
          [ sample_operation OperationType.SET_MD5SUM, sample_operation OperationType.LIST,
            sample_operation OperationType.ADD_SEEKPOINT,
            sample_operation OperationType.SET_BPS ]) =
      Except.error Fault.assertion_failure :=
  ⟨((shorthand_abort_on_failure sample_handlers
      (sample_library [sample_block MetadataType.STREAMINFO 34 true id_zero]) false "a.flac"
      (sample_options [] false false true
        [ sample_operation OperationType.SET_MD5SUM, sample_operation OperationType.LIST,
          sample_operation OperationType.ADD_SEEKPOINT,
          sample_operation OperationType.SET_BPS ])
      [sample_block MetadataType.STREAMINFO 34 true id_zero]
      [sample_operation OperationType.SET_MD5SUM]
      [sample_operation OperationType.ADD_SEEKPOINT, sample_operation OperationType.SET_BPS]
      (sample_operation OperationType.LIST)
      { ok := true, needs_write := true, use_padding := true
        chain := [sample_block MetadataType.STREAMINFO 34 true id_zero]
        dispatched := [sample_operation OperationType.SET_MD5SUM] }
      rfl rfl (Or.inl ⟨by decide, rfl⟩) rfl).1
      { ok := false, chain := [sample_block MetadataType.STREAMINFO 34 true id_zero]
        needs_write := true }
      rfl rfl).elim
    fun out h => ⟨out, h.1, h.2.1, h.2.2.1, h.2.2.2.2.1⟩,
   (shorthand_abort_on_failure sample_handlers
      (sample_library [sample_block MetadataType.STREAMINFO 34 true id_zero]) true "a.flac"
      (sample_options [] false false true
        [ sample_operation OperationType.SET_MD5SUM, sample_operation OperationType.LIST,
          sample_operation OperationType.ADD_SEEKPOINT,
          sample_operation OperationType.SET_BPS ])
      [sample_block MetadataType.STREAMINFO 34 true id_zero]
      [sample_operation OperationType.SET_MD5SUM]
      [sample_operation OperationType.ADD_SEEKPOINT, sample_operation OperationType.SET_BPS]
      (sample_operation OperationType.LIST)
      { ok := true, needs_write := true, use_padding := true
        chain := [sample_block MetadataType.STREAMINFO 34 true id_zero]
        dispatched := [sample_operation OperationType.SET_MD5SUM] }
      rfl rfl (Or.inl ⟨by decide, rfl⟩) rfl).2.1 Fault.assertion_failure rfl⟩

/-! ### When the shorthand pass writes -/

theorem dispatch_results_append (lib : ShorthandLibrary) (assert_active : Bool)
    (filename : String) (options : CommandLineOptions) :
    ∀ (a b : List Operation) (chain : Chain) (nw : Bool) (rs1 rs2 : List HandlerResult),
      dispatch_results lib assert_active filename options a chain nw = Except.ok rs1 →
      dispatch_results lib assert_active filename options b (dispatch_end rs1 chain nw).1
        (dispatch_end rs1 chain nw).2 = Except.ok rs2 →
      dispatch_results lib assert_active filename options (a ++ b) chain nw =
        Except.ok (rs1 ++ rs2) := by
  intro a
  induction a with
  | nil =>
      intro b chain nw rs1 rs2 h1 h2
      simp only [dispatch_results, Except.ok.injEq] at h1
      subst h1
      exact h2
  | cons operation rest ih =>
      intro b chain nw rs1 rs2 h1 h2
      rw [dispatch_results] at h1
      rw [List.cons_append, dispatch_results]
      cases hd : do_shorthand_operation lib assert_active filename
          options.prefix_with_filename chain operation nw options.utf8_convert with
      | error e => simp [hd] at h1
      | ok r =>
          simp only [hd] at h1 ⊢
          cases hrest : dispatch_results lib assert_active filename options rest r.chain
              r.needs_write with
          | error e => simp [hrest] at h1
          | ok rs =>
              simp only [hrest, Except.ok.injEq] at h1
              subst h1
              have h3 := ih b r.chain r.needs_write rs rs2 hrest h2
              simp only [h3, List.cons_append]

theorem agrees_after_dispatch (lib : ShorthandLibrary) (assert_active : Bool)
    (filename : String) (options : CommandLineOptions) (chain : Chain) (s : ShorthandLocals)
    (operation : Operation) (r : HandlerResult) (up : Bool)
    (hinv : agrees_with_dispatches lib assert_active filename options chain s)
    (hok : s.ok = true)
    (hd : do_shorthand_operation lib assert_active filename options.prefix_with_filename
      s.chain operation s.needs_write options.utf8_convert = Except.ok r) :
    agrees_with_dispatches lib assert_active filename options chain
      { ok := r.ok, needs_write := r.needs_write, use_padding := up, chain := r.chain
        dispatched := s.dispatched ++ [operation] } := by
  obtain ⟨rs, hrs, hall, hend⟩ := hinv
  have hc : (dispatch_end rs chain false).1 = s.chain := by rw [← hend]
  have hn : (dispatch_end rs chain false).2 = s.needs_write := by rw [← hend]
  refine ⟨rs ++ [r], ?_, ?_, ?_⟩
  · apply dispatch_results_append lib assert_active filename options _ _ _ _ _ _ hrs
    rw [hc, hn]
    simp only [dispatch_results, hd]
  · rw [hok] at hall
    simp [← hall]
  · simp [dispatch_end]

theorem shorthand_first_loop_agrees (lib : ShorthandLibrary) (assert_active : Bool)
    (filename : String) (options : CommandLineOptions) (chain : Chain) :
    ∀ (operations : List Operation) (s s2 : ShorthandLocals),
      shorthand_first_loop lib assert_active filename options operations s = Except.ok s2 →
      agrees_with_dispatches lib assert_active filename options chain s →
      agrees_with_dispatches lib assert_active filename options chain s2 := by
  intro operations
  induction operations with
  | nil =>
      intro s s2 h hinv
      simp only [shorthand_first_loop, Except.ok.injEq] at h
      subst h
      exact hinv
  | cons operation rest ih =>
      intro s s2 h hinv
      rw [shorthand_first_loop] at h
      cases hok : s.ok with
      | false =>
          simp only [hok, Bool.not_false, if_true, Except.ok.injEq] at h
          subst h
          exact hinv
      | true =>
          simp only [hok, Bool.not_true, Bool.false_eq_true, if_false, Bool.true_and] at h
          by_cases ht : operation.type = OperationType.ADD_SEEKPOINT
          · simp only [ht, ne_eq, not_true_eq_false, if_false] at h
            obtain ⟨rs, hrs, hall, hend⟩ := hinv
            exact ih _ s2 h ⟨rs, hrs, hok ▸ hall, hend⟩
          · simp only [ne_eq, ht, not_false_eq_true, if_true] at h
            cases hd : do_shorthand_operation lib assert_active filename
                options.prefix_with_filename s.chain operation s.needs_write
                options.utf8_convert with
            | error e => simp [hd] at h
            | ok r =>
                simp only [hd] at h
                exact ih _ s2 h
                  (agrees_after_dispatch lib assert_active filename options chain s operation r
                    _ hinv hok hd)

theorem shorthand_second_loop_agrees (lib : ShorthandLibrary) (assert_active : Bool)
    (filename : String) (options : CommandLineOptions) (chain : Chain) :
    ∀ (operations : List Operation) (s s2 : ShorthandLocals),
      shorthand_second_loop lib assert_active filename options operations s = Except.ok s2 →
      agrees_with_dispatches lib assert_active filename options chain s →
      agrees_with_dispatches lib assert_active filename options chain s2 := by
  intro operations
  induction operations with
  | nil =>
      intro s s2 h hinv
      simp only [shorthand_second_loop, Except.ok.injEq] at h
      subst h
      exact hinv
  | cons operation rest ih =>
      intro s s2 h hinv
      rw [shorthand_second_loop] at h
      cases hok : s.ok with
      | false =>
          simp only [hok, Bool.not_false, if_true, Except.ok.injEq] at h
          subst h
          exact hinv
      | true =>
          simp only [hok, Bool.not_true, Bool.false_eq_true, if_false, Bool.true_and] at h
          by_cases ht : operation.type = OperationType.ADD_SEEKPOINT
          · simp only [ht, if_true] at h
            cases hd : do_shorthand_operation lib assert_active filename
                options.prefix_with_filename s.chain operation s.needs_write
                options.utf8_convert with
            | error e => simp [hd] at h
            | ok r =>
                simp only [hd] at h
                exact ih _ s2 h
                  (agrees_after_dispatch lib assert_active filename options chain s operation r
                    _ hinv hok hd)
          · simp only [ht, if_false] at h
            exact ih _ s2 h hinv

theorem shorthand_dispatch_loops_agree (lib : ShorthandLibrary) (assert_active : Bool)
    (filename : String) (options : CommandLineOptions) (chain : Chain) (s : ShorthandLocals)
    (h : shorthand_dispatch_loops lib assert_active filename options chain = Except.ok s) :
    agrees_with_dispatches lib assert_active filename options chain s := by
  unfold shorthand_dispatch_loops at h
  cases h1 : shorthand_first_loop lib assert_active filename options options.operations
      { ok := true, needs_write := false, use_padding := options.use_padding
        chain := chain, dispatched := [] } with
  | error e => simp [h1] at h
  | ok s1 =>
      simp only [h1] at h
      apply shorthand_second_loop_agrees lib assert_active filename options chain _ s1 s h
      apply shorthand_first_loop_agrees lib assert_active filename options chain _ _ s1 h1
      exact ⟨[], rfl, rfl, rfl⟩

theorem dispatch_end_flag (lib : ShorthandLibrary) (hkeep : lib.keeps_needs_write)
    (assert_active : Bool) (filename : String) (options : CommandLineOptions) :
    ∀ (operations : List Operation) (chain : Chain) (nw : Bool) (rs : List HandlerResult),
      dispatch_results lib assert_active filename options operations chain nw = Except.ok rs →
      ((dispatch_end rs chain nw).2 = true ↔ nw = true ∨ ∃ r ∈ rs, r.needs_write = true) := by
  intro operations
  induction operations with
  | nil =>
      intro chain nw rs h
      simp only [dispatch_results, Except.ok.injEq] at h
      subst h
      simp [dispatch_end]
  | cons operation rest ih =>
      intro chain nw rs h
      rw [dispatch_results] at h
      cases hd : do_shorthand_operation lib assert_active filename
          options.prefix_with_filename chain operation nw options.utf8_convert with
      | error e => simp [hd] at h
      | ok r =>
          simp only [hd] at h
          cases hrest : dispatch_results lib assert_active filename options rest r.chain
              r.needs_write with
          | error e => simp [hrest] at h
          | ok rs2 =>
              simp only [hrest, Except.ok.injEq] at h
              subst h
              have h2 := ih r.chain r.needs_write rs2 hrest
              have he : dispatch_end (r :: rs2) chain nw = dispatch_end rs2 r.chain r.needs_write :=
                rfl
              rw [he, h2]
              constructor
              · rintro (h3 | ⟨x, hx, hxn⟩)
                · exact Or.inr ⟨r, List.mem_cons_self _ _, h3⟩
                · exact Or.inr ⟨x, List.mem_cons_of_mem _ hx, hxn⟩
              · rintro (h3 | ⟨x, hx, hxn⟩)
                · left
                  rw [h3] at hd
                  exact dispatch_keeps_needs_write lib hkeep assert_active filename _ _ _ _ r hd
                · rcases List.mem_cons.mp hx with rfl | hx2
                  · exact Or.inl hxn
                  · exact Or.inr ⟨x, hx2, hxn⟩

theorem shorthand_first_loop_placeholders (lib : ShorthandLibrary) (assert_active : Bool)
    (filename : String) (options : CommandLineOptions) :
    ∀ (operations : List Operation) (s : ShorthandLocals),
      (∀ o ∈ operations, o.type = OperationType.ADD_REPLAY_GAIN) → s.ok = true →
      shorthand_first_loop lib assert_active filename options operations s =
        Except.ok { s with dispatched := s.dispatched ++ operations } := by
  intro operations
  induction operations with
  | nil => intro s _ _; simp [shorthand_first_loop]
  | cons operation rest ih =>
      intro s hall hok
      have ht := hall operation (List.mem_cons_self _ _)
      rw [shorthand_first_loop]
      simp only [hok, Bool.not_true, Bool.false_eq_true, if_false, ht, ne_eq,
        do_shorthand_operation]
      simp only [reduceCtorEq, not_false_eq_true, if_true, if_false, Bool.and_self]
      rw [ih _ (fun o ho => hall o (List.mem_cons_of_mem _ ho)) rfl]
      simp [hok]

theorem shorthand_second_loop_no_seekpoint (lib : ShorthandLibrary) (assert_active : Bool)
    (filename : String) (options : CommandLineOptions) :
    ∀ (operations : List Operation) (s : ShorthandLocals),
      (∀ o ∈ operations, o.type ≠ OperationType.ADD_SEEKPOINT) →
      shorthand_second_loop lib assert_active filename options operations s = Except.ok s := by
  intro operations
  induction operations with
  | nil => intro s _; rfl
  | cons operation rest ih =>
      intro s hall
      have ht := hall operation (List.mem_cons_self _ _)
      rw [shorthand_second_loop]
      cases hok : s.ok with
      | false => simp
      | true =>
          simp only [Bool.not_true, Bool.false_eq_true, if_false, ht]
          exact ih s (fun o ho => hall o (List.mem_cons_of_mem _ ho))

/-- C27. For a file whose chain is read, handlers that never clear a set flag
and a shorthand pass that returns. Let the results be those of the dispatches
made, in order. (1) If every dispatch returned true and at least one left the
flag behind `needs_write` set, the chain-level calls are an optional
sort_padding followed by exactly one write; otherwise there is no chain-level
call at all; so the chain is written at most once. (2) A dispatch called with
the flag set returns with the flag set. (3) The dispatch of an add-replay-gain
operation returns true and leaves chain and flag as they are. (4) A sequence
made of such placeholders only is dispatched completely, returns true and
writes nothing. -/
theorem shorthand_write_at_most_once (lib : ShorthandLibrary) (mlib : MetadataLibrary)
    (assert_active : Bool) (filename : String) (options : CommandLineOptions) (chain : Chain)
    (out : ShorthandFileOutcome)
    (hkeep : lib.keeps_needs_write)
    (hread : mlib.chain_read filename = some chain)
    (hfile : do_shorthand_operations_on_file lib mlib assert_active filename options =
      Except.ok out) :
    (∃ rs, dispatch_results lib assert_active filename options out.dispatched chain false =
        Except.ok rs ∧
      (((∀ r ∈ rs, r.ok = true) ∧ ∃ r ∈ rs, r.needs_write = true) →
        ∃ c, out.events =
          (if out.use_padding = true then [ChainEvent.sort_padding] else []) ++
            [ChainEvent.write c out.use_padding options.preserve_modtime]) ∧
      (¬ ((∀ r ∈ rs, r.ok = true) ∧ ∃ r ∈ rs, r.needs_write = true) → out.events = [])) ∧
    (∀ (pwf : Bool) (c : Chain) (o : Operation) (utf8 : Bool) (r : HandlerResult),
      do_shorthand_operation lib assert_active filename pwf c o true utf8 = Except.ok r →
      r.needs_write = true) ∧
    (∀ (pwf : Bool) (c : Chain) (o : Operation) (nw utf8 : Bool),
      o.type = OperationType.ADD_REPLAY_GAIN →
      do_shorthand_operation lib assert_active filename pwf c o nw utf8 =
        Except.ok { ok := true, chain := c, needs_write := nw }) ∧
    ((∀ o ∈ options.operations, o.type = OperationType.ADD_REPLAY_GAIN) →
      out.ok = true ∧ out.events = [] ∧ out.dispatched = options.operations) := by
  unfold do_shorthand_operations_on_file at hfile
  simp only [hread] at hfile
  cases hl : shorthand_dispatch_loops lib assert_active filename options chain with
  | error e => simp [hl] at hfile
  | ok s =>
      simp only [hl, Except.ok.injEq] at hfile
      subst hfile
      have hev := (write_if_needed_events mlib s.ok s.needs_write s.use_padding
        options.preserve_modtime s.chain).2
      refine ⟨?_, ?_, ?_, ?_⟩
      · obtain ⟨rs, hrs, hall, hend⟩ :=
          shorthand_dispatch_loops_agree lib assert_active filename options chain s hl
        have hflag : s.needs_write = true ↔ ∃ r ∈ rs, r.needs_write = true := by
          have h1 := dispatch_end_flag lib hkeep assert_active filename options s.dispatched
            chain false rs hrs
          rw [← hend] at h1
          simpa using h1
        have hokall : s.ok = true ↔ ∀ r ∈ rs, r.ok = true := by
          rw [hall]; simp [List.all_eq_true]
        refine ⟨rs, hrs, ?_, ?_⟩
        · rintro ⟨h1, h2⟩
          have a := hokall.mpr h1
          have b := hflag.mpr h2
          refine ⟨if s.use_padding = true then mlib.chain_sort_padding s.chain else s.chain, ?_⟩
          simp only [a, b]
          cases s.use_padding <;> simp [write_if_needed]
        · intro hnot
          have hc : (s.ok && s.needs_write) = false := by
            cases ha : s.ok with
            | false => rfl
            | true =>
                cases hb : s.needs_write with
                | false => rfl
                | true => exact absurd ⟨hokall.mp ha, hflag.mp hb⟩ hnot
          simp only [hev, hc]
          simp
      · intro pwf c o utf8 r h
        exact dispatch_keeps_needs_write lib hkeep assert_active filename pwf c o utf8 r h
      · intro pwf c o nw utf8 ht
        simp only [do_shorthand_operation, ht]
      · intro hall
        have h1 := shorthand_first_loop_placeholders lib assert_active filename options
          options.operations
          { ok := true, needs_write := false, use_padding := options.use_padding
            chain := chain, dispatched := [] } hall rfl
        have h2 := shorthand_second_loop_no_seekpoint lib assert_active filename options
          options.operations
          { ok := true, needs_write := false, use_padding := options.use_padding
            chain := chain, dispatched := [] ++ options.operations }
          (fun o ho => by rw [hall o ho]; decide)
        unfold shorthand_dispatch_loops at hl
        simp only [h1, h2, Except.ok.injEq] at hl
        subst hl
        simp [write_if_needed]

/-- Witness of C27: a sequence made of the replay gain placeholder only is
dispatched, succeeds and writes nothing. -/
theorem shorthand_write_at_most_once_witness :
    ∃ out, do_shorthand_operations_on_file sample_handlers
        (sample_library [sample_block MetadataType.STREAMINFO 34 true id_zero]) true "a.flac"
        (sample_options [] false false true
          [sample_operation OperationType.ADD_REPLAY_GAIN]) = Except.ok out ∧
      out.ok = true ∧ out.events = [] ∧
      out.dispatched = [sample_operation OperationType.ADD_REPLAY_GAIN] :=
  ⟨{ ok := true, needs_write := false, use_padding := true
     chain := some [sample_block MetadataType.STREAMINFO 34 true id_zero]
     dispatched := [sample_operation OperationType.ADD_REPLAY_GAIN], events := [] },
    rfl,
    (shorthand_write_at_most_once sample_handlers
      (sample_library [sample_block MetadataType.STREAMINFO 34 true id_zero]) true "a.flac"
      (sample_options [] false false true [sample_operation OperationType.ADD_REPLAY_GAIN])
      [sample_block MetadataType.STREAMINFO 34 true id_zero]
      { ok := true, needs_write := false, use_padding := true
        chain := some [sample_block MetadataType.STREAMINFO 34 true id_zero]
        dispatched := [sample_operation OperationType.ADD_REPLAY_GAIN], events := [] }
      sample_handlers_keep_needs_write rfl rfl).2.2.2 (by decide)⟩

/-! ### The aggregator is skipped after a failed pass -/

theorem zipWith_file_pass_not_replay_gain (filenames : List String)
    (outs : List ShorthandFileOutcome) :
    ∀ e ∈ List.zipWith ShorthandBatchEvent.file_pass filenames outs,
      e.is_replay_gain = false := by
  induction filenames generalizing outs with
  | nil => intro e he; simp at he
  | cons f fs ih =>
      cases outs with
      | nil => intro e he; simp at he
      | cons o os =>
          intro e he
          rw [List.zipWith_cons_cons] at he
          rcases List.mem_cons.mp he with rfl | h2
          · rfl
          · exact ih os e h2

/-- C28. For a batch under shorthand operations whose per-file passes all
return: if the pass of some file returned false, or the batch has no files,
then the batch call returns with a record that holds the per-file passes only,
one per file and in order, and no run of the replay gain aggregator, whatever
the operations requested; its result is true if the batch is empty and false
otherwise. -/
theorem replay_gain_skipped_after_failure (lib : ShorthandLibrary) (mlib : MetadataLibrary)
    (rg : ReplayGainLibrary) (assert_active : Bool) (options : CommandLineOptions)
    (outs : List ShorthandFileOutcome)
    (hfiles : List.Forall₂
      (fun filename out =>
        do_shorthand_operations_on_file lib mlib assert_active filename options = Except.ok out)
      options.filenames outs)
    (hfail : (∃ out ∈ outs, out.ok = false) ∨ options.filenames = []) :
    ∃ result, do_shorthand_operations lib mlib rg assert_active options = Except.ok result ∧
      result.log = List.zipWith ShorthandBatchEvent.file_pass options.filenames outs ∧
      (∀ e ∈ result.log, e.is_replay_gain = false) ∧
      result.ok = decide (options.filenames = []) := by
  have hcond : ((true && outs.all (fun out => out.ok)) &&
      decide (0 < options.filenames.length)) = false := by
    rcases hfail with ⟨out, hmem, hout⟩ | hempty
    · have hall : outs.all (fun out => out.ok) = false := by
        rw [List.all_eq_false]
        exact ⟨out, hmem, by simp [hout]⟩
      simp [hall]
    · simp [hempty]
  have hrun : do_shorthand_operations lib mlib rg assert_active options =
      Except.ok
        { ok := true && outs.all (fun out => out.ok)
          log := [] ++ List.zipWith ShorthandBatchEvent.file_pass options.filenames outs } := by
    unfold do_shorthand_operations
    rw [do_shorthand_operations_files_eq lib mlib assert_active options options.filenames outs
      hfiles]
    simp only [hcond, Bool.false_eq_true, if_false]
  refine ⟨_, hrun, by simp, ?_, ?_⟩
  · intro e he
    exact zipWith_file_pass_not_replay_gain options.filenames outs e (by simpa using he)
  · rcases hfail with ⟨out, hmem, hout⟩ | hempty
    · have hall : outs.all (fun out => out.ok) = false := by
        rw [List.all_eq_false]
        exact ⟨out, hmem, by simp [hout]⟩
      have hne : options.filenames ≠ [] := by
        intro h
        rw [h] at hfiles
        cases hfiles
        simp at hmem
      simp [hall, hne]
    · rw [hempty] at hfiles
      cases hfiles
      simp [hempty]

/-- Witness of C28: two files, replay gain requested, the second file cannot be
read: two file passes, no run of the aggregator, result false. -/
theorem replay_gain_skipped_after_failure_witness :
    ∃ result, do_shorthand_operations sample_handlers
        (sample_library_without "b.flac" [sample_block MetadataType.STREAMINFO 34 true id_zero])
        (sample_replay_gain (fun _ => some cd_streaminfo) (fun _ => false) (fun _ => false))
        true
        { sample_options [] false false false
            [sample_operation OperationType.ADD_REPLAY_GAIN] with
          filenames := ["a.flac", "b.flac"] } = Except.ok result ∧
      result.log.map ShorthandBatchEvent.is_replay_gain = [false, false] ∧
      result.ok = false :=
  (replay_gain_skipped_after_failure sample_handlers
      (sample_library_without "b.flac" [sample_block MetadataType.STREAMINFO 34 true id_zero])
      (sample_replay_gain (fun _ => some cd_streaminfo) (fun _ => false) (fun _ => false))
      true
      { sample_options [] false false false
          [sample_operation OperationType.ADD_REPLAY_GAIN] with
        filenames := ["a.flac", "b.flac"] }
      [ { ok := true, needs_write := false, use_padding := false
          chain := some [sample_block MetadataType.STREAMINFO 34 true id_zero]
          dispatched := [sample_operation OperationType.ADD_REPLAY_GAIN], events := [] },
        { ok := false, needs_write := false, use_padding := false, chain := none
          dispatched := [], events := [] } ]
      (List.Forall₂.cons rfl (List.Forall₂.cons rfl List.Forall₂.nil))
      (Or.inl ⟨_, List.mem_cons_of_mem _ (List.mem_cons_self _ _), rfl⟩)).elim
    fun result h => ⟨result, h.1, by rw [h.2.1]; rfl, h.2.2.2.trans (by decide)⟩

end Metaflac

/-! ## Theorems about the file encoder -/

namespace LibFLAC

theorem file_encoder_set_guarded (lib : FileEncoderLibrary) (encoder : FLAC__FileEncoder)
    (h : encoder.protected_.state ≠ FLAC__FileEncoderState.FLAC__FILE_ENCODER_UNINITIALIZED)
    (setting : EncoderSetting) : file_encoder_set lib encoder setting = (false, encoder) := by
  cases setting <;>
    simp [file_encoder_set, FLAC__file_encoder_set_metadata, FLAC__file_encoder_set_streamable_subset, FLAC__file_encoder_set_do_mid_side_stereo, FLAC__file_encoder_set_loose_mid_side_stereo, FLAC__file_encoder_set_channels, FLAC__file_encoder_set_bits_per_sample, FLAC__file_encoder_set_sample_rate, FLAC__file_encoder_set_blocksize, FLAC__file_encoder_set_max_lpc_order, FLAC__file_encoder_set_qlp_coeff_precision, FLAC__file_encoder_set_do_qlp_coeff_prec_search, FLAC__file_encoder_set_do_escape_coding, FLAC__file_encoder_set_do_exhaustive_model_search, FLAC__file_encoder_set_min_residual_partition_order, FLAC__file_encoder_set_max_residual_partition_order, FLAC__file_encoder_set_rice_parameter_search_dist, FLAC__file_encoder_set_total_samples_estimate, h]

theorem set_filename_guarded (lib : FileEncoderLibrary) (encoder : FLAC__FileEncoder)
    (h : encoder.protected_.state ≠ FLAC__FileEncoderState.FLAC__FILE_ENCODER_UNINITIALIZED)
    (value : String) : FLAC__file_encoder_set_filename lib encoder value = (false, encoder) := by
  simp [FLAC__file_encoder_set_filename, h]

theorem init_when_not_uninitialized (lib : FileEncoderLibrary) (encoder : FLAC__FileEncoder)
    (h : encoder.protected_.state ≠ FLAC__FileEncoderState.FLAC__FILE_ENCODER_UNINITIALIZED) :
    FLAC__file_encoder_init lib encoder =
      (FLAC__FileEncoderState.FLAC__FILE_ENCODER_ALREADY_INITIALIZED,
        { encoder with
          protected_ :=
            { state := FLAC__FileEncoderState.FLAC__FILE_ENCODER_ALREADY_INITIALIZED } }) := by
  simp [FLAC__file_encoder_init, h]

/-- As long as the client does not call `finish`, an encoder that is not
UNINITIALIZED stays so, and its file, file name and seekable stream encoder are
left as they are. -/
theorem client_calls_guarded (lib : FileEncoderLibrary) :
    ∀ (calls : List ClientCall) (encoder : FLAC__FileEncoder),
      encoder.protected_.state ≠ FLAC__FileEncoderState.FLAC__FILE_ENCODER_UNINITIALIZED →
      (client_calls lib encoder calls).protected_.state ≠
          FLAC__FileEncoderState.FLAC__FILE_ENCODER_UNINITIALIZED ∧
        (client_calls lib encoder calls).private_ = encoder.private_ := by
  intro calls
  induction calls with
  | nil => intro encoder h; exact ⟨h, rfl⟩
  | cons call rest ih =>
      intro encoder h
      rw [client_calls]
      cases call with
      | set setting =>
          simp only [client_call, file_encoder_set_guarded lib encoder h]
          exact ih encoder h
      | set_filename value =>
          simp only [client_call, set_filename_guarded lib encoder h]
          exact ih encoder h
      | init =>
          simp only [client_call, init_when_not_uninitialized lib encoder h]
          exact ih _ (by simp)

theorem finish_when_not_uninitialized (encoder : FLAC__FileEncoder)
    (h : encoder.protected_.state ≠ FLAC__FileEncoderState.FLAC__FILE_ENCODER_UNINITIALIZED) :
    FLAC__file_encoder_finish encoder =
      { protected_ := { state := FLAC__FileEncoderState.FLAC__FILE_ENCODER_UNINITIALIZED }
        private_ :=
          { file := none, filename := none
            seekable_stream_encoder :=
              encoder.private_.seekable_stream_encoder ++ [SeekableCall.finish] } } := by
  obtain ⟨⟨state⟩, ⟨file, filename, calls⟩⟩ := encoder
  simp only at h
  cases file <;> cases filename <;> simp [FLAC__file_encoder_finish, set_defaults_, h]

theorem finish_when_uninitialized (encoder : FLAC__FileEncoder)
    (h : encoder.protected_.state = FLAC__FileEncoderState.FLAC__FILE_ENCODER_UNINITIALIZED) :
    FLAC__file_encoder_finish encoder = encoder := by
  simp [FLAC__file_encoder_finish, h]

/-- C29. For a file encoder whose state is not UNINITIALIZED: each of the
setters `set_streamable_subset` ... `set_metadata` and `set_filename` returns
false and leaves the encoder exactly as it is, so the state, the stored file
name and the seekable stream encoder (which receives no call) are unchanged.
This stays so through any series of calls of setters and `init`: `set_filename`
is rejected until `finish` is called, after which it is accepted when `malloc`
succeeds. An `init` on an UNINITIALIZED encoder without file name returns and
stores NO_FILENAME, which is such a state. -/
theorem file_encoder_setters_guarded (lib : FileEncoderLibrary) (encoder : FLAC__FileEncoder)
    (h : encoder.protected_.state ≠ FLAC__FileEncoderState.FLAC__FILE_ENCODER_UNINITIALIZED) :
    (∀ value, FLAC__file_encoder_set_streamable_subset lib encoder value = (false, encoder)) ∧
    (∀ value, FLAC__file_encoder_set_do_mid_side_stereo lib encoder value = (false, encoder)) ∧
    (∀ value, FLAC__file_encoder_set_loose_mid_side_stereo lib encoder value = (false, encoder)) ∧
    (∀ value, FLAC__file_encoder_set_channels lib encoder value = (false, encoder)) ∧
    (∀ value, FLAC__file_encoder_set_bits_per_sample lib encoder value = (false, encoder)) ∧
    (∀ value, FLAC__file_encoder_set_sample_rate lib encoder value = (false, encoder)) ∧
    (∀ value, FLAC__file_encoder_set_blocksize lib encoder value = (false, encoder)) ∧
    (∀ value, FLAC__file_encoder_set_max_lpc_order lib encoder value = (false, encoder)) ∧
    (∀ value, FLAC__file_encoder_set_qlp_coeff_precision lib encoder value = (false, encoder)) ∧
    (∀ value, FLAC__file_encoder_set_do_qlp_coeff_prec_search lib encoder value = (false, encoder)) ∧
    (∀ value, FLAC__file_encoder_set_do_escape_coding lib encoder value = (false, encoder)) ∧
    (∀ value, FLAC__file_encoder_set_do_exhaustive_model_search lib encoder value = (false, encoder)) ∧
    (∀ value, FLAC__file_encoder_set_min_residual_partition_order lib encoder value = (false, encoder)) ∧
    (∀ value, FLAC__file_encoder_set_max_residual_partition_order lib encoder value = (false, encoder)) ∧
    (∀ value, FLAC__file_encoder_set_rice_parameter_search_dist lib encoder value = (false, encoder)) ∧
    (∀ value, FLAC__file_encoder_set_total_samples_estimate lib encoder value = (false, encoder)) ∧
    (∀ metadata num_blocks,
      FLAC__file_encoder_set_metadata lib encoder metadata num_blocks = (false, encoder)) ∧
    (∀ value, FLAC__file_encoder_set_filename lib encoder value = (false, encoder)) ∧
    (∀ calls value,
      FLAC__file_encoder_set_filename lib (client_calls lib encoder calls) value =
          (false, client_calls lib encoder calls) ∧
        (client_calls lib encoder calls).private_ = encoder.private_) ∧
    (∀ value, lib.malloc (value.utf8ByteSize + 1) = true →
      FLAC__file_encoder_set_filename lib (FLAC__file_encoder_finish encoder) value =
        (true,
          { protected_ := { state := FLAC__FileEncoderState.FLAC__FILE_ENCODER_UNINITIALIZED }
            private_ :=
              { file := none, filename := some value
                seekable_stream_encoder :=
                  encoder.private_.seekable_stream_encoder ++ [SeekableCall.finish] } })) ∧
    (∀ e0 : FLAC__FileEncoder,
      e0.protected_.state = FLAC__FileEncoderState.FLAC__FILE_ENCODER_UNINITIALIZED →
      e0.private_.filename = none →
      FLAC__file_encoder_init lib e0 =
        (FLAC__FileEncoderState.FLAC__FILE_ENCODER_NO_FILENAME,
          { e0 with
            protected_ := { state := FLAC__FileEncoderState.FLAC__FILE_ENCODER_NO_FILENAME } })) := by
  refine ⟨?_, ?_, ?_, ?_, ?_, ?_, ?_, ?_, ?_, ?_, ?_, ?_, ?_, ?_, ?_, ?_, ?_, ?_, ?_, ?_, ?_⟩
  · intro value; simp [FLAC__file_encoder_set_streamable_subset, h]
  · intro value; simp [FLAC__file_encoder_set_do_mid_side_stereo, h]
  · intro value; simp [FLAC__file_encoder_set_loose_mid_side_stereo, h]
  · intro value; simp [FLAC__file_encoder_set_channels, h]
  · intro value; simp [FLAC__file_encoder_set_bits_per_sample, h]
  · intro value; simp [FLAC__file_encoder_set_sample_rate, h]
  · intro value; simp [FLAC__file_encoder_set_blocksize, h]
  · intro value; simp [FLAC__file_encoder_set_max_lpc_order, h]
  · intro value; simp [FLAC__file_encoder_set_qlp_coeff_precision, h]
  · intro value; simp [FLAC__file_encoder_set_do_qlp_coeff_prec_search, h]
  · intro value; simp [FLAC__file_encoder_set_do_escape_coding, h]
  · intro value; simp [FLAC__file_encoder_set_do_exhaustive_model_search, h]
  · intro value; simp [FLAC__file_encoder_set_min_residual_partition_order, h]
  · intro value; simp [FLAC__file_encoder_set_max_residual_partition_order, h]
  · intro value; simp [FLAC__file_encoder_set_rice_parameter_search_dist, h]
  · intro value; simp [FLAC__file_encoder_set_total_samples_estimate, h]
  · intro metadata num_blocks; simp [FLAC__file_encoder_set_metadata, h]
  · intro value; exact set_filename_guarded lib encoder h value
  · intro calls value
    obtain ⟨h1, h2⟩ := client_calls_guarded lib calls encoder h
    exact ⟨set_filename_guarded lib _ h1 value, h2⟩
  · intro value hm
    rw [finish_when_not_uninitialized encoder h]
    simp [FLAC__file_encoder_set_filename, hm]
  · intro e0 h0 hf
    simp [FLAC__file_encoder_init, h0, hf]

/-- Witness of C29: an encoder left in the state NO_FILENAME by a failed `init`
rejects `set_filename`, also after a further `init` and a setter. -/
theorem file_encoder_setters_guarded_witness :
    FLAC__file_encoder_init sample_encoder_library
        (sample_encoder FLAC__FileEncoderState.FLAC__FILE_ENCODER_UNINITIALIZED none none) =
      (FLAC__FileEncoderState.FLAC__FILE_ENCODER_NO_FILENAME,
        sample_encoder FLAC__FileEncoderState.FLAC__FILE_ENCODER_NO_FILENAME none none) ∧
    FLAC__file_encoder_set_filename sample_encoder_library
        (client_calls sample_encoder_library
          (sample_encoder FLAC__FileEncoderState.FLAC__FILE_ENCODER_NO_FILENAME none none)
          [ClientCall.init, ClientCall.set (EncoderSetting.channels 2)]) "a.flac" =
      (false,
        client_calls sample_encoder_library
          (sample_encoder FLAC__FileEncoderState.FLAC__FILE_ENCODER_NO_FILENAME none none)
          [ClientCall.init, ClientCall.set (EncoderSetting.channels 2)]) :=
  ⟨rfl,
    ((file_encoder_setters_guarded sample_encoder_library
      (sample_encoder FLAC__FileEncoderState.FLAC__FILE_ENCODER_NO_FILENAME none none)
      (by decide)).2.2.2.2.2.2.2.2.2.2.2.2.2.2.2.2.2.2.1
      [ClientCall.init, ClientCall.set (EncoderSetting.channels 2)] "a.flac").1⟩

/-- C30, where the claim fails: an UNINITIALIZED encoder that holds a file
name, as `set_filename` on a new encoder leaves it. `finish` changes nothing,
so the `init` right after it, without a new `set_filename`, opens the file and
returns and stores OK, not NO_FILENAME. -/
theorem init_after_finish_keeps_filename :
    FLAC__file_encoder_set_filename sample_encoder_library
        (sample_encoder FLAC__FileEncoderState.FLAC__FILE_ENCODER_UNINITIALIZED none none)
        "a.flac" =
      (true,
        sample_encoder FLAC__FileEncoderState.FLAC__FILE_ENCODER_UNINITIALIZED none
          (some "a.flac")) ∧
    FLAC__file_encoder_finish
        (sample_encoder FLAC__FileEncoderState.FLAC__FILE_ENCODER_UNINITIALIZED none
          (some "a.flac")) =
      sample_encoder FLAC__FileEncoderState.FLAC__FILE_ENCODER_UNINITIALIZED none
        (some "a.flac") ∧
    (FLAC__file_encoder_init sample_encoder_library
        (FLAC__file_encoder_finish
          (sample_encoder FLAC__FileEncoderState.FLAC__FILE_ENCODER_UNINITIALIZED none
            (some "a.flac")))).1 = FLAC__FileEncoderState.FLAC__FILE_ENCODER_OK ∧
    (FLAC__file_encoder_init sample_encoder_library
        (FLAC__file_encoder_finish
          (sample_encoder FLAC__FileEncoderState.FLAC__FILE_ENCODER_UNINITIALIZED none
            (some "a.flac")))).2.protected_.state =
      FLAC__FileEncoderState.FLAC__FILE_ENCODER_OK :=
  ⟨rfl, rfl, rfl, rfl⟩

/-- C30, amended. (1) From every state other than UNINITIALIZED, `finish`
leaves the encoder UNINITIALIZED, with no open file and no stored file name,
its seekable stream encoder finished. (2) On an UNINITIALIZED encoder `finish`
changes nothing, and (3) `finish` is idempotent. (4) An `init` right after a
`finish` made in a state other than UNINITIALIZED returns and stores
NO_FILENAME. (5) After a `finish` on an UNINITIALIZED encoder, `init` does what
it does without that `finish`: it returns NO_FILENAME exactly when no file name
is stored. (6) `init` on an encoder whose state is not UNINITIALIZED returns
and stores ALREADY_INITIALIZED and changes nothing else. -/
theorem file_encoder_reset (lib : FileEncoderLibrary) (encoder : FLAC__FileEncoder) :
    (encoder.protected_.state ≠ FLAC__FileEncoderState.FLAC__FILE_ENCODER_UNINITIALIZED →
      FLAC__file_encoder_finish encoder =
        { protected_ := { state := FLAC__FileEncoderState.FLAC__FILE_ENCODER_UNINITIALIZED }
          private_ :=
            { file := none, filename := none
              seekable_stream_encoder :=
                encoder.private_.seekable_stream_encoder ++ [SeekableCall.finish] } }) ∧
    (encoder.protected_.state = FLAC__FileEncoderState.FLAC__FILE_ENCODER_UNINITIALIZED →
      FLAC__file_encoder_finish encoder = encoder) ∧
    FLAC__file_encoder_finish (FLAC__file_encoder_finish encoder) =
      FLAC__file_encoder_finish encoder ∧
    (encoder.protected_.state ≠ FLAC__FileEncoderState.FLAC__FILE_ENCODER_UNINITIALIZED →
      FLAC__file_encoder_init lib (FLAC__file_encoder_finish encoder) =
        (FLAC__FileEncoderState.FLAC__FILE_ENCODER_NO_FILENAME,
          { protected_ := { state := FLAC__FileEncoderState.FLAC__FILE_ENCODER_NO_FILENAME }
            private_ :=
              { file := none, filename := none
                seekable_stream_encoder :=
                  encoder.private_.seekable_stream_encoder ++ [SeekableCall.finish] } })) ∧
    (encoder.protected_.state = FLAC__FileEncoderState.FLAC__FILE_ENCODER_UNINITIALIZED →
      FLAC__file_encoder_init lib (FLAC__file_encoder_finish encoder) =
          FLAC__file_encoder_init lib encoder ∧
        ((FLAC__file_encoder_init lib encoder).1 =
            FLAC__FileEncoderState.FLAC__FILE_ENCODER_NO_FILENAME ↔
          encoder.private_.filename = none)) ∧
    (encoder.protected_.state ≠ FLAC__FileEncoderState.FLAC__FILE_ENCODER_UNINITIALIZED →
      FLAC__file_encoder_init lib encoder =
        (FLAC__FileEncoderState.FLAC__FILE_ENCODER_ALREADY_INITIALIZED,
          { encoder with
            protected_ :=
              { state := FLAC__FileEncoderState.FLAC__FILE_ENCODER_ALREADY_INITIALIZED } })) := by
  refine ⟨finish_when_not_uninitialized encoder, finish_when_uninitialized encoder, ?_, ?_, ?_,
    init_when_not_uninitialized lib encoder⟩
  · by_cases h : encoder.protected_.state =
        FLAC__FileEncoderState.FLAC__FILE_ENCODER_UNINITIALIZED
    · rw [finish_when_uninitialized encoder h, finish_when_uninitialized encoder h]
    · rw [finish_when_not_uninitialized encoder h]
      exact finish_when_uninitialized _ rfl
  · intro h
    rw [finish_when_not_uninitialized encoder h]
    simp [FLAC__file_encoder_init]
  · intro h
    rw [finish_when_uninitialized encoder h]
    refine ⟨rfl, ?_⟩
    cases hf : encoder.private_.filename with
    | none => simp [FLAC__file_encoder_init, h, hf]
    | some filename =>
        cases ho : lib.fopen filename with
        | none => simp [FLAC__file_encoder_init, h, hf, ho]
        | some file =>
            cases hi : lib.init_ok (encoder.private_.seekable_stream_encoder ++
              [SeekableCall.set_seek_callback, SeekableCall.set_write_callback,
                SeekableCall.set_client_data]) <;>
              simp [FLAC__file_encoder_init, h, hf, ho, hi]

/-- Witness of the amended C30: an encoder in the state OK with an open file
and a file name is reset by `finish`, and the `init` right after it returns
NO_FILENAME. -/
theorem file_encoder_reset_witness :
    FLAC__file_encoder_finish
        (sample_encoder FLAC__FileEncoderState.FLAC__FILE_ENCODER_OK (some 3)
          (some "a.flac")) =
      { protected_ := { state := FLAC__FileEncoderState.FLAC__FILE_ENCODER_UNINITIALIZED }
        private_ :=
          { file := none, filename := none, seekable_stream_encoder := [SeekableCall.finish] } } ∧
    (FLAC__file_encoder_init sample_encoder_library
        (FLAC__file_encoder_finish
          (sample_encoder FLAC__FileEncoderState.FLAC__FILE_ENCODER_OK (some 3)
            (some "a.flac")))).1 = FLAC__FileEncoderState.FLAC__FILE_ENCODER_NO_FILENAME :=
  ⟨(file_encoder_reset sample_encoder_library
      (sample_encoder FLAC__FileEncoderState.FLAC__FILE_ENCODER_OK (some 3)
        (some "a.flac"))).1 (by decide),
    congrArg Prod.fst
      ((file_encoder_reset sample_encoder_library
        (sample_encoder FLAC__FileEncoderState.FLAC__FILE_ENCODER_OK (some 3)
          (some "a.flac"))).2.2.2.1 (by decide))⟩

end LibFLAC
